import Mathlib

/-!
# WASM agent firmware (`zephyrproject/firmware_2/src/main.c`): module lifecycle and command protocol

Shallow embedding of the agent's CRC-32 verifier, serial frame decoder, parameter
parser, slot table and command handlers, followed by the properties established
about them.

Conventions of the embedding.

* A C string is the list of its characters before the terminating NUL (`CStr`).
* `uint32_t` values are natural numbers kept below `2 ^ 32`; every operation that can
  leave that range is reduced `% 2 ^ 32` explicitly.
* A pointer into the slot table `g_mods` is the index of the slot.
* Handles of the sandbox runtime (`wasm_module_t`, `wasm_module_inst_t`,
  `wasm_exec_env_t`) are `Option Nat`, `none` being `NULL`.
* The sandbox runtime, the heap and the UART are outside the program; the result of
  each call into them is supplied to a handler in an environment record.
* Every string passed to `agent_write_str` is collected, in order, in the list a
  handler returns beside the new state.
-/

set_option maxRecDepth 200000

namespace Agent

/-! ## Configuration constants -/

/-- `#define MAX_MODULES 2` -/
def MAX_MODULES : Nat := 2

/-- `#define LINE_BUF_SIZE 256` -/
def LINE_BUF_SIZE : Nat := 256

/-- `#define MAX_CALL_ARGS 4` -/
def MAX_CALL_ARGS : Nat := 4

/-- `#define START_GUARD_BYTES_NEED_EXEC_ENV (16 * 1024)` -/
def START_GUARD_BYTES_NEED_EXEC_ENV : Nat := 16 * 1024

/-- `#define START_GUARD_BYTES_HAVE_EXEC_ENV (4 * 1024)` -/
def START_GUARD_BYTES_HAVE_EXEC_ENV : Nat := 4 * 1024

/-- Depth of `uart_msgq` (`K_MSGQ_DEFINE(uart_msgq, LINE_BUF_SIZE, 4, 4)`). -/
def UART_MSGQ_DEPTH : Nat := 4

/-- One octet (`uint8_t`). -/
abbrev Byte := Fin 256

/-- C string: the characters before the terminating NUL. -/
abbrev CStr := List Char

/-- Range of `uint32_t`. -/
def U32 : Nat := 2 ^ 32

/-! ## CRC-32 (`crc32_calc`)

The function is the same, character for character, in `firmware_2/src/main.c` and
`firmware/agent/src/main.c`. -/

/-- Body of the inner `for (j ...)` loop of `crc32_calc`:
`lsb = crc & 1u; mask = -(int32_t)lsb; crc = (crc >> 1) ^ (0xEDB88320u & mask);`.
The negation of `lsb` converted back to `uint32_t` is `(2^32 - lsb) % 2^32`. -/
def crc32_bit (crc : Nat) : Nat :=
  let lsb := crc &&& 1
  let mask := (U32 - lsb) % U32
  (crc >>> 1) ^^^ (0xEDB88320 &&& mask)

/-- The inner loop run `j` times. -/
def crc32_bits : Nat → Nat → Nat
  | 0, crc => crc
  | j + 1, crc => crc32_bits j (crc32_bit crc)

/-- One iteration of the outer loop: `crc ^= data[i];` then eight inner iterations. -/
def crc32_byte (crc : Nat) (b : Byte) : Nat :=
  crc32_bits 8 (crc ^^^ b.val)

/-- The outer `for (i ...)` loop over the bytes, in order. -/
def crc32_loop : List Byte → Nat → Nat
  | [], crc => crc
  | b :: rest, crc => crc32_loop rest (crc32_byte crc b)

/-- `static uint32_t crc32_calc(const uint8_t *data, size_t len)`: start at
`0xFFFFFFFF`, run the loop, return `~crc` (the 32-bit complement). -/
def crc32_calc (data : List Byte) : Nat :=
  (U32 - 1 - crc32_loop data 0xFFFFFFFF) % U32

/-! ### Reference CRC-32 as the specification words it

Reflected polynomial `0xEDB88320`, initial value `0xFFFFFFFF`, final XOR
`0xFFFFFFFF`, bytes consumed in order, arithmetic modulo `2 ^ 32`. -/

/-- One bit of the reflected division: shift right, and subtract (XOR) the
polynomial when the bit shifted out was set. -/
def ref_crc_bit (crc : Nat) : Nat :=
  if crc % 2 = 1 then ((crc / 2) ^^^ 0xEDB88320) % 2 ^ 32 else (crc / 2) % 2 ^ 32

/-- One byte of the reference CRC: the byte is XORed into the low bits and eight
bits are divided out. -/
def ref_crc_byte (crc : Nat) (b : Byte) : Nat :=
  ref_crc_bit (ref_crc_bit (ref_crc_bit (ref_crc_bit (ref_crc_bit (ref_crc_bit
    (ref_crc_bit (ref_crc_bit ((crc ^^^ b.val) % 2 ^ 32))))))))

/-- Reference CRC-32 (zlib / IEEE 802.3) of a byte sequence. -/
def ref_crc32 (data : List Byte) : Nat :=
  (data.foldl ref_crc_byte 0xFFFFFFFF ^^^ 0xFFFFFFFF) % 2 ^ 32

/-! ## C library routines used by the handlers

`atoi`, `strtoul`, `strncmp`, `strncpy` and `snprintf` are not part of the program;
they are modelled after their ISO C definitions on 32-bit `int` / `long`. -/

/-- `isspace` in the C locale. -/
def isspace (c : Char) : Bool :=
  c == ' ' || c == '\t' || c == '\n' || c == '\x0b' || c == '\x0c' || c == '\r'

/-- Value of a digit character in bases up to 36. -/
def digit_value (c : Char) : Option Nat :=
  if '0' ≤ c ∧ c ≤ '9' then some (c.toNat - 48)
  else if 'a' ≤ c ∧ c ≤ 'z' then some (c.toNat - 87)
  else if 'A' ≤ c ∧ c ≤ 'Z' then some (c.toNat - 55)
  else none

/-- Mathematical value of the longest prefix of digits valid in `base`,
continuing from the accumulator. -/
def accum_digits (base : Nat) : List Char → Nat → Nat
  | [], acc => acc
  | c :: cs, acc =>
    match digit_value c with
    | some d => if d < base then accum_digits base cs (acc * base + d) else acc
    | none => acc

/-- Removes the optional `0x` / `0X` prefix accepted in base 16. -/
def skip_0x (base : Nat) (s : CStr) : CStr :=
  match s with
  | '0' :: 'x' :: r => if base = 16 then r else s
  | '0' :: 'X' :: r => if base = 16 then r else s
  | _ => s

/-- `strtoul(s, NULL, base)` with a 32-bit `unsigned long`: leading white space,
optional sign, digits; a value out of range gives `ULONG_MAX`, a minus sign
negates modulo `2 ^ 32`. -/
def strtoul (s : CStr) (base : Nat) : Nat :=
  let t := s.dropWhile isspace
  let neg := t.head? == some '-'
  let u := if t.head? == some '-' || t.head? == some '+' then t.drop 1 else t
  let v := accum_digits base (skip_0x base u) 0
  if v ≥ U32 then U32 - 1
  else if neg then (U32 - v) % U32
  else v

/-- `strtol(s, NULL, base)` with a 32-bit `long`: saturates at `LONG_MIN` /
`LONG_MAX`. -/
def strtol (s : CStr) (base : Nat) : Int :=
  let t := s.dropWhile isspace
  let neg := t.head? == some '-'
  let u := if t.head? == some '-' || t.head? == some '+' then t.drop 1 else t
  let v := accum_digits base (skip_0x base u) 0
  if neg then (if v ≥ 2 ^ 31 then -(2 ^ 31 : Int) else -(v : Int))
  else (if v ≥ 2 ^ 31 then (2 ^ 31 - 1 : Int) else (v : Int))

/-- `atoi(s)`, defined by ISO C as `(int)strtol(s, NULL, 10)`. -/
def atoi (s : CStr) : Int := strtol s 10

/-- Conversion of an `int` to `uint32_t`. -/
def to_u32 (x : Int) : Nat := (x % (2 ^ 32 : Int)).toNat

/-- `strncmp(a, b, n) == 0` on C strings: the first `n` characters agree. -/
def strncmp_eq (a b : CStr) (n : Nat) : Bool := a.take n == b.take n

/-- `snprintf(out, n, ...)`: the formatted text cut to `n - 1` characters. -/
def snprintf (n : Nat) (text : CStr) : CStr := text.take (n - 1)

/-- Conversion `%u` / `%lu` / `%zu`: decimal digits of a 32-bit value. -/
def fmt_u (n : Nat) : CStr := Nat.toDigits 10 (n % U32)

/-- Conversion `%08lx`: lower-case hexadecimal, zero-padded to eight digits. -/
def fmt_08lx (n : Nat) : CStr :=
  let d := Nat.toDigits 16 (n % U32)
  List.replicate (8 - d.length) '0' ++ d

/-! ## Parameter parsing (`find_param`, `copy_param_value`) -/

/-- `static const char *find_param(const char *line, const char *key)`.

The `while ((p = strstr(p, key)) != NULL)` loop visits, in increasing order, the
positions of `line` at which `key` occurs; at each one it returns the text after
`key=` when `p[key_len] == '='` and otherwise resumes the search at `p + 1`.  The
recursion below walks the positions of `line` in the same order: a position where
`key` is not a prefix is one `strstr` skips. `none` is `NULL`. -/
def find_param : CStr → CStr → Option CStr
  | [], _ => none
  | c :: rest, key =>
    if key.isPrefixOf (c :: rest) then
      if ((c :: rest).drop key.length).head? = some '=' then
        some ((c :: rest).drop (key.length + 1))
      else find_param rest key
    else find_param rest key

/-- The `while` loop of `copy_param_value`, from index `i`: the characters stored
into `dst`, in order. A character is stored only when `i + 1 < dst_len`. -/
def copy_param_loop (dst_len : Nat) : CStr → Nat → CStr
  | [], _ => []
  | c :: cs, i =>
    if c = '\x00' ∨ c = ' ' ∨ c = '\r' ∨ c = '\n' then []
    else if i + 1 < dst_len then c :: copy_param_loop dst_len cs (i + 1)
    else copy_param_loop dst_len cs (i + 1)

/-- `static void copy_param_value(const char *start, char *dst, size_t dst_len)`
for `dst_len > 0`: the C string left in `dst` (the stored characters, terminated at
index `min i (dst_len - 1)`). -/
def copy_param_value (start : CStr) (dst_len : Nat) : CStr :=
  copy_param_loop dst_len start 0

/-! ## Types and global state -/

/-- `typedef enum { MOD_EMPTY=0, MOD_LOADED, MOD_RUNNING } mod_state_t;` -/
inductive mod_state_t
  | MOD_EMPTY
  | MOD_LOADED
  | MOD_RUNNING
  deriving DecidableEq, Repr

/-- `run_request_t`: `func_name[64]`, `argc`, `argv[MAX_CALL_ARGS]`. -/
structure run_request_t where
  func_name : CStr
  argc : Nat
  argv : List Nat
  deriving DecidableEq, Repr

/-- Control state of a slot's worker thread (the content of `struct k_thread`
that matters to the protocol): no thread, created and not yet run, blocked in
`k_sem_take(&slot->work_sem, K_FOREVER)`, inside `wasm_runtime_call_wasm` (with
the snapshot `req` and `result_count` it holds on its stack), or returned after
`wasm_runtime_init_thread_env` failed. -/
inductive k_thread
  | T_NONE
  | T_START
  | T_WAIT
  | T_CALL (req : run_request_t) (result_count : Nat)
  | T_EXIT
  deriving DecidableEq, Repr

/-- `module_slot_t`. `tid` is `true` when the pointer is not `NULL`; `work_sem` is
the count of the semaphore; `stop_dwork` is `true` while the delayed work item is
scheduled. `wasm_buf` holds the bytes written so far into the allocated block (the
block's remaining bytes are indeterminate and never read). -/
structure module_slot_t where
  used : Bool
  module_id : CStr
  wasm_buf : Option (List Byte)
  wasm_size : Nat
  module : Option Nat
  inst : Option Nat
  exec_env : Option Nat
  stop_requested : Bool
  busy : Bool
  state : mod_state_t
  thread : k_thread
  tid : Bool
  work_sem : Nat
  req : run_request_t
  stop_dwork : Bool
  terminate_requested : Bool
  deriving DecidableEq, Repr

/-- `typedef enum { RX_STATE_LINE=0, RX_STATE_BINARY } rx_state_t;` -/
inductive rx_state_t
  | RX_STATE_LINE
  | RX_STATE_BINARY
  deriving DecidableEq, Repr

/-- The globals of the agent. `rx_buf` holds `rx_buf[0 .. rx_buf_pos)`, so
`rx_buf_pos` is its length. `g_bin_buf` is `none` for `NULL`, else the index of the
slot whose `wasm_buf` it points to. `bin_sem` is the semaphore count. `uart_msgq`
lists the queued line buffers, oldest first. -/
structure State where
  g_mods : List module_slot_t
  rx_buf : CStr
  g_rx_state : rx_state_t
  g_bin_buf : Option Nat
  g_bin_expected : Nat
  g_bin_received : Nat
  bin_sem : Nat
  uart_msgq : List CStr
  deriving DecidableEq, Repr

/-- A slot after `memset(slot, 0, sizeof(*slot))`. -/
def slot_zero : module_slot_t :=
  { used := false, module_id := [], wasm_buf := none, wasm_size := 0,
    module := none, inst := none, exec_env := none,
    stop_requested := false, busy := false, state := mod_state_t.MOD_EMPTY,
    thread := k_thread.T_NONE, tid := false, work_sem := 0,
    req := { func_name := [], argc := 0, argv := List.replicate MAX_CALL_ARGS 0 },
    stop_dwork := false, terminate_requested := false }

/-- State at boot: zero-initialised statics. -/
def State.init : State :=
  { g_mods := List.replicate MAX_MODULES slot_zero, rx_buf := [],
    g_rx_state := rx_state_t.RX_STATE_LINE, g_bin_buf := none,
    g_bin_expected := 0, g_bin_received := 0, bin_sem := 0, uart_msgq := [] }

/-- Dereference of `&g_mods[i]`. -/
def slot_at (g : List module_slot_t) (i : Nat) : module_slot_t :=
  (g[i]?).getD slot_zero

/-- Assignment through `&g_mods[i]`: the slot at index `i` becomes `f` of it. -/
def slot_upd (g : List module_slot_t) (i : Nat) (f : module_slot_t → module_slot_t) :
    List module_slot_t :=
  match g[i]? with
  | some s => g.set i (f s)
  | none => g

/-! ## UART ISR (`serial_cb`) -/

/-- `k_msgq_put(&uart_msgq, &rx_buf, K_NO_WAIT)`: appended unless the queue is full. -/
def k_msgq_put (q : List CStr) (m : CStr) : List CStr :=
  if q.length < UART_MSGQ_DEPTH then q ++ [m] else q

/-- `k_sem_give` on a semaphore of limit 1. -/
def k_sem_give (count : Nat) : Nat := if count < 1 then count + 1 else count

/-- `g_bin_buf[pos] = c` where `g_bin_buf` points to the buffer of slot `i`. -/
def bin_store (g : List module_slot_t) (i pos : Nat) (c : Byte) : List module_slot_t :=
  slot_upd g i (fun s =>
    match s.wasm_buf with
    | some b => { s with wasm_buf := some (b.take pos ++ [c]) }
    | none => s)

/-- Body of the `while (uart_fifo_read(uart_dev, &c, 1) == 1)` loop of `serial_cb`
for one received byte `c`. -/
def serial_cb_byte (st : State) (c : Byte) : State :=
  match st.g_rx_state with
  | rx_state_t.RX_STATE_LINE =>
    let ch := Char.ofNat c.val
    if (ch = '\n' ∨ ch = '\r') ∧ st.rx_buf.length > 0 then
      { st with uart_msgq := k_msgq_put st.uart_msgq st.rx_buf, rx_buf := [] }
    else if st.rx_buf.length < LINE_BUF_SIZE - 1 then
      { st with rx_buf := st.rx_buf ++ [ch] }
    else st
  | rx_state_t.RX_STATE_BINARY =>
    match st.g_bin_buf with
    | some i =>
      if st.g_bin_received < st.g_bin_expected then
        let st1 := { st with g_mods := bin_store st.g_mods i st.g_bin_received c,
                             g_bin_received := st.g_bin_received + 1 }
        if st1.g_bin_received = st1.g_bin_expected then
          { st1 with g_rx_state := rx_state_t.RX_STATE_LINE, bin_sem := k_sem_give st1.bin_sem }
        else st1
      else st
    | none => st

/-- `serial_cb` run over the bytes the UART delivers, in arrival order. -/
def serial_cb (st : State) (bytes : List Byte) : State :=
  bytes.foldl serial_cb_byte st

/-! ## Slot management -/

/-- `static module_slot_t *slot_find(const char *module_id)`: index of the first
used slot whose id matches, `none` for `NULL`. -/
def slot_find : List module_slot_t → CStr → Option Nat
  | [], _ => none
  | s :: rest, module_id =>
    if s.used && strncmp_eq s.module_id module_id 32 then some 0
    else (slot_find rest module_id).map (· + 1)

/-- `static void slot_abort_worker(module_slot_t *slot)`. -/
def slot_abort_worker (slot : module_slot_t) : module_slot_t :=
  { slot with tid := false, thread := k_thread.T_NONE }

/-- `static void slot_ensure_worker(module_slot_t *slot)`: when there is no worker,
re-initialises `work_sem` and creates the thread. -/
def slot_ensure_worker (slot : module_slot_t) : module_slot_t :=
  if slot.tid then slot
  else { slot with work_sem := 0, tid := true, thread := k_thread.T_START }

/-- `static void slot_cleanup(module_slot_t *slot)`. -/
def slot_cleanup (slot : module_slot_t) : module_slot_t :=
  { slot with stop_requested := false, busy := false, state := mod_state_t.MOD_EMPTY,
              exec_env := none, inst := none, module := none,
              wasm_buf := none, wasm_size := 0 }

/-- The slot `slot_alloc` builds in an unused entry: zeroed, marked used, id copied
with `strncpy(..., sizeof(slot->module_id) - 1)`, worker created, timer initialised. -/
def slot_fresh (module_id : CStr) : module_slot_t :=
  let s := { slot_zero with used := true, module_id := module_id.take 31, work_sem := 0 }
  let s := slot_ensure_worker s
  { s with stop_dwork := false, terminate_requested := false,
           state := mod_state_t.MOD_EMPTY }

/-- `static module_slot_t *slot_alloc(const char *module_id)`: the table with the
first unused slot initialised, and that slot's index; `none` for `NULL`. -/
def slot_alloc : List module_slot_t → CStr → Option (List module_slot_t × Nat)
  | [], _ => none
  | s :: rest, module_id =>
    if !s.used then some (slot_fresh module_id :: rest, 0)
    else (slot_alloc rest module_id).map (fun r => (s :: r.1, r.2 + 1))

/-! ## `LOAD` -/

/-- What one `LOAD` command obtains from outside the program: whether
`wasm_runtime_malloc(size)` returns a block; the bytes the UART delivers to
`serial_cb` while the handler waits on `bin_sem` (at most 5 s); the results of
`wasm_runtime_load` and `wasm_runtime_instantiate` (a handle, or the text left in
`error_buf`) and of `wasm_runtime_create_exec_env`. -/
structure load_env where
  malloc_ok : Bool
  incoming : List Byte
  load_result : Except CStr Nat
  instantiate_result : Except CStr Nat
  exec_env_result : Option Nat

/-- The forced stop both replace paths of `handle_load_cmd` apply to a busy slot:
`slot_abort_worker; busy = false; stop_requested = false; slot_ensure_worker`. -/
def load_force_stop (slot : module_slot_t) : module_slot_t :=
  slot_ensure_worker { slot_abort_worker slot with busy := false, stop_requested := false }

/-- Target-slot resolution of `handle_load_cmd` (from `slot_find(module_id_buf)` to
the end of the `if (slot) ... else ...` statement): either the reply that ends the
command, or the updated table, the index of the target slot and
`warn_ignored_victim`. -/
def load_resolve (g : List module_slot_t) (module_id_buf victim_id_buf : CStr)
    (do_replace have_victim : Bool) : Except CStr (List module_slot_t × Nat × Bool) :=
  match slot_find g module_id_buf with
  | some i =>
    if (slot_at g i).busy then
      if !do_replace then
        Except.error "LOAD_ERR code=BUSY msg=\"module running\"\n".toList
      else
        Except.ok (slot_upd g i (fun s => slot_cleanup (load_force_stop s)), i, have_victim)
    else
      Except.ok (slot_upd g i slot_cleanup, i, have_victim)
  | none =>
    match slot_alloc g module_id_buf with
    | some r => Except.ok (r.1, r.2, false)
    | none =>
      if do_replace then
        if !have_victim then
          Except.error "LOAD_ERR code=FULL msg=\"NEED_VICTIM\"\n".toList
        else
          match slot_find g victim_id_buf with
          | none => Except.error "LOAD_ERR code=BAD_VICTIM msg=\"NOT_FOUND\"\n".toList
          | some v =>
            Except.ok
              (slot_upd g v (fun s =>
                  let s1 := if s.busy then load_force_stop s else s
                  { slot_cleanup s1 with module_id := module_id_buf.take 31 }),
               v, false)
      else
        Except.error "LOAD_ERR code=NO_SLOT msg=\"MAX_MODULES reached\"\n".toList

/-- The block of `handle_load_cmd` that stores the freshly allocated buffer in slot
`i` (`slot->wasm_buf`, `slot->wasm_size = size`) and, under `irq_lock`, registers it
with the decoder: `g_bin_buf`, `g_bin_expected`, `g_bin_received = 0`,
`g_rx_state = RX_STATE_BINARY`, `k_sem_reset(&bin_sem)`. -/
def load_arm (st : State) (i size : Nat) : State :=
  { st with
    g_mods := slot_upd st.g_mods i (fun s => { s with wasm_buf := some [], wasm_size := size }),
    g_bin_buf := some i, g_bin_expected := size, g_bin_received := 0,
    g_rx_state := rx_state_t.RX_STATE_BINARY, bin_sem := 0 }

/-- The `LOAD_READY` line written once the decoder is armed. -/
def load_ready_line (st : State) (i : Nat) (crc_str : CStr) : CStr :=
  snprintf 200
    ("LOAD_READY module_id=".toList ++ (slot_at st.g_mods i).module_id ++ " size=".toList
      ++ fmt_u (slot_at st.g_mods i).wasm_size ++ " crc32=".toList ++ crc_str ++ "\n".toList)

/-- `handle_load_cmd` from `k_sem_take(&bin_sem, K_SECONDS(5))` to the end, in the
state `st` reached when the wait ends: timeout when the semaphore was not given;
otherwise CRC check, `wasm_runtime_load`, `wasm_runtime_instantiate`,
`wasm_runtime_create_exec_env`, `LOAD_OK`. Every reply is preceded by the
`LOAD_READY` line `ready` already written. -/
def load_finish (st : State) (env : load_env) (i crc_expected : Nat)
    (ready victim_id_buf : CStr) (warn_ignored_victim : Bool) : State × List CStr :=
  if st.bin_sem = 0 then
    ({ st with g_rx_state := rx_state_t.RX_STATE_LINE, g_bin_buf := none,
               g_mods := slot_upd st.g_mods i slot_cleanup,
               g_bin_expected := 0, g_bin_received := 0 },
     [ready, "LOAD_ERR code=TIMEOUT msg=\"binary payload not received\"\n".toList])
  else
    let st3 : State := { st with bin_sem := 0, g_bin_buf := none }
    let slot := slot_at st3.g_mods i
    let crc_calc := crc32_calc ((slot.wasm_buf.getD []).take slot.wasm_size)
    if crc_calc ≠ crc_expected then
      ({ st3 with g_mods := slot_upd st3.g_mods i slot_cleanup },
       [ready, snprintf 200 ("LOAD_ERR code=BAD_CRC msg=\"expected=".toList
          ++ fmt_08lx crc_expected ++ " got=".toList ++ fmt_08lx crc_calc ++ "\"\n".toList)])
    else
      match env.load_result with
      | Except.error error_buf =>
        ({ st3 with g_mods := slot_upd st3.g_mods i slot_cleanup },
         [ready, snprintf 200 ("LOAD_ERR code=LOAD_FAIL msg=\"".toList ++ error_buf
            ++ "\"\n".toList)])
      | Except.ok m =>
        match env.instantiate_result with
        | Except.error error_buf =>
          ({ st3 with g_mods :=
               slot_upd st3.g_mods i (fun s => slot_cleanup { s with module := some m }) },
           [ready, snprintf 200 ("LOAD_ERR code=INSTANTIATE_FAIL msg=\"".toList ++ error_buf
              ++ "\"\n".toList)])
        | Except.ok inst =>
          match env.exec_env_result with
          | none =>
            ({ st3 with g_mods :=
                 slot_upd st3.g_mods i (fun s =>
                   slot_cleanup { s with module := some m, inst := some inst }) },
             [ready, snprintf 200
                "LOAD_ERR code=NO_EXEC_ENV msg=\"create_exec_env failed\"\n".toList])
          | some e =>
            ({ st3 with g_mods :=
                 slot_upd st3.g_mods i (fun s =>
                   { s with module := some m, inst := some inst, exec_env := some e,
                            state := mod_state_t.MOD_LOADED }) },
             [ready,
              if warn_ignored_victim then
                snprintf 200 ("LOAD_OK warn=VICTIM_IGNORED replace_victim=".toList
                  ++ victim_id_buf ++ "\n".toList)
              else "LOAD_OK\n".toList])

/-- The part of `handle_load_cmd` after the target slot `i` is resolved: allocate
the buffer (`NO_MEM` when `wasm_runtime_malloc` fails), arm the decoder, write
`LOAD_READY`, let the ISR consume the bytes that arrive during the wait, finish. -/
def load_payload (st : State) (env : load_env) (i size crc_expected : Nat)
    (crc_str victim_id_buf : CStr) (warn_ignored_victim : Bool) : State × List CStr :=
  if !env.malloc_ok then
    ({ st with g_mods := slot_upd st.g_mods i (fun s => { s with wasm_buf := none }) },
     ["LOAD_ERR code=NO_MEM\n".toList])
  else
    let st1 := load_arm st i size
    load_finish (serial_cb st1 env.incoming) env i crc_expected
      (load_ready_line st1 i crc_str) victim_id_buf warn_ignored_victim

/-- The locals `handle_load_cmd` fills from the line. -/
structure load_params where
  module_id_buf : CStr
  size_str : CStr
  crc_str : CStr
  do_replace : Bool
  victim_id_buf : CStr
  have_victim : Bool
  deriving DecidableEq, Repr

/-- Parameter extraction at the head of `handle_load_cmd`: `none` when `module_id`,
`size` or `crc32` is missing (the `BAD_PARAMS` exit). -/
def load_parse (line : CStr) : Option load_params :=
  let p_rep := find_param line "replace".toList
  let p_victim := find_param line "replace_victim".toList
  match find_param line "module_id".toList, find_param line "size".toList,
        find_param line "crc32".toList with
  | some p_mod, some p_size, some p_crc =>
    let victim_id_buf :=
      match p_victim with
      | some v => copy_param_value v 32
      | none => []
    some
      { module_id_buf := copy_param_value p_mod 32,
        size_str := copy_param_value p_size 16,
        crc_str := copy_param_value p_crc 16,
        do_replace :=
          match p_rep with
          | some r => (copy_param_value r 8).head? == some '1'
          | none => false,
        victim_id_buf := victim_id_buf,
        have_victim :=
          match p_victim with
          | some _ => !victim_id_buf.isEmpty
          | none => false }
  | _, _, _ => none

/-- `static void handle_load_cmd(const char *line)`. -/
def handle_load_cmd (st : State) (env : load_env) (line : CStr) : State × List CStr :=
  match load_parse line with
  | none => (st, ["LOAD_ERR code=BAD_PARAMS msg=\"missing module_id/size/crc32\"\n".toList])
  | some p =>
    let size := to_u32 (atoi p.size_str)
    if size = 0 then
      (st, ["LOAD_ERR code=BAD_PARAMS msg=\"size=0\"\n".toList])
    else
      let crc_expected := strtoul p.crc_str 16
      match load_resolve st.g_mods p.module_id_buf p.victim_id_buf p.do_replace
              p.have_victim with
      | Except.error reply => (st, [reply])
      | Except.ok r =>
        load_payload { st with g_mods := r.1 } env r.2.1 size crc_expected p.crc_str
          p.victim_id_buf r.2.2

/-! ## `START` -/

/-- `mem_alloc_info_t` as filled by `wasm_runtime_get_mem_alloc_info`. -/
structure mem_alloc_info_t where
  total_size : Nat
  total_free_size : Nat
  highmark_size : Nat
  deriving DecidableEq, Repr

/-- What one `START` command obtains from the runtime: the pool information
(`none` when `wasm_runtime_get_mem_alloc_info` returns false) and whether
`wasm_runtime_lookup_function(slot->inst, "app_main")` finds the export. -/
structure start_env where
  mem_info : Option mem_alloc_info_t
  has_app_main : Bool

/-- The tokens `strtok(buf, delim)` / `strtok(NULL, delim)` return in turn, for a
single delimiter character: the maximal runs of other characters. `cur` is the
token being read. -/
def strtok_list (delim : Char) : CStr → CStr → List CStr
  | [], cur => if cur.isEmpty then [] else [cur]
  | c :: cs, cur =>
    if c = delim then
      if cur.isEmpty then strtok_list delim cs [] else cur :: strtok_list delim cs []
    else strtok_list delim cs (cur ++ [c])

/-- `strchr(s, c)` advanced by one: the text after the first `c`; `none` for `NULL`. -/
def after_char (c : Char) : CStr → Option CStr
  | [] => none
  | x :: xs => if x = c then some xs else after_char c xs

/-- The `while (tok && argc_local < MAX_CALL_ARGS)` loop of `handle_start_cmd`:
`vals` are the values stored so far (`argc_local` is their number). -/
def parse_args_loop : List CStr → List Nat → List Nat
  | [], vals => vals
  | tok :: rest, vals =>
    if vals.length < MAX_CALL_ARGS then
      match after_char '=' tok with
      | some v => parse_args_loop rest (vals ++ [to_u32 (atoi v)])
      | none => parse_args_loop rest vals
    else vals

/-- Step "1) Parse args" of `handle_start_cmd`: the values stored in `argv_local`
(`argc_local` of them). -/
def parse_args (line : CStr) : List Nat :=
  match find_param line "args".toList with
  | some ('"' :: p_args) =>
    match after_char '"' p_args with
    | some _ =>
      let args_buf := (p_args.takeWhile (fun c => c != '"')).take 63
      parse_args_loop (strtok_list ',' args_buf []) []
    | none => []
  | _ => []

/-- `static void handle_start_cmd(const char *line)`. -/
def handle_start_cmd (st : State) (env : start_env) (line : CStr) : State × List CStr :=
  match find_param line "module_id".toList with
  | none => (st, ["RESULT status=BAD_PARAMS msg=\"missing module_id\"\n".toList])
  | some p_mod =>
    let module_id_buf := copy_param_value p_mod 32
    let func_name : CStr :=
      match find_param line "func".toList with
      | some p_func => copy_param_value p_func 64
      | none => []
    match slot_find st.g_mods module_id_buf with
    | none => (st, ["RESULT status=NO_MODULE\n".toList])
    | some i =>
      let slot := slot_at st.g_mods i
      if slot.inst.isNone then (st, ["RESULT status=NO_MODULE\n".toList])
      else
        let guard := if slot.exec_env.isSome then START_GUARD_BYTES_HAVE_EXEC_ENV
                     else START_GUARD_BYTES_NEED_EXEC_ENV
        let no_mem : Option CStr :=
          match env.mem_info with
          | some mi =>
            if mi.total_free_size < guard then
              some (snprintf 160 ("RESULT status=NO_MEM msg=\"free=".toList
                ++ fmt_u mi.total_free_size ++ " need>=".toList ++ fmt_u guard
                ++ " exec_env=".toList
                ++ (if slot.exec_env.isSome then "yes".toList else "no".toList)
                ++ "\"\n".toList))
            else none
          | none => none
        match no_mem with
        | some reply => (st, [reply])
        | none =>
          if slot.busy then (st, ["RESULT status=BUSY\n".toList])
          else
            let vals := parse_args line
            if func_name.isEmpty && !env.has_app_main then
              if vals.length > 0 then
                (st, ["RESULT status=NO_ENTRYPOINT msg=\"args require app_main\"\n".toList])
              else
                (st, ["RESULT status=NO_ENTRYPOINT msg=\"expected app_main\"\n".toList])
            else
              let func_name := if func_name.isEmpty then "app_main".toList else func_name
              let req : run_request_t :=
                { func_name := func_name.take 63, argc := vals.length,
                  argv := vals ++ List.replicate (MAX_CALL_ARGS - vals.length) 0 }
              ({ st with g_mods := slot_upd st.g_mods i (fun s =>
                   { s with req := req, stop_requested := false, busy := true,
                            work_sem := k_sem_give s.work_sem }) },
               ["START_OK\n".toList])

/-! ## `STOP` -/

/-- `static void handle_stop_cmd(const char *line)`. `wasm_runtime_terminate` acts
inside the runtime only; `k_work_reschedule` leaves the delayed work scheduled. -/
def handle_stop_cmd (st : State) (line : CStr) : State × List CStr :=
  match find_param line "module_id".toList with
  | none => (st, ["STOP_OK status=NO_JOB\n".toList])
  | some p_mod =>
    let module_id_buf := copy_param_value p_mod 32
    match slot_find st.g_mods module_id_buf with
    | none => (st, ["STOP_OK status=IDLE\n".toList])
    | some i =>
      if !(slot_at st.g_mods i).busy then (st, ["STOP_OK status=IDLE\n".toList])
      else
        ({ st with g_mods := slot_upd st.g_mods i (fun s =>
             { s with terminate_requested := true, stop_dwork := true }) },
         ["STOP_OK status=PENDING\n".toList])

/-! ## `STATUS` -/

/-- What one `STATUS` command obtains from outside: the free stack space
`k_thread_stack_space_get` reports for the worker of slot `i`, and the pool
information. -/
structure status_env where
  stack_free : Nat → Nat
  mem_info : Option mem_alloc_info_t

/-- `strncat(dst, src, cap - strlen(dst) - 1)` for a destination array of `cap`
characters. -/
def strncat_cap (cap : Nat) (dst src : CStr) : CStr :=
  dst ++ src.take (cap - dst.length - 1)

/-- The descriptor `snprintf(one, sizeof(one), "%s:%s:wasm=%lu:stack_free=%zu", ...)`
of a listed slot. -/
def status_one (s : module_slot_t) (free_stack : Nat) : CStr :=
  snprintf 128 (s.module_id ++ ":".toList
    ++ (if s.state = mod_state_t.MOD_RUNNING then "RUNNING".toList else "LOADED".toList)
    ++ ":wasm=".toList ++ fmt_u s.wasm_size ++ ":stack_free=".toList ++ fmt_u free_stack)

/-- The `for` loop of `handle_status_cmd` from slot index `i` on, carrying the
buffers `mods` and `low`. -/
def status_loop (env : status_env) : List module_slot_t → Nat → CStr × CStr → CStr × CStr
  | [], _, acc => acc
  | s :: rest, i, (mods, low) =>
    if !s.used || s.inst.isNone then status_loop env rest (i + 1) (mods, low)
    else
      let free_stack := env.stack_free i
      let one := status_one s free_stack
      let mods1 := if mods.isEmpty then mods else strncat_cap 256 mods ",".toList
      let mods2 := strncat_cap 256 mods1 one
      let low2 :=
        if free_stack < 512 then
          let low1 := if low.isEmpty then low else strncat_cap 128 low ",".toList
          strncat_cap 128 low1 s.module_id
        else low
      status_loop env rest (i + 1) (mods2, low2)

/-- `static void handle_status_cmd(const char *line)`: the line written. -/
def handle_status_cmd (st : State) (env : status_env) : CStr :=
  let r := status_loop env st.g_mods 0 ([], [])
  let mods := if r.1.isEmpty then "none".toList else r.1
  let low := if r.2.isEmpty then "none".toList else r.2
  match env.mem_info with
  | some mi =>
    let used := (mi.total_size + U32 - mi.total_free_size % U32) % U32
    snprintf 512 ("STATUS_OK modules=\"".toList ++ mods ++ "\" low_stack=\"".toList ++ low
      ++ "\" wamr_total=".toList ++ fmt_u mi.total_size
      ++ " wamr_free=".toList ++ fmt_u mi.total_free_size
      ++ " wamr_used=".toList ++ fmt_u used
      ++ " wamr_highmark=".toList ++ fmt_u mi.highmark_size ++ "\n".toList)
  | none =>
    snprintf 512 ("STATUS_OK modules=\"".toList ++ mods ++ "\" low_stack=\"".toList ++ low
      ++ "\" wamr_heap=NA\n".toList)

/-! ## Slot worker (`module_worker`) -/

/-- `strstr(hay, needle) != NULL`. -/
def strstr_found : CStr → CStr → Bool
  | [], needle => needle.isEmpty
  | c :: rest, needle => needle.isPrefixOf (c :: rest) || strstr_found rest needle

/-- What one scheduling of a worker obtains from the runtime: the result of
`wasm_runtime_init_thread_env`; of `wasm_runtime_lookup_function` (`none` when the
function is missing, else its `wasm_func_get_result_count`); of
`wasm_runtime_create_exec_env`; the pool information; and, for a call that returns,
the value of `wasm_runtime_call_wasm`, `argv_local[0]` after it, and
`wasm_runtime_get_exception`. -/
structure worker_env where
  init_thread_env_ok : Bool
  lookup : Option Nat
  exec_env_result : Option Nat
  mem_info : Option mem_alloc_info_t
  call_ok : Bool
  call_ret : Nat
  exception : Option CStr

/-- The worker from `k_sem_take` returning up to the entry into
`wasm_runtime_call_wasm` (or back to `k_sem_take` on the early `continue` paths). -/
def worker_dispatch (slot : module_slot_t) (env : worker_env) : module_slot_t × List CStr :=
  if slot.inst.isNone then
    ({ slot with busy := false, stop_requested := false, state := mod_state_t.MOD_LOADED,
                 thread := k_thread.T_WAIT }, [])
  else
    match env.lookup with
    | none =>
      ({ slot with busy := false, stop_requested := false, state := mod_state_t.MOD_LOADED,
                   thread := k_thread.T_WAIT }, ["RESULT status=NO_FUNC\n".toList])
    | some result_count =>
      let created := if slot.exec_env.isSome then slot.exec_env else env.exec_env_result
      match created with
      | none =>
        ({ slot with exec_env := none, busy := false, stop_requested := false,
                     state := mod_state_t.MOD_LOADED, thread := k_thread.T_WAIT },
         [match env.mem_info with
          | some mi => snprintf 128 ("RESULT status=NO_EXEC_ENV msg=\"free=".toList
              ++ fmt_u mi.total_free_size ++ "\"\n".toList)
          | none => "RESULT status=NO_EXEC_ENV\n".toList])
      | some e =>
        ({ slot with exec_env := some e, state := mod_state_t.MOD_RUNNING,
                     thread := k_thread.T_CALL slot.req result_count }, [])

/-- The worker from the return of `wasm_runtime_call_wasm` back to `k_sem_take`:
cancel the stop timer, classify the outcome, write one `RESULT` line, release the
slot. -/
def worker_finish (slot : module_slot_t) (req : run_request_t) (result_count : Nat)
    (env : worker_env) : module_slot_t × List CStr :=
  let exc : Option CStr := if !env.call_ok then env.exception else none
  let stopped : Bool :=
    match exc with
    | some e => !env.call_ok && strstr_found e "terminated".toList
    | none => false
  let out : CStr :=
    if !env.call_ok then
      if stopped then
        snprintf 256 ("RESULT status=STOPPED module_id=".toList ++ slot.module_id
          ++ " func=".toList ++ req.func_name ++ " msg=\"".toList ++ exc.getD []
          ++ "\"\n".toList)
      else
        snprintf 256 ("RESULT status=EXCEPTION module_id=".toList ++ slot.module_id
          ++ " func=".toList ++ req.func_name ++ " msg=\"".toList
          ++ exc.getD "<none>".toList ++ "\"\n".toList)
    else if result_count > 0 then
      snprintf 256 ("RESULT status=OK module_id=".toList ++ slot.module_id
        ++ " func=".toList ++ req.func_name ++ " ret_i32=".toList ++ fmt_u env.call_ret
        ++ "\n".toList)
    else
      snprintf 256 ("RESULT status=OK module_id=".toList ++ slot.module_id
        ++ " func=".toList ++ req.func_name ++ "\n".toList)
  ({ slot with stop_dwork := false, terminate_requested := false, busy := false,
               stop_requested := false,
               state := if slot.inst.isSome then mod_state_t.MOD_LOADED
                        else mod_state_t.MOD_EMPTY,
               thread := k_thread.T_WAIT }, [out])

/-- `static void module_worker(void *p1, void *p2, void *p3)` advanced by one
scheduling of the thread: from creation to the first `k_sem_take`; from a signalled
`k_sem_take` to the call (or back to waiting); from the return of the call back to
`k_sem_take`. A thread blocked on an unsignalled semaphore, a thread that has
returned, and an absent thread do nothing. -/
def module_worker (slot : module_slot_t) (env : worker_env) : module_slot_t × List CStr :=
  match slot.thread with
  | k_thread.T_NONE => (slot, [])
  | k_thread.T_EXIT => (slot, [])
  | k_thread.T_START =>
    if env.init_thread_env_ok then ({ slot with thread := k_thread.T_WAIT }, [])
    else ({ slot with thread := k_thread.T_EXIT },
          ["ERROR code=WAMR_THREAD_ENV_INIT_FAIL\n".toList])
  | k_thread.T_WAIT =>
    if slot.work_sem = 0 then (slot, [])
    else worker_dispatch { slot with work_sem := slot.work_sem - 1 } env
  | k_thread.T_CALL req result_count => worker_finish slot req result_count env

/-! ## Stop escalation (`stop_dwork_handler`) -/

/-- What one run of the escalation handler obtains from the runtime. -/
structure stop_env where
  instantiate_result : Option Nat
  exec_env_result : Option Nat

/-- `static void stop_dwork_handler(struct k_work *work)` on the slot that owns the
work item. -/
def stop_dwork_handler (slot : module_slot_t) (env : stop_env) : module_slot_t × List CStr :=
  if !slot.used || !slot.busy || slot.inst.isNone || !slot.terminate_requested then
    (slot, [])
  else
    let s1 := slot_abort_worker slot
    let s2 := { s1 with exec_env := none, inst := none }
    let s3 :=
      match env.instantiate_result with
      | some inst =>
        match env.exec_env_result with
        | some e => { s2 with inst := some inst, exec_env := some e }
        | none => { s2 with inst := none, exec_env := none }
      | none => s2
    let s4 := { s3 with busy := false, stop_requested := false, terminate_requested := false,
                        state := if s3.inst.isSome then mod_state_t.MOD_LOADED
                                 else mod_state_t.MOD_EMPTY }
    let s5 := slot_ensure_worker s4
    let func := if s5.req.func_name.isEmpty then "<unknown>".toList else s5.req.func_name
    (s5, [snprintf 256 ("RESULT status=STOPPED forced=1 module_id=".toList ++ s5.module_id
            ++ " func=".toList ++ func ++ "\n".toList)])

/-! ## Command dispatcher (`handle_command_line`) and the agent's steps -/

/-- What one command obtains from outside, whichever handler it reaches. -/
structure cmd_env where
  load : load_env
  start : start_env
  status : status_env

/-- `static void handle_command_line(char *line)`. -/
def handle_command_line (st : State) (env : cmd_env) (line : CStr) : State × List CStr :=
  let line1 := if line.getLast? = some '\n' ∨ line.getLast? = some '\r' then line.dropLast
               else line
  let t := line1.dropWhile (fun c => c == ' ')
  let cmd := t.takeWhile (fun c => c != ' ')
  let rest := (t.dropWhile (fun c => c != ' ')).drop 1
  if cmd.isEmpty then (st, [])
  else if cmd = "LOAD".toList then handle_load_cmd st env.load rest
  else if cmd = "START".toList then handle_start_cmd st env.start rest
  else if cmd = "STOP".toList then handle_stop_cmd st rest
  else if cmd = "STATUS".toList then (st, [handle_status_cmd st env.status])
  else (st, ["ERROR code=UNKNOWN_COMMAND\n".toList])

/-- `agent_read_line` applied to a dequeued buffer: its C string, cut to
`max_len - 1` characters. -/
def agent_read_line (local_buf : CStr) (max_len : Nat) : CStr :=
  (local_buf.takeWhile (fun c => c != '\x00')).take (max_len - 1)

/-- The atomic steps of the agent. -/
inductive Event
  | rx (bytes : List Byte)
  | command (env : cmd_env)
  | worker (i : Nat) (env : worker_env)
  | timer (i : Nat) (env : stop_env)

/-- One step. `rx`: the ISR consumes bytes. `command`: the COMM thread dequeues the
oldest line and handles it (nothing happens on an empty queue). `worker i`: the
worker of slot `i` is scheduled. `timer i`: the delayed work of slot `i`, if
scheduled, expires and its handler runs. -/
def step (st : State) : Event → State × List CStr
  | Event.rx bytes => (serial_cb st bytes, [])
  | Event.command env =>
    match st.uart_msgq with
    | [] => (st, [])
    | m :: q =>
      let line := agent_read_line m LINE_BUF_SIZE
      if line.isEmpty then ({ st with uart_msgq := q }, [])
      else handle_command_line { st with uart_msgq := q } env line
  | Event.worker i env =>
    match st.g_mods[i]? with
    | some s =>
      let r := module_worker s env
      ({ st with g_mods := st.g_mods.set i r.1 }, r.2)
    | none => (st, [])
  | Event.timer i env =>
    match st.g_mods[i]? with
    | some s =>
      if s.stop_dwork then
        let r := stop_dwork_handler { s with stop_dwork := false } env
        ({ st with g_mods := st.g_mods.set i r.1 }, r.2)
      else (st, [])
    | none => (st, [])

/-- A run: the steps in order, with everything written on the wire. -/
def run : State → List Event → State × List CStr
  | st, [] => (st, [])
  | st, e :: es =>
    let r1 := step st e
    let r2 := run r1.1 es
    (r2.1, r1.2 ++ r2.2)

/-! ## Vocabulary of the properties -/

/-- The line `l` begins with the text `p`. -/
def starts_with (l : CStr) (p : String) : Bool := p.toList.isPrefixOf l

/-- Some line written by a handler begins with `p` (as in: the command replied
`LOAD_ERR code=BAD_CRC`). -/
def replied (out : List CStr) (p : String) : Bool := out.any (fun l => starts_with l p)

/-- The slot is in the rolled-back condition: state EMPTY, no bytecode, size 0, no
module, instance or exec-env handle, `busy` and `stop_requested` clear. -/
def slot_is_clean (s : module_slot_t) : Prop :=
  s.state = mod_state_t.MOD_EMPTY ∧ s.wasm_buf = none ∧ s.wasm_size = 0 ∧
  s.module = none ∧ s.inst = none ∧ s.exec_env = none ∧
  s.busy = false ∧ s.stop_requested = false

instance (s : module_slot_t) : Decidable (slot_is_clean s) := by
  unfold slot_is_clean
  infer_instance

/-- Representation invariant of the table: it has `MAX_MODULES` entries and every
`module_id` fits its `char[32]` array as a C string. -/
def table_wf (g : List module_slot_t) : Prop :=
  g.length = MAX_MODULES ∧ ∀ s ∈ g, s.module_id.length ≤ 31

instance (g : List module_slot_t) : Decidable (table_wf g) := by
  unfold table_wf
  infer_instance

/-- No two used slots hold the same `module_id`. -/
def ids_unique (g : List module_slot_t) : Prop :=
  ∀ (i j : Nat) (s t : module_slot_t), g[i]? = some s → g[j]? = some t →
    s.used = true → t.used = true →
    s.module_id = t.module_id → i = j

/-- The descriptors `handle_status_cmd` produces, in table order, from slot index
`i` on: one per slot that is used and instantiated. -/
def status_descriptors (env : status_env) : List module_slot_t → Nat → List CStr
  | [], _ => []
  | s :: rest, i =>
    if !s.used || s.inst.isNone then status_descriptors env rest (i + 1)
    else status_one s (env.stack_free i) :: status_descriptors env rest (i + 1)

/-- Comma-separated list. -/
def join_csv : List CStr → CStr
  | [] => []
  | [d] => d
  | d :: e :: ds => d ++ ",".toList ++ join_csv (e :: ds)

/-- The value of `modules="..."`: the comma-separated descriptors, or `none`. -/
def status_modules (env : status_env) (g : List module_slot_t) : CStr :=
  if (join_csv (status_descriptors env g 0)).isEmpty then "none".toList
  else join_csv (status_descriptors env g 0)

/-! ## Concrete inputs of the worked examples -/

/-- The ASCII bytes `123456789` (CRC-32 `cbf43926`). -/
def payload_digits : List Byte := [0x31, 0x32, 0x33, 0x34, 0x35, 0x36, 0x37, 0x38, 0x39]

/-- The same payload with its last byte changed. -/
def payload_flipped : List Byte := [0x31, 0x32, 0x33, 0x34, 0x35, 0x36, 0x37, 0x38, 0x30]

/-- A `LOAD` argument string declaring nine bytes with the CRC of `payload_digits`. -/
def load_line_m1 : CStr := "module_id=m1 size=9 crc32=cbf43926".toList

/-- Everything succeeds and `bytes` arrive in the window. -/
def load_env_ok (bytes : List Byte) : load_env :=
  { malloc_ok := true, incoming := bytes, load_result := Except.ok 1,
    instantiate_result := Except.ok 2, exec_env_result := some 3 }

/-- The locals `handle_load_cmd` fills from `load_line_m1`. -/
def load_params_m1 : load_params :=
  { module_id_buf := "m1".toList, size_str := "9".toList, crc_str := "cbf43926".toList,
    do_replace := false, victim_id_buf := [], have_victim := false }

/-- The table once `m1` has been loaded into the empty table. -/
def state_m1_loaded : State :=
  (handle_load_cmd State.init (load_env_ok payload_digits) load_line_m1).1

/-- A `LOAD` argument string for a second module `m2`. -/
def load_line_m2 : CStr := "module_id=m2 size=9 crc32=cbf43926".toList

/-- `LOAD` of a third module `m3`, followed by the given extra parameters. -/
def load_line_m3 (extra : String) : CStr :=
  "module_id=m3 size=9 crc32=cbf43926".toList ++ extra.toList

/-- The locals `handle_load_cmd` fills from `load_line_m3`. -/
def load_params_m3 (do_replace : Bool) (victim : String) : load_params :=
  { module_id_buf := "m3".toList, size_str := "9".toList, crc_str := "cbf43926".toList,
    do_replace := do_replace, victim_id_buf := victim.toList,
    have_victim := !victim.toList.isEmpty }

/-- Plenty of free pool memory, and the module exports `app_main`. -/
def start_env_ok : start_env :=
  { mem_info := some { total_size := 200000, total_free_size := 100000, highmark_size := 0 },
    has_app_main := true }

/-- The runtime reports `free` bytes free in its pool; the module exports `app_main`. -/
def start_env_free (free : Nat) : start_env :=
  { mem_info := some { total_size := 200000, total_free_size := free, highmark_size := 0 },
    has_app_main := true }

/-- The table with `m1` LOADED and a job accepted for it (`busy` set). -/
def state_m1_busy : State :=
  (handle_start_cmd state_m1_loaded start_env_ok "module_id=m1".toList).1

/-- The bytes of an ASCII text as the UART delivers them. -/
def uart_bytes (text : String) : List Byte :=
  text.toList.map (fun c => Fin.ofNat c.toNat)

/-- A command step in which every runtime call succeeds and, for a `LOAD`, the nine
bytes `123456789` arrive in the binary window. -/
def cmd_env_ok : cmd_env :=
  { load := load_env_ok payload_digits, start := start_env_ok,
    status := { stack_free := fun _ => 1000, mem_info := none } }

/-- A worker scheduling in which the requested function exists (one result) and,
when a call returns, it returned normally with value 55. -/
def worker_env_ok : worker_env :=
  { init_thread_env_ok := true, lookup := some 1, exec_env_result := some 4,
    mem_info := none, call_ok := true, call_ret := 55, exception := none }

/-- `LOAD m1`, `START m1`, the worker enters the call, then `LOAD m1 replace=1`
while the job is running; afterwards the (new) worker and the stop timer get to run. -/
def events_reload_while_running : List Event :=
  [Event.rx (uart_bytes "LOAD module_id=m1 size=9 crc32=cbf43926
"),
   Event.command cmd_env_ok,
   Event.rx (uart_bytes "START module_id=m1
"),
   Event.command cmd_env_ok,
   Event.worker 0 worker_env_ok,
   Event.worker 0 worker_env_ok,
   Event.rx (uart_bytes "LOAD module_id=m1 size=9 crc32=cbf43926 replace=1
"),
   Event.command cmd_env_ok,
   Event.worker 0 worker_env_ok,
   Event.worker 0 worker_env_ok,
   Event.timer 0 { instantiate_result := some 5, exec_env_result := some 6 }]

/-- Free stack 1000 bytes for every worker, pool information unavailable. -/
def status_env_plain : status_env :=
  { stack_free := fun _ => 1000, mem_info := none }

/-! ## `START` arguments: numerals, pairs and worked inputs -/

/-- The decimal digit `d` as a character. -/
def digit_char (d : Nat) : Char := Char.ofNat (48 + d)

/-- The number a decimal numeral denotes, from its digits (most significant first). -/
def numeral_value (ds : List Nat) : Nat := ds.foldl (fun a d => a * 10 + d) 0

/-- The characters of a decimal numeral, from its digits. -/
def numeral_text (ds : List Nat) : CStr := ds.map digit_char

/-- The text `name=value` of one pair: a name and the digits of its value. -/
def pair_text (p : CStr × List Nat) : CStr := p.1 ++ '=' :: numeral_text p.2

/-- The comma-separated text of a list of pairs. -/
def args_text (ps : List (CStr × List Nat)) : CStr := join_csv (ps.map pair_text)

/-- Five pairs; the values are written `10`, `2147483647`, `007`, `4`, `5`. -/
def start_pairs_five : List (CStr × List Nat) :=
  [("a".toList, [1, 0]), ("b".toList, [2, 1, 4, 7, 4, 8, 3, 6, 4, 7]),
   ("c".toList, [0, 0, 7]), ("d".toList, [4]), ("e".toList, [5])]

/-- A `START` argument string carrying the five pairs of `start_pairs_five`. -/
def start_line_five : CStr :=
  "module_id=m1 func=add args=\"a=10,b=2147483647,c=007,d=4,e=5\"".toList

/-- Four pairs whose text is 72 characters long: three names of twenty letters. -/
def start_pairs_long : List (CStr × List Nat) :=
  [(List.replicate 20 'a', [1]), (List.replicate 20 'b', [2]),
   (List.replicate 20 'c', [3]), ("d".toList, [4])]

/-- A `START` argument string carrying the four pairs of `start_pairs_long`. -/
def start_line_long : CStr :=
  "module_id=m1 func=add args=\"".toList ++ args_text start_pairs_long ++ "\"".toList

/-- Plenty of free pool memory, and the module does not export `app_main`. -/
def start_env_no_main : start_env :=
  { mem_info := some { total_size := 200000, total_free_size := 100000, highmark_size := 0 },
    has_app_main := false }

/-! ## Native symbols of the two firmware variants -/

/-- One entry of a `NativeSymbol` table: the symbol name and the WAMR signature string
(`()` no parameter and no result, `(i)` one `i32` parameter and no result, `()i` no
parameter and an `i32` result). The function pointer is left out. -/
structure NativeSymbol where
  symbol : CStr
  signature : CStr
  deriving DecidableEq, Repr

/-- `init_args.native_module_name`, the same in both firmware variants. -/
def native_module_name : CStr := "env".toList

/-- `static NativeSymbol native_symbols[]` of `firmware_2/src/main.c`. -/
def native_symbols : List NativeSymbol :=
  [{ symbol := "gpio_toggle".toList, signature := "()".toList },
   { symbol := "uart_print".toList, signature := "(i)".toList },
   { symbol := "led_toggle".toList, signature := "(i)".toList }]

/-- `static NativeSymbol native_symbols[]` of `firmware/agent/src/main.c`. -/
def agent_native_symbols : List NativeSymbol :=
  [{ symbol := "gpio_toggle".toList, signature := "()".toList },
   { symbol := "should_stop".toList, signature := "()i".toList }]

/-- The fields of `module_slot_t` of `firmware/agent/src/main.c` that
`slot_from_current_thread` and `should_stop_native` read; `tid` is the handle
`k_thread_create` returned, `none` before the worker exists. -/
structure agent_slot_t where
  used : Bool
  tid : Option Nat
  stop_requested : Bool
  deriving DecidableEq, Repr

/-- `static module_slot_t *slot_from_current_thread(void)` of
`firmware/agent/src/main.c`, with `me` the value of `k_current_get()`. -/
def slot_from_current_thread : List agent_slot_t → Nat → Option agent_slot_t
  | [], _ => none
  | s :: rest, me =>
    if s.used && s.tid == some me then some s else slot_from_current_thread rest me

/-- `static int32_t should_stop_native(wasm_exec_env_t exec_env)` of
`firmware/agent/src/main.c`, called on the thread `me`. -/
def should_stop_native (g_mods : List agent_slot_t) (me : Nat) : Nat :=
  match slot_from_current_thread g_mods me with
  | some slot => if slot.stop_requested then 1 else 0
  | none => 0

/-- A table of the `firmware/agent` variant: worker 7 asked to stop, worker 9 not. -/
def agent_table : List agent_slot_t :=
  [{ used := true, tid := some 7, stop_requested := true },
   { used := true, tid := some 9, stop_requested := false }]

/-! ## Further worked inputs -/

/-- The first whitespace-delimited token of a line, in the words of the
specification: skip white space, then read up to the next white space. -/
def spec_first_token (line : CStr) : CStr :=
  (line.dropWhile isspace).takeWhile (fun c => !isspace c)

/-- A module id of 31 characters. -/
def long_module_id : CStr := List.replicate 31 'm'

/-- A function name of 63 characters. -/
def long_func_name : CStr := List.replicate 63 'f'

/-- An exception text of 127 characters, as `wasm_runtime_get_exception` may return. -/
def long_exception : CStr := "Exception: ".toList ++ List.replicate 116 'e'

/-- The bytes of a text as the UART delivers them. -/
def uart_text (text : CStr) : List Byte := text.map (fun c => Fin.ofNat c.toNat)

/-- A worker scheduling in which the function exists and the call ends with the
exception `long_exception`. -/
def worker_env_trap : worker_env :=
  { init_thread_env_ok := true, lookup := some 1, exec_env_result := some 4,
    mem_info := none, call_ok := false, call_ret := 0, exception := some long_exception }

/-- `LOAD` of a module with the id `long_module_id`, `START` of its function
`long_func_name`, then the worker runs: it starts, enters the call, and the call traps. -/
def events_long_result : List Event :=
  [Event.rx (uart_text ("LOAD module_id=".toList ++ long_module_id
      ++ " size=9 crc32=cbf43926\n".toList)),
   Event.command cmd_env_ok,
   Event.rx (uart_text ("START module_id=".toList ++ long_module_id ++ " func=".toList
      ++ long_func_name ++ "\n".toList)),
   Event.command cmd_env_ok,
   Event.worker 0 worker_env_ok,
   Event.worker 0 worker_env_ok,
   Event.worker 0 worker_env_trap]

/-- Everything succeeds, but only the first eight of the nine declared bytes arrive
before the wait expires. -/
def load_env_short : load_env :=
  { malloc_ok := true, incoming := payload_digits.take 8, load_result := Except.ok 1,
    instantiate_result := Except.ok 2, exec_env_result := some 3 }

/-- The table once slot 0 has been allocated to `m1` and nothing loaded yet. -/
def table_m1_allocated : List module_slot_t :=
  (slot_alloc State.init.g_mods "m1".toList).elim [] (fun r => r.1)

/-! ## Serial output and its mutexes -/

/-- The mutexes `firmware_2/src/main.c` defines with `K_MUTEX_DEFINE`. -/
inductive mutex_t
  | uart_tx_mutex
  | load_mutex
  | uart_mutex
  | gpio_mutex
  deriving DecidableEq, Repr

/-- What a thread does to the serial output, one atomic operation at a time: take a
mutex, release it, or hand one character to the UART. -/
inductive tx_op
  | k_mutex_lock (m : mutex_t)
  | k_mutex_unlock (m : mutex_t)
  | put (c : Char)
  deriving DecidableEq, Repr

/-- `static void agent_write_str(const char *buf)`: `k_mutex_lock(&uart_tx_mutex)`, one
`uart_poll_out` per character, `k_mutex_unlock(&uart_tx_mutex)`. -/
def agent_write_str (buf : CStr) : List tx_op :=
  [tx_op.k_mutex_lock mutex_t.uart_tx_mutex] ++ buf.map tx_op.put
    ++ [tx_op.k_mutex_unlock mutex_t.uart_tx_mutex]

/-- `static void uart_print_native(wasm_exec_env_t exec_env, uint32_t offset)` once the
address is validated, `s` being the string at `offset`: `k_mutex_lock(&uart_mutex)`,
`printk("%s", s)` (one character at a time, to the console UART),
`k_mutex_unlock(&uart_mutex)`. -/
def uart_print_native (s : CStr) : List tx_op :=
  [tx_op.k_mutex_lock mutex_t.uart_mutex] ++ s.map tx_op.put
    ++ [tx_op.k_mutex_unlock mutex_t.uart_mutex]

/-- Threads sharing the serial line: the mutexes held (with the holding thread), what
each thread has still to do, and the characters put on the wire so far. -/
structure tx_state where
  held : List (mutex_t × Nat)
  todo : List (List tx_op)
  wire : CStr
  deriving DecidableEq, Repr

/-- Thread `t` is scheduled for one operation. `k_mutex_lock(m, K_FOREVER)` on a mutex
another thread holds blocks: the thread makes no progress. -/
def tx_step (st : tx_state) (t : Nat) : tx_state :=
  match st.todo[t]? with
  | some (tx_op.k_mutex_lock m :: rest) =>
    if st.held.any (fun h => h.1 == m) then st
    else { st with held := (m, t) :: st.held, todo := st.todo.set t rest }
  | some (tx_op.k_mutex_unlock m :: rest) =>
    { st with held := st.held.filter (fun h => h.1 != m), todo := st.todo.set t rest }
  | some (tx_op.put c :: rest) =>
    { st with wire := st.wire ++ [c], todo := st.todo.set t rest }
  | _ => st

/-- The threads scheduled in the given order, one operation each time. -/
def tx_run (st : tx_state) (sched : List Nat) : tx_state := sched.foldl tx_step st

/-- Thread 0 (COMM) writes the response `START_OK`; thread 1 (a worker) runs a module
that calls `uart_print` on the string `hi`, both followed by a line feed. -/
def tx_two_writers : tx_state :=
  { held := [], todo := [agent_write_str "START_OK\n".toList, uart_print_native "hi\n".toList],
    wire := [] }

/-- COMM takes its mutex and writes three characters; the worker is scheduled, takes
its mutex, writes its string and releases; COMM finishes. -/
def tx_schedule : List Nat :=
  [0, 0, 0, 0, 1, 1, 1, 1, 1, 0, 0, 0, 0, 0, 0, 0]

/-! ## Worker, stop timer and slot consistency: vocabulary and worked inputs -/

/-- A call that fails with the text WAMR leaves after `wasm_runtime_terminate`. -/
def worker_env_terminated : worker_env :=
  { init_thread_env_ok := true, lookup := some 1, exec_env_result := some 4,
    mem_info := none, call_ok := false, call_ret := 0,
    exception := some "Exception: terminated by user".toList }

/-- The slot of `m1` while its worker is inside the call of `app_main`. -/
def slot_m1_in_call : module_slot_t :=
  (module_worker (module_worker (slot_at state_m1_busy.g_mods 0) worker_env_ok).1
    worker_env_ok).1

/-- The worker thread is inside `wasm_runtime_call_wasm`. -/
def in_call : k_thread → Bool
  | k_thread.T_CALL _ _ => true
  | _ => false

/-- Consistency of one slot between steps: the semaphore count is at most its limit;
a busy slot has an instance and a pending function name; a slot with an instance is
LOADED or RUNNING; the semaphore is given, or the worker inside a call, only while the
slot is busy; during a call the semaphore count is 0; and the pending function name
fits `func_name[64]`. -/
def slot_inv (s : module_slot_t) : Prop :=
  s.work_sem ≤ 1 ∧
  (s.busy = true → s.inst ≠ none) ∧
  (s.inst ≠ none → s.state = mod_state_t.MOD_LOADED ∨ s.state = mod_state_t.MOD_RUNNING) ∧
  (0 < s.work_sem → s.busy = true) ∧
  (in_call s.thread = true → s.busy = true ∧ s.work_sem = 0) ∧
  (s.busy = true → s.req.func_name ≠ []) ∧
  s.req.func_name.length ≤ 63

instance (s : module_slot_t) : Decidable (slot_inv s) := by
  unfold slot_inv
  infer_instance

/-- Every slot of the table is consistent. -/
def table_inv (g : List module_slot_t) : Prop := ∀ s ∈ g, slot_inv s

/-- `LOAD m1`, `START m1`, and the worker of slot 0 scheduled until it is inside the
call of `app_main`. -/
def events_m1_in_call : List Event := events_reload_while_running.take 6

/-- `LOAD m1`, `START m1`, the worker enters the call, `STOP m1`. -/
def events_m1_stop_pending : List Event :=
  events_m1_in_call ++
    [Event.rx (uart_bytes "STOP module_id=m1
"), Event.command cmd_env_ok]

/-- `LOAD m1`, `LOAD m2`, then `LOAD m3 replace=1 replace_victim=m1`: the slot of `m1`
is renamed to `m3`. -/
def events_rename : List Event :=
  [Event.rx (uart_bytes "LOAD module_id=m1 size=9 crc32=cbf43926
"),
   Event.command cmd_env_ok,
   Event.rx (uart_bytes "LOAD module_id=m2 size=9 crc32=cbf43926
"),
   Event.command cmd_env_ok,
   Event.rx (uart_bytes "LOAD module_id=m3 size=9 crc32=cbf43926 replace=1 replace_victim=m1
"),
   Event.command cmd_env_ok]

/-! ## Used slots -/

/-- Number of used slots. -/
def used_count (g : List module_slot_t) : Nat := g.countP (fun s => s.used)

/-- Slot by slot, what is used in `g` is used in `g1`; the tables have the same
length. -/
def used_mono (g g1 : List module_slot_t) : Prop :=
  g1.length = g.length ∧
  ∀ (i : Nat) (s : module_slot_t), g[i]? = some s → s.used = true →
    ∃ s1, g1[i]? = some s1 ∧ s1.used = true

/-- The table after `LOAD m1` and `LOAD m2` both timed out (eight of nine bytes). -/
def state_two_timeouts : State :=
  (handle_load_cmd (handle_load_cmd State.init load_env_short load_line_m1).1
    load_env_short load_line_m2).1

/-- A worker scheduling in which `wasm_runtime_lookup_function` finds no function. -/
def worker_env_no_func : worker_env :=
  { init_thread_env_ok := true, lookup := none, exec_env_result := some 4,
    mem_info := none, call_ok := true, call_ret := 0, exception := none }

/-- `LOAD m1`; the worker starts and waits; `START m1 func=nope`; `STOP m1`; the worker
finds no function `nope`; `START m1 func=app_main`; the stop timer expires. -/
def events_stale_timer : List Event :=
  [Event.rx (uart_bytes "LOAD module_id=m1 size=9 crc32=cbf43926
"),
   Event.command cmd_env_ok,
   Event.worker 0 worker_env_ok,
   Event.rx (uart_bytes "START module_id=m1 func=nope
"),
   Event.command cmd_env_ok,
   Event.rx (uart_bytes "STOP module_id=m1
"),
   Event.command cmd_env_ok,
   Event.worker 0 worker_env_no_func,
   Event.rx (uart_bytes "START module_id=m1 func=app_main
"),
   Event.command cmd_env_ok,
   Event.timer 0 { instantiate_result := some 5, exec_env_result := some 6 }]

/-- The byte stream `STATUS`, CR, LF, `STATUS`, CR, LF, then COMM handles two lines. -/
def events_crlf : List Event :=
  [Event.rx (uart_bytes "STATUS\r\nSTATUS\r\n"), Event.command cmd_env_ok,
   Event.command cmd_env_ok]

/-- An exception text of 127 characters, the longest the runtime's 128-byte exception
buffer holds, that contains `terminated`. -/
def long_terminated : CStr := "Exception: terminated".toList ++ List.replicate 106 'e'

/-- A worker scheduling in which the function exists and the call ends with the
exception `long_terminated`. -/
def worker_env_long_terminated : worker_env :=
  { init_thread_env_ok := true, lookup := some 1, exec_env_result := some 4,
    mem_info := none, call_ok := false, call_ret := 0, exception := some long_terminated }

/-- `LOAD` of a module with the id `long_module_id`, `START` of its function
`long_func_name`, then the worker runs: it starts, enters the call, and the call fails
with the exception `long_terminated`. -/
def events_long_terminated : List Event :=
  events_long_result.take 6 ++ [Event.worker 0 worker_env_long_terminated]

/-! # Properties -/

/-! ## CRC-32: the code against the reference definition -/

theorem u32_val : U32 = 4294967296 := by decide

/-- The 32-bit complement is the XOR with `0xFFFFFFFF`. -/
theorem compl_eq_xor (x : Nat) (h : x < 2 ^ 32) :
    2 ^ 32 - 1 - x = x ^^^ (2 ^ 32 - 1) := by
  apply Nat.eq_of_testBit_eq
  intro i
  have e : 2 ^ 32 - 1 - x = 2 ^ 32 - (x + 1) := by omega
  rw [e, Nat.testBit_two_pow_sub_succ h, Nat.testBit_xor, Nat.testBit_two_pow_sub_one]
  by_cases hi : i < 32
  · simp [hi]
  · have hx : x.testBit i = false := by
      apply Nat.testBit_lt_two_pow
      calc x < 2 ^ 32 := h
        _ ≤ 2 ^ i := Nat.pow_le_pow_right (by decide) (by omega)
    simp [hi, hx]

theorem ref_crc_bit_lt (c : Nat) : ref_crc_bit c < 2 ^ 32 := by
  unfold ref_crc_bit
  split <;> exact Nat.mod_lt _ (by decide)

/-- The masked update of the code is the conditional update of the reference. -/
theorem crc32_bit_eq_ref (c : Nat) (h : c < 2 ^ 32) : crc32_bit c = ref_crc_bit c := by
  unfold crc32_bit ref_crc_bit
  simp only [Nat.and_one_is_mod, Nat.shiftRight_eq_div_pow, pow_one, u32_val]
  have h2 : c / 2 < 2 ^ 32 := by omega
  rcases Nat.mod_two_eq_zero_or_one c with h0 | h1
  · rw [h0]
    simp
    omega
  · rw [h1]
    have hm : (4294967296 - 1) % 4294967296 = 2 ^ 32 - 1 := by decide
    rw [hm, Nat.and_pow_two_sub_one_eq_mod]
    have hp : 3988292384 % 2 ^ 32 = 3988292384 := by decide
    rw [hp]
    simp only [if_true]
    have hx : c / 2 ^^^ 3988292384 < 2 ^ 32 := Nat.xor_lt_two_pow h2 (by decide)
    omega

theorem crc32_bit_lt (c : Nat) (h : c < 2 ^ 32) : crc32_bit c < 2 ^ 32 := by
  rw [crc32_bit_eq_ref c h]
  exact ref_crc_bit_lt c

theorem crc32_bits_lt (j c : Nat) (h : c < 2 ^ 32) : crc32_bits j c < 2 ^ 32 := by
  induction j generalizing c with
  | zero => simpa [crc32_bits] using h
  | succ j ih =>
    simp only [crc32_bits]
    exact ih _ (crc32_bit_lt c h)

theorem byte_lt_u32 (b : Byte) : b.val < 2 ^ 32 :=
  Nat.lt_trans b.isLt (by decide)

theorem crc32_byte_lt (c : Nat) (b : Byte) (h : c < 2 ^ 32) : crc32_byte c b < 2 ^ 32 :=
  crc32_bits_lt 8 _ (Nat.xor_lt_two_pow h (byte_lt_u32 b))

theorem crc32_byte_eq_ref (c : Nat) (b : Byte) (h : c < 2 ^ 32) :
    crc32_byte c b = ref_crc_byte c b := by
  have hx : c ^^^ b.val < 2 ^ 32 := Nat.xor_lt_two_pow h (byte_lt_u32 b)
  unfold crc32_byte ref_crc_byte
  rw [Nat.mod_eq_of_lt hx]
  simp only [crc32_bits]
  have l := ref_crc_bit_lt
  rw [crc32_bit_eq_ref _ hx, crc32_bit_eq_ref _ (l _), crc32_bit_eq_ref _ (l _),
    crc32_bit_eq_ref _ (l _), crc32_bit_eq_ref _ (l _), crc32_bit_eq_ref _ (l _),
    crc32_bit_eq_ref _ (l _), crc32_bit_eq_ref _ (l _)]

theorem crc32_loop_lt (data : List Byte) (c : Nat) (h : c < 2 ^ 32) :
    crc32_loop data c < 2 ^ 32 := by
  induction data generalizing c with
  | nil => simpa [crc32_loop] using h
  | cons b rest ih =>
    simp only [crc32_loop]
    exact ih _ (crc32_byte_lt c b h)

theorem crc32_loop_eq_foldl (data : List Byte) (c : Nat) (h : c < 2 ^ 32) :
    crc32_loop data c = data.foldl ref_crc_byte c := by
  induction data generalizing c with
  | nil => rfl
  | cons b rest ih =>
    simp only [crc32_loop, List.foldl_cons]
    rw [ih _ (crc32_byte_lt c b h), crc32_byte_eq_ref c b h]

theorem crc32_calc_eq_ref_crc32 (data : List Byte) : crc32_calc data = ref_crc32 data := by
  have hl : crc32_loop data 0xFFFFFFFF < 2 ^ 32 := crc32_loop_lt data _ (by decide)
  unfold crc32_calc ref_crc32
  rw [← crc32_loop_eq_foldl data _ (by decide), u32_val]
  have e := compl_eq_xor _ hl
  generalize crc32_loop data 0xFFFFFFFF = x at e hl
  have e1 : (4294967296 : Nat) = 2 ^ 32 := by decide
  have e2 : (0xFFFFFFFF : Nat) = 2 ^ 32 - 1 := by decide
  rw [e1, e2, e]

theorem crc32_calc_lt (data : List Byte) : crc32_calc data < 2 ^ 32 := by
  unfold crc32_calc
  rw [u32_val]
  exact Nat.mod_lt _ (by decide)

/-- C1: `crc32_calc` is the zlib / IEEE CRC-32 (reflected polynomial `0xEDB88320`,
initial value `0xFFFFFFFF`, final XOR `0xFFFFFFFF`, bytes in order, arithmetic modulo
`2 ^ 32`) on every byte sequence; the CRC of the empty sequence is `0` and the CRC of
the ASCII bytes `123456789` is `0xCBF43926`. -/
theorem crc32_calc_is_standard_crc32 :
    (∀ data : List Byte, crc32_calc data = ref_crc32 data) ∧
    crc32_calc [] = 0 ∧
    crc32_calc [0x31, 0x32, 0x33, 0x34, 0x35, 0x36, 0x37, 0x38, 0x39] = 0xCBF43926 :=
  ⟨crc32_calc_eq_ref_crc32, by decide, by decide⟩

/-! ## CRC-32: a single changed byte is always detected -/


theorem xor_poly_ge (a : Nat) (h : a < 2 ^ 31) : 2 ^ 31 ≤ a ^^^ 0xEDB88320 := by
  apply Nat.testBit_implies_ge
  rw [Nat.testBit_xor, Nat.testBit_lt_two_pow h]
  decide

/-- One bit of the division is injective on 32-bit values: the polynomial has its
top bit set, so the bit shifted out can be read off the result. -/
theorem ref_crc_bit_inj (c d : Nat) (hc : c < 2 ^ 32) (hd : d < 2 ^ 32)
    (h : ref_crc_bit c = ref_crc_bit d) : c = d := by
  unfold ref_crc_bit at h
  have hc2 : c / 2 < 2 ^ 31 := by omega
  have hd2 : d / 2 < 2 ^ 31 := by omega
  have xc : c / 2 ^^^ 0xEDB88320 < 2 ^ 32 :=
    Nat.xor_lt_two_pow (Nat.lt_trans hc2 (by decide)) (by decide)
  have xd : d / 2 ^^^ 0xEDB88320 < 2 ^ 32 :=
    Nat.xor_lt_two_pow (Nat.lt_trans hd2 (by decide)) (by decide)
  have gc := xor_poly_ge _ hc2
  have gd := xor_poly_ge _ hd2
  rcases Nat.mod_two_eq_zero_or_one c with c0 | c1 <;>
    rcases Nat.mod_two_eq_zero_or_one d with d0 | d1
  · simp only [c0, d0] at h
    norm_num at h
    omega
  · simp only [c0, d1] at h
    norm_num at h
    omega
  · simp only [c1, d0] at h
    norm_num at h
    omega
  · simp only [c1, d1] at h
    norm_num at h
    have e : c / 2 ^^^ 0xEDB88320 = d / 2 ^^^ 0xEDB88320 := by omega
    have := Nat.xor_left_inj.mp e
    omega


theorem crc32_bits_inj (j c d : Nat) (hc : c < 2 ^ 32) (hd : d < 2 ^ 32)
    (h : crc32_bits j c = crc32_bits j d) : c = d := by
  induction j generalizing c d with
  | zero => simpa [crc32_bits] using h
  | succ j ih =>
    simp only [crc32_bits] at h
    have e := ih _ _ (crc32_bit_lt c hc) (crc32_bit_lt d hd) h
    rw [crc32_bit_eq_ref c hc, crc32_bit_eq_ref d hd] at e
    exact ref_crc_bit_inj c d hc hd e

/-- For a fixed byte, the per-byte update is injective in the running CRC. -/
theorem crc32_byte_inj_state (c d : Nat) (b : Byte) (hc : c < 2 ^ 32) (hd : d < 2 ^ 32)
    (h : crc32_byte c b = crc32_byte d b) : c = d := by
  unfold crc32_byte at h
  have e := crc32_bits_inj 8 _ _ (Nat.xor_lt_two_pow hc (byte_lt_u32 b))
    (Nat.xor_lt_two_pow hd (byte_lt_u32 b)) h
  exact Nat.xor_left_inj.mp e

/-- For a fixed running CRC, the per-byte update is injective in the byte. -/
theorem crc32_byte_inj_byte (c : Nat) (a b : Byte) (hc : c < 2 ^ 32)
    (h : crc32_byte c a = crc32_byte c b) : a = b := by
  unfold crc32_byte at h
  have e := crc32_bits_inj 8 _ _ (Nat.xor_lt_two_pow hc (byte_lt_u32 a))
    (Nat.xor_lt_two_pow hc (byte_lt_u32 b)) h
  exact Fin.ext (Nat.xor_right_inj.mp e)

theorem crc32_loop_inj_state (data : List Byte) (c d : Nat) (hc : c < 2 ^ 32)
    (hd : d < 2 ^ 32) (h : crc32_loop data c = crc32_loop data d) : c = d := by
  induction data generalizing c d with
  | nil => simpa [crc32_loop] using h
  | cons b rest ih =>
    simp only [crc32_loop] at h
    exact crc32_byte_inj_state c d b hc hd
      (ih _ _ (crc32_byte_lt c b hc) (crc32_byte_lt d b hd) h)

theorem crc32_loop_append (xs ys : List Byte) (c : Nat) :
    crc32_loop (xs ++ ys) c = crc32_loop ys (crc32_loop xs c) := by
  induction xs generalizing c with
  | nil => rfl
  | cons b rest ih =>
    show crc32_loop (rest ++ ys) (crc32_byte c b) = _
    rw [ih]
    rfl

/-- Two payloads that differ in exactly one byte have different CRCs. -/
theorem crc32_calc_one_byte (pre suf : List Byte) (a b : Byte) (hab : a ≠ b) :
    crc32_calc (pre ++ a :: suf) ≠ crc32_calc (pre ++ b :: suf) := by
  intro h
  have hp : crc32_loop pre 0xFFFFFFFF < 2 ^ 32 := crc32_loop_lt pre _ (by decide)
  have la := crc32_loop_lt (pre ++ a :: suf) 0xFFFFFFFF (by decide)
  have lb := crc32_loop_lt (pre ++ b :: suf) 0xFFFFFFFF (by decide)
  unfold crc32_calc at h
  rw [u32_val] at h
  have e : crc32_loop (pre ++ a :: suf) 0xFFFFFFFF = crc32_loop (pre ++ b :: suf) 0xFFFFFFFF := by
    omega
  rw [crc32_loop_append, crc32_loop_append] at e
  simp only [crc32_loop] at e
  have e2 := crc32_loop_inj_state suf _ _ (crc32_byte_lt _ a hp) (crc32_byte_lt _ b hp) e
  exact hab (crc32_byte_inj_byte _ a b hp e2)

/-! ## The slot table: access and search -/

theorem slot_upd_of_get {g : List module_slot_t} {i : Nat} {s : module_slot_t}
    (h : g[i]? = some s) (f : module_slot_t → module_slot_t) :
    slot_upd g i f = g.set i (f s) := by
  simp [slot_upd, h]

theorem slot_at_of_get {g : List module_slot_t} {i : Nat} {s : module_slot_t}
    (h : g[i]? = some s) : slot_at g i = s := by
  simp [slot_at, h]

theorem get_lt {g : List module_slot_t} {i : Nat} {s : module_slot_t}
    (h : g[i]? = some s) : i < g.length := by
  rcases Nat.lt_or_ge i g.length with hl | hl
  · exact hl
  · rw [List.getElem?_eq_none hl] at h
    cases h

theorem get_set_same {g : List module_slot_t} {i : Nat} {s : module_slot_t}
    (h : g[i]? = some s) (x : module_slot_t) : (g.set i x)[i]? = some x := by
  rw [List.getElem?_set]
  simp [get_lt h]

theorem slot_at_set_same {g : List module_slot_t} {i : Nat} {s : module_slot_t}
    (h : g[i]? = some s) (x : module_slot_t) : slot_at (g.set i x) i = x :=
  slot_at_of_get (get_set_same h x)

theorem get_set_other (g : List module_slot_t) {i j : Nat} (h : i ≠ j) (x : module_slot_t) :
    (g.set i x)[j]? = g[j]? := by
  rw [List.getElem?_set]
  simp [h]

theorem set_set_same (g : List module_slot_t) (i : Nat) (x y : module_slot_t) :
    (g.set i x).set i y = g.set i y := by
  induction g generalizing i with
  | nil => rfl
  | cons a r ih =>
    cases i with
    | zero => rfl
    | succ k => simp [List.set, ih]

theorem set_get_self {g : List module_slot_t} {i : Nat} {s : module_slot_t}
    (h : g[i]? = some s) : g.set i s = g := by
  induction g generalizing i with
  | nil => rfl
  | cons a r ih =>
    cases i with
    | zero =>
      simp at h
      simp [h]
    | succ k =>
      simp at h
      simp [List.set, ih h]

/-- A slot returned by `slot_find` is in the table, used, and carries the id. -/
theorem slot_find_some {g : List module_slot_t} {id : CStr} {i : Nat}
    (h : slot_find g id = some i) :
    ∃ s, g[i]? = some s ∧ s.used = true ∧ strncmp_eq s.module_id id 32 = true := by
  induction g generalizing i with
  | nil => simp [slot_find] at h
  | cons a r ih =>
    simp only [slot_find] at h
    split at h
    · rename_i hc
      simp only [Bool.and_eq_true] at hc
      cases h
      exact ⟨a, by simp, hc.1, hc.2⟩
    · cases hr : slot_find r id with
      | none => simp [hr] at h
      | some k =>
        simp [hr] at h
        subst h
        obtain ⟨s, hs, hu, hm⟩ := ih hr
        exact ⟨s, by simpa using hs, hu, hm⟩

/-- `slot_find` fails exactly when no used slot carries the id. -/
theorem slot_find_none {g : List module_slot_t} {id : CStr} :
    slot_find g id = none ↔
      ∀ s ∈ g, ¬ (s.used = true ∧ strncmp_eq s.module_id id 32 = true) := by
  induction g with
  | nil => simp [slot_find]
  | cons a r ih =>
    simp only [slot_find, List.mem_cons, forall_eq_or_imp]
    split
    · rename_i hc
      simp only [Bool.and_eq_true] at hc
      simp [hc]
    · rename_i hc
      simp only [Bool.and_eq_true] at hc
      simp only [Option.map_eq_none', ih]
      exact ⟨fun h => ⟨hc, h⟩, fun h => h.2⟩

/-- A slot returned by `slot_alloc` was unused; it alone is rewritten. -/
theorem slot_alloc_some {g : List module_slot_t} {id : CStr}
    {r : List module_slot_t × Nat} (h : slot_alloc g id = some r) :
    ∃ s, g[r.2]? = some s ∧ s.used = false ∧ r.1 = g.set r.2 (slot_fresh id) := by
  induction g generalizing r with
  | nil => simp [slot_alloc] at h
  | cons a t ih =>
    simp only [slot_alloc] at h
    split at h
    · rename_i hc
      cases h
      exact ⟨a, by simp, by simpa using hc, rfl⟩
    · cases hr : slot_alloc t id with
      | none => simp [hr] at h
      | some q =>
        simp [hr] at h
        subst h
        obtain ⟨s, hs, hu, hm⟩ := ih hr
        exact ⟨s, by simpa using hs, hu, by simp [hm]⟩

/-- `slot_alloc` fails exactly when every slot is used. -/
theorem slot_alloc_none {g : List module_slot_t} {id : CStr} :
    slot_alloc g id = none ↔ ∀ s ∈ g, s.used = true := by
  induction g with
  | nil => simp [slot_alloc]
  | cons a t ih =>
    simp only [slot_alloc, List.mem_cons, forall_eq_or_imp]
    split
    · rename_i hc
      simp at hc
      simp [hc]
    · rename_i hc
      simp at hc
      simp only [Option.map_eq_none', ih]
      exact ⟨fun h => ⟨hc, h⟩, fun h => h.2⟩

/-! ## The frame decoder during a binary window -/

/-- In LINE mode a byte touches only the line buffer and the line queue. -/
theorem serial_cb_byte_line (st : State) (c : Byte)
    (h : st.g_rx_state = rx_state_t.RX_STATE_LINE) :
    (serial_cb_byte st c).g_mods = st.g_mods ∧
    (serial_cb_byte st c).g_rx_state = rx_state_t.RX_STATE_LINE ∧
    (serial_cb_byte st c).g_bin_buf = st.g_bin_buf ∧
    (serial_cb_byte st c).g_bin_expected = st.g_bin_expected ∧
    (serial_cb_byte st c).g_bin_received = st.g_bin_received ∧
    (serial_cb_byte st c).bin_sem = st.bin_sem := by
  unfold serial_cb_byte
  rw [h]
  simp only
  split
  · simp [h]
  · split <;> simp [h]

theorem serial_cb_line (bs : List Byte) (st : State)
    (h : st.g_rx_state = rx_state_t.RX_STATE_LINE) :
    (serial_cb st bs).g_mods = st.g_mods ∧
    (serial_cb st bs).g_rx_state = rx_state_t.RX_STATE_LINE ∧
    (serial_cb st bs).g_bin_buf = st.g_bin_buf ∧
    (serial_cb st bs).g_bin_expected = st.g_bin_expected ∧
    (serial_cb st bs).g_bin_received = st.g_bin_received ∧
    (serial_cb st bs).bin_sem = st.bin_sem := by
  induction bs generalizing st with
  | nil => simp [serial_cb, h]
  | cons c rest ih =>
    have hb := serial_cb_byte_line st c h
    have hr := ih (serial_cb_byte st c) hb.2.1
    have e : serial_cb st (c :: rest) = serial_cb (serial_cb_byte st c) rest := rfl
    rw [e]
    obtain ⟨h1, h2, h3, h4, h5, h6⟩ := hr
    obtain ⟨b1, _, b3, b4, b5, b6⟩ := hb
    exact ⟨h1.trans b1, h2, h3.trans b3, h4.trans b4, h5.trans b5, h6.trans b6⟩

/-- In BINARY mode, with the target buffer holding the `g_bin_received` bytes stored
so far, the decoder appends the arriving bytes to the buffer up to `g_bin_expected`,
and on the last one leaves BINARY mode and gives `bin_sem`. -/
theorem serial_cb_binary (bs : List Byte) (st : State) (i : Nat) (s : module_slot_t)
    (b : List Byte)
    (hm : st.g_rx_state = rx_state_t.RX_STATE_BINARY) (hb : st.g_bin_buf = some i)
    (hs : st.g_mods[i]? = some s) (hw : s.wasm_buf = some b)
    (hl : b.length = st.g_bin_received) (hr : st.g_bin_received < st.g_bin_expected) :
    (serial_cb st bs).g_mods =
      st.g_mods.set i
        { s with wasm_buf := some (b ++ bs.take (st.g_bin_expected - st.g_bin_received)) } ∧
    (serial_cb st bs).bin_sem =
      (if st.g_bin_received + bs.length < st.g_bin_expected then st.bin_sem
       else k_sem_give st.bin_sem) ∧
    (serial_cb st bs).g_rx_state =
      (if st.g_bin_received + bs.length < st.g_bin_expected then rx_state_t.RX_STATE_BINARY
       else rx_state_t.RX_STATE_LINE) ∧
    (serial_cb st bs).g_bin_buf = some i ∧
    (serial_cb st bs).g_bin_expected = st.g_bin_expected := by
  induction bs generalizing st s b with
  | nil =>
    have e : ({ s with wasm_buf := some (b ++ List.take (st.g_bin_expected - st.g_bin_received) []) } : module_slot_t) = s := by
      cases s
      simp at hw
      simp [hw]
    have e0 : serial_cb st [] = st := rfl
    rw [e0, e, set_get_self hs]
    simp only [List.length_nil, Nat.add_zero, hr, if_true]
    exact ⟨trivial, trivial, hm, hb, trivial⟩
  | cons c rest ih =>
    have e : serial_cb st (c :: rest) = serial_cb (serial_cb_byte st c) rest := rfl
    rw [e]
    have hstore : bin_store st.g_mods i st.g_bin_received c
        = st.g_mods.set i { s with wasm_buf := some (b ++ [c]) } := by
      unfold bin_store
      rw [slot_upd_of_get hs]
      simp [hw, ← hl]
    by_cases hlast : st.g_bin_received + 1 = st.g_bin_expected
    · have hbyte : serial_cb_byte st c =
          { st with g_mods := st.g_mods.set i { s with wasm_buf := some (b ++ [c]) },
                    g_bin_received := st.g_bin_received + 1,
                    g_rx_state := rx_state_t.RX_STATE_LINE,
                    bin_sem := k_sem_give st.bin_sem } := by
        unfold serial_cb_byte
        simp [hm, hb, hr, hlast, hstore]
      rw [hbyte]
      have hline := serial_cb_line rest
        { st with g_mods := st.g_mods.set i { s with wasm_buf := some (b ++ [c]) },
                  g_bin_received := st.g_bin_received + 1,
                  g_rx_state := rx_state_t.RX_STATE_LINE,
                  bin_sem := k_sem_give st.bin_sem } rfl
      obtain ⟨h1, h2, h3, h4, _, h6⟩ := hline
      have hd : st.g_bin_expected - st.g_bin_received = 1 := by omega
      have hn : ¬ (st.g_bin_received + (c :: rest).length < st.g_bin_expected) := by
        simp only [List.length_cons]
        omega
      simp only [hn, if_false, hd]
      refine ⟨?_, h6, h2, ?_, h4⟩
      · rw [h1]
        simp
      · rw [h3]
        exact hb
    · have hlt : st.g_bin_received + 1 < st.g_bin_expected := by omega
      have hbyte : serial_cb_byte st c =
          { st with g_mods := st.g_mods.set i { s with wasm_buf := some (b ++ [c]) },
                    g_bin_received := st.g_bin_received + 1 } := by
        unfold serial_cb_byte
        simp [hm, hb, hr, hlast, hstore]
      rw [hbyte]
      have := ih
        { st with g_mods := st.g_mods.set i { s with wasm_buf := some (b ++ [c]) },
                  g_bin_received := st.g_bin_received + 1 }
        { s with wasm_buf := some (b ++ [c]) } (b ++ [c]) hm hb
        (get_set_same hs _) rfl (by simp [hl]) hlt
      obtain ⟨h1, h2, h3, h4, h5⟩ := this
      have hd : st.g_bin_expected - st.g_bin_received
          = (st.g_bin_expected - (st.g_bin_received + 1)) + 1 := by omega
      refine ⟨?_, ?_, ?_, h4, h5⟩
      · rw [h1]
        simp only [set_set_same]
        rw [hd]
        simp
      · rw [h2]
        simp only [List.length_cons]
        have : st.g_bin_received + 1 + rest.length = st.g_bin_received + (rest.length + 1) := by
          omega
        simp only [this]
      · rw [h3]
        simp only [List.length_cons]
        have : st.g_bin_received + 1 + rest.length = st.g_bin_received + (rest.length + 1) := by
          omega
        simp only [this]

/-! ## `LOAD`: the payload window and each exit of the handler -/

theorem slot_cleanup_with_buf (s : module_slot_t) (b : Option (List Byte)) (n : Nat) :
    slot_cleanup { s with wasm_buf := b, wasm_size := n } = slot_cleanup s := rfl

/-- The binary window opened by `load_arm`: when the wait ends the target buffer
holds the first `n` bytes that arrived, and `bin_sem` was given iff at least `n`
bytes arrived. -/
theorem load_window (st : State) (i n : Nat) (s0 : module_slot_t) (bs : List Byte)
    (hs : st.g_mods[i]? = some s0) (hn : 0 < n) :
    (serial_cb (load_arm st i n) bs).g_mods =
      st.g_mods.set i { s0 with wasm_buf := some (bs.take n), wasm_size := n } ∧
    (serial_cb (load_arm st i n) bs).bin_sem = (if bs.length < n then 0 else 1) ∧
    (serial_cb (load_arm st i n) bs).g_rx_state =
      (if bs.length < n then rx_state_t.RX_STATE_BINARY else rx_state_t.RX_STATE_LINE) := by
  have hg : (load_arm st i n).g_mods
      = st.g_mods.set i { s0 with wasm_buf := some [], wasm_size := n } := by
    simp [load_arm, slot_upd_of_get hs]
  have h := serial_cb_binary bs (load_arm st i n) i
    { s0 with wasm_buf := some [], wasm_size := n } [] rfl rfl
    (by rw [hg]; exact get_set_same hs _) rfl rfl hn
  obtain ⟨h1, h2, h3, _, _⟩ := h
  refine ⟨?_, ?_, ?_⟩
  · rw [h1, hg, set_set_same]
    simp [load_arm]
  · rw [h2]
    simp [load_arm, k_sem_give]
  · rw [h3]
    simp [load_arm]


theorem load_payload_no_mem (st : State) (env : load_env) (i n crc : Nat)
    (crc_str vid : CStr) (w : Bool) (s0 : module_slot_t)
    (hs : st.g_mods[i]? = some s0) (hm : env.malloc_ok = false) :
    load_payload st env i n crc crc_str vid w =
      ({ st with g_mods := st.g_mods.set i { s0 with wasm_buf := none } },
       ["LOAD_ERR code=NO_MEM\n".toList]) := by
  simp [load_payload, hm, slot_upd_of_get hs]

theorem load_payload_timeout (st : State) (env : load_env) (i n crc : Nat)
    (crc_str vid : CStr) (w : Bool) (s0 : module_slot_t)
    (hs : st.g_mods[i]? = some s0) (hn : 0 < n) (hm : env.malloc_ok = true)
    (hlen : env.incoming.length < n) :
    (load_payload st env i n crc crc_str vid w).1.g_mods = st.g_mods.set i (slot_cleanup s0) ∧
    (load_payload st env i n crc crc_str vid w).1.g_rx_state = rx_state_t.RX_STATE_LINE ∧
    (load_payload st env i n crc crc_str vid w).1.g_bin_buf = none ∧
    (load_payload st env i n crc crc_str vid w).2 =
      [load_ready_line (load_arm st i n) i crc_str,
       "LOAD_ERR code=TIMEOUT msg=\"binary payload not received\"\n".toList] := by
  obtain ⟨w1, w2, _⟩ := load_window st i n s0 env.incoming hs hn
  simp only [hlen, if_true] at w2
  have hg := get_set_same hs { s0 with wasm_buf := some (env.incoming.take n), wasm_size := n }
  simp [load_payload, load_finish, hm, w2, w1, slot_upd_of_get hg, set_set_same,
    slot_cleanup_with_buf]

/-- The table and the lines written on each exit of `load_payload` taken after the
whole payload arrived. `buf` is the stored bytecode. -/
theorem load_payload_received (st : State) (env : load_env) (i n crc : Nat)
    (crc_str vid : CStr) (w : Bool) (s0 : module_slot_t)
    (hs : st.g_mods[i]? = some s0) (hn : 0 < n) (hm : env.malloc_ok = true)
    (hlen : n ≤ env.incoming.length) :
    (crc32_calc (env.incoming.take n) ≠ crc →
      (load_payload st env i n crc crc_str vid w).1.g_mods
        = st.g_mods.set i (slot_cleanup s0) ∧
      (load_payload st env i n crc crc_str vid w).2 =
        [load_ready_line (load_arm st i n) i crc_str,
         snprintf 200 ("LOAD_ERR code=BAD_CRC msg=\"expected=".toList ++ fmt_08lx crc
           ++ " got=".toList ++ fmt_08lx (crc32_calc (env.incoming.take n))
           ++ "\"\n".toList)]) ∧
    (crc32_calc (env.incoming.take n) = crc →
      (∀ e, env.load_result = Except.error e →
        (load_payload st env i n crc crc_str vid w).1.g_mods
          = st.g_mods.set i (slot_cleanup s0) ∧
        (load_payload st env i n crc crc_str vid w).2 =
          [load_ready_line (load_arm st i n) i crc_str,
           snprintf 200 ("LOAD_ERR code=LOAD_FAIL msg=\"".toList ++ e ++ "\"\n".toList)]) ∧
      (∀ m e, env.load_result = Except.ok m → env.instantiate_result = Except.error e →
        (load_payload st env i n crc crc_str vid w).1.g_mods
          = st.g_mods.set i (slot_cleanup s0) ∧
        (load_payload st env i n crc crc_str vid w).2 =
          [load_ready_line (load_arm st i n) i crc_str,
           snprintf 200 ("LOAD_ERR code=INSTANTIATE_FAIL msg=\"".toList ++ e
             ++ "\"\n".toList)]) ∧
      (∀ m k, env.load_result = Except.ok m → env.instantiate_result = Except.ok k →
        env.exec_env_result = none →
        (load_payload st env i n crc crc_str vid w).1.g_mods
          = st.g_mods.set i (slot_cleanup s0) ∧
        (load_payload st env i n crc crc_str vid w).2 =
          [load_ready_line (load_arm st i n) i crc_str,
           snprintf 200
             "LOAD_ERR code=NO_EXEC_ENV msg=\"create_exec_env failed\"\n".toList]) ∧
      (∀ m k e, env.load_result = Except.ok m → env.instantiate_result = Except.ok k →
        env.exec_env_result = some e →
        (load_payload st env i n crc crc_str vid w).1.g_mods
          = st.g_mods.set i
              { s0 with wasm_buf := some (env.incoming.take n), wasm_size := n,
                        module := some m, inst := some k, exec_env := some e,
                        state := mod_state_t.MOD_LOADED } ∧
        (load_payload st env i n crc crc_str vid w).2 =
          [load_ready_line (load_arm st i n) i crc_str,
           if w then snprintf 200 ("LOAD_OK warn=VICTIM_IGNORED replace_victim=".toList
                       ++ vid ++ "\n".toList)
           else "LOAD_OK\n".toList])) := by
  obtain ⟨w1, w2, _⟩ := load_window st i n s0 env.incoming hs hn
  have hnl : ¬ env.incoming.length < n := by omega
  simp only [hnl, if_false] at w2
  have hg := get_set_same hs { s0 with wasm_buf := some (env.incoming.take n), wasm_size := n }
  have hat := slot_at_of_get hg
  have htake : (env.incoming.take n).take n = env.incoming.take n := by simp
  refine ⟨?_, ?_⟩
  · intro hc
    simp [load_payload, load_finish, hm, w2, w1, slot_upd_of_get hg, set_set_same,
      slot_cleanup_with_buf, hat, htake, hc]
  · intro hc
    refine ⟨?_, ?_, ?_, ?_⟩
    · intro e he
      simp [load_payload, load_finish, hm, w2, w1, slot_upd_of_get hg, set_set_same,
        slot_cleanup_with_buf, hat, htake, hc, he]
    · intro m e hl he
      simp [load_payload, load_finish, hm, w2, w1, slot_upd_of_get hg, set_set_same,
        hat, htake, hc, hl, he]
      rfl
    · intro m k hl hk he
      simp [load_payload, load_finish, hm, w2, w1, slot_upd_of_get hg, set_set_same,
        hat, htake, hc, hl, hk, he]
      rfl
    · intro m k e hl hk he
      simp [load_payload, load_finish, hm, w2, w1, slot_upd_of_get hg, set_set_same,
        hat, htake, hc, hl, hk, he]

/-! ## `LOAD`: resolution of the target slot -/

/-- The three ways `load_resolve` yields a target slot `i`: the id names a used slot
(cleaned in place, after a forced stop when it was busy, which needs `replace`); an
unused slot is allocated; the victim named with `replace=1` is cleaned and renamed. -/
theorem load_resolve_ok {g : List module_slot_t} {id vid : CStr} {rep hv : Bool}
    {g1 : List module_slot_t} {i : Nat} {w : Bool}
    (h : load_resolve g id vid rep hv = Except.ok (g1, i, w)) :
    ∃ sold s0, g[i]? = some sold ∧ g1 = g.set i s0 ∧
      ((slot_find g id = some i ∧ (sold.busy = true → rep = true) ∧
          s0 = slot_cleanup (if sold.busy then load_force_stop sold else sold) ∧ w = hv) ∨
       (slot_find g id = none ∧ sold.used = false ∧ s0 = slot_fresh id ∧ w = false) ∨
       (slot_find g id = none ∧ (∀ s ∈ g, s.used = true) ∧ rep = true ∧ hv = true ∧
          slot_find g vid = some i ∧
          s0 = { slot_cleanup (if sold.busy then load_force_stop sold else sold) with
                 module_id := id.take 31 } ∧ w = false)) := by
  unfold load_resolve at h
  cases hf : slot_find g id with
  | some k =>
    obtain ⟨sold, hs, _, _⟩ := slot_find_some hf
    simp only [hf, slot_at_of_get hs, slot_upd_of_get hs] at h
    by_cases hb : sold.busy = true
    · simp only [hb, if_true] at h
      by_cases hr : rep = true
      · simp [hr] at h
        obtain ⟨e1, e2, e3⟩ := h
        subst e2
        exact ⟨sold, _, hs, e1.symm, Or.inl ⟨rfl, fun _ => hr, by simp [hb], e3.symm⟩⟩
      · simp [hr] at h
    · simp [hb] at h
      obtain ⟨e1, e2, e3⟩ := h
      subst e2
      exact ⟨sold, _, hs, e1.symm, Or.inl ⟨rfl, fun hb2 => absurd hb2 hb, by simp [hb], e3.symm⟩⟩
  | none =>
    simp only [hf] at h
    cases ha : slot_alloc g id with
    | some r =>
      simp only [ha] at h
      obtain ⟨sold, hs, hu, hr⟩ := slot_alloc_some ha
      simp at h
      obtain ⟨e1, e2, e3⟩ := h
      subst e2
      exact ⟨sold, _, hs, by rw [← e1, hr], Or.inr (Or.inl ⟨rfl, hu, rfl, e3⟩)⟩
    | none =>
      simp only [ha] at h
      have hall := slot_alloc_none.mp ha
      by_cases hr : rep = true
      · by_cases hh : hv = true
        · simp only [hr, hh, if_true] at h
          cases hvf : slot_find g vid with
          | none => simp [hvf] at h
          | some v =>
            obtain ⟨sold, hs, _, _⟩ := slot_find_some hvf
            simp [hvf, slot_upd_of_get hs] at h
            obtain ⟨e1, e2, e3⟩ := h
            subst e2
            refine ⟨sold, _, hs, e1.symm, Or.inr (Or.inr ⟨rfl, hall, hr, hh, rfl, ?_, e3⟩)⟩
            by_cases hb : sold.busy = true <;> simp [hb]
        · simp [hr, hh] at h
      · simp [hr] at h

/-- The four replies that end `LOAD` during slot resolution, each with its cause. -/
theorem load_resolve_error {g : List module_slot_t} {id vid : CStr} {rep hv : Bool}
    {reply : CStr} (h : load_resolve g id vid rep hv = Except.error reply) :
    (reply = "LOAD_ERR code=BUSY msg=\"module running\"\n".toList ∧ rep = false ∧
        ∃ i, slot_find g id = some i ∧ (slot_at g i).busy = true) ∨
    (slot_find g id = none ∧ (∀ s ∈ g, s.used = true) ∧
      ((reply = "LOAD_ERR code=FULL msg=\"NEED_VICTIM\"\n".toList ∧ rep = true ∧ hv = false) ∨
       (reply = "LOAD_ERR code=BAD_VICTIM msg=\"NOT_FOUND\"\n".toList ∧ rep = true ∧
          hv = true ∧ slot_find g vid = none) ∨
       (reply = "LOAD_ERR code=NO_SLOT msg=\"MAX_MODULES reached\"\n".toList ∧
          rep = false))) := by
  unfold load_resolve at h
  cases hf : slot_find g id with
  | some k =>
    simp only [hf] at h
    by_cases hb : (slot_at g k).busy = true
    · by_cases hr : rep = true
      · simp [hb, hr] at h
      · simp [hb, hr] at h
        exact Or.inl ⟨h.symm, by simpa using hr, k, rfl, hb⟩
    · simp [hb] at h
  | none =>
    simp only [hf] at h
    cases ha : slot_alloc g id with
    | some r => simp [ha] at h
    | none =>
      simp only [ha] at h
      have hall := slot_alloc_none.mp ha
      refine Or.inr ⟨rfl, hall, ?_⟩
      by_cases hr : rep = true
      · by_cases hh : hv = true
        · cases hvf : slot_find g vid with
          | none =>
            simp [hr, hh, hvf] at h
            exact Or.inr (Or.inl ⟨h.symm, hr, hh, rfl⟩)
          | some v => simp [hr, hh, hvf] at h
        · simp [hr, hh] at h
          exact Or.inl ⟨h.symm, hr, by simpa using hh⟩
      · simp [hr] at h
        exact Or.inr (Or.inr ⟨h.symm, by simpa using hr⟩)

/-- The exits of `handle_load_cmd`: missing parameter, `size=0`, an error of slot
resolution (state untouched in all three), or the payload phase on the resolved
slot. -/
theorem handle_load_cmd_cases (st : State) (env : load_env) (line : CStr) :
    (load_parse line = none ∧ handle_load_cmd st env line =
      (st, ["LOAD_ERR code=BAD_PARAMS msg=\"missing module_id/size/crc32\"\n".toList])) ∨
    (∃ p, load_parse line = some p ∧
      ((to_u32 (atoi p.size_str) = 0 ∧ handle_load_cmd st env line =
          (st, ["LOAD_ERR code=BAD_PARAMS msg=\"size=0\"\n".toList])) ∨
       (to_u32 (atoi p.size_str) ≠ 0 ∧
        ((∃ reply, load_resolve st.g_mods p.module_id_buf p.victim_id_buf p.do_replace
              p.have_victim = Except.error reply ∧
            handle_load_cmd st env line = (st, [reply])) ∨
         (∃ g1 i w, load_resolve st.g_mods p.module_id_buf p.victim_id_buf p.do_replace
              p.have_victim = Except.ok (g1, i, w) ∧
            handle_load_cmd st env line =
              load_payload { st with g_mods := g1 } env i (to_u32 (atoi p.size_str))
                (strtoul p.crc_str 16) p.crc_str p.victim_id_buf w))))) := by
  unfold handle_load_cmd
  cases hp : load_parse line with
  | none => exact Or.inl ⟨rfl, rfl⟩
  | some p =>
    refine Or.inr ⟨p, rfl, ?_⟩
    by_cases hz : to_u32 (atoi p.size_str) = 0
    · exact Or.inl ⟨hz, by simp [hz]⟩
    · refine Or.inr ⟨hz, ?_⟩
      cases hr : load_resolve st.g_mods p.module_id_buf p.victim_id_buf p.do_replace
          p.have_victim with
      | error reply => exact Or.inl ⟨reply, rfl, by simp [hz, hr]⟩
      | ok r =>
        obtain ⟨g1, i, w⟩ := r
        exact Or.inr ⟨g1, i, w, rfl, by simp [hz, hr]⟩

/-! ## `LOAD`: outcome of the payload phase -/

theorem slot_cleanup_of_clean {s : module_slot_t} (h : slot_is_clean s) :
    slot_cleanup s = s := by
  obtain ⟨h1, h2, h3, h4, h5, h6, h7, h8⟩ := h
  cases s
  simp only at h1 h2 h3 h4 h5 h6 h7 h8
  simp [slot_cleanup, h1, h2, h3, h4, h5, h6, h7, h8]

theorem slot_cleanup_clean (s : module_slot_t) : slot_is_clean (slot_cleanup s) := by
  simp [slot_is_clean, slot_cleanup]

theorem no_buf_of_clean {s : module_slot_t} (h : slot_is_clean s) :
    { s with wasm_buf := none } = s := by
  obtain ⟨_, h2, _⟩ := h
  cases s
  simp only at h2
  simp [h2]

/-- Outcome of the payload phase on a target slot `s0` that slot resolution left
clean. Either every step succeeded, the slot holds the received bytecode with the
three handles and is LOADED, and `LOAD_OK` is written; or the table is exactly as
resolution left it and the single error line of the failing step is written. -/
theorem load_payload_outcome (st : State) (env : load_env) (i n crc : Nat)
    (crc_str vid : CStr) (w : Bool) (s0 : module_slot_t)
    (hs : st.g_mods[i]? = some s0) (hn : 0 < n) (hc : slot_is_clean s0) :
    (env.malloc_ok = true ∧ n ≤ env.incoming.length ∧
      crc32_calc (env.incoming.take n) = crc ∧
      ∃ m k e, env.load_result = Except.ok m ∧ env.instantiate_result = Except.ok k ∧
        env.exec_env_result = some e ∧
        (load_payload st env i n crc crc_str vid w).1.g_mods
          = st.g_mods.set i
              { s0 with wasm_buf := some (env.incoming.take n), wasm_size := n,
                        module := some m, inst := some k, exec_env := some e,
                        state := mod_state_t.MOD_LOADED } ∧
        (load_payload st env i n crc crc_str vid w).2 =
          [load_ready_line (load_arm st i n) i crc_str,
           if w then snprintf 200 ("LOAD_OK warn=VICTIM_IGNORED replace_victim=".toList
                       ++ vid ++ "\n".toList)
           else "LOAD_OK\n".toList]) ∨
    ((load_payload st env i n crc crc_str vid w).1.g_mods = st.g_mods ∧
      ((env.malloc_ok = false ∧
          (load_payload st env i n crc crc_str vid w).2 = ["LOAD_ERR code=NO_MEM\n".toList]) ∨
       (env.malloc_ok = true ∧ env.incoming.length < n ∧
          (load_payload st env i n crc crc_str vid w).2 =
            [load_ready_line (load_arm st i n) i crc_str,
             "LOAD_ERR code=TIMEOUT msg=\"binary payload not received\"\n".toList]) ∨
       (env.malloc_ok = true ∧ n ≤ env.incoming.length ∧
          crc32_calc (env.incoming.take n) ≠ crc ∧
          (load_payload st env i n crc crc_str vid w).2 =
            [load_ready_line (load_arm st i n) i crc_str,
             snprintf 200 ("LOAD_ERR code=BAD_CRC msg=\"expected=".toList ++ fmt_08lx crc
               ++ " got=".toList ++ fmt_08lx (crc32_calc (env.incoming.take n))
               ++ "\"\n".toList)]) ∨
       (∃ e, env.malloc_ok = true ∧ n ≤ env.incoming.length ∧
          crc32_calc (env.incoming.take n) = crc ∧ env.load_result = Except.error e ∧
          (load_payload st env i n crc crc_str vid w).2 =
            [load_ready_line (load_arm st i n) i crc_str,
             snprintf 200 ("LOAD_ERR code=LOAD_FAIL msg=\"".toList ++ e
               ++ "\"\n".toList)]) ∨
       (∃ e, env.malloc_ok = true ∧ n ≤ env.incoming.length ∧
          crc32_calc (env.incoming.take n) = crc ∧
          (∃ m, env.load_result = Except.ok m) ∧ env.instantiate_result = Except.error e ∧
          (load_payload st env i n crc crc_str vid w).2 =
            [load_ready_line (load_arm st i n) i crc_str,
             snprintf 200 ("LOAD_ERR code=INSTANTIATE_FAIL msg=\"".toList ++ e
               ++ "\"\n".toList)]) ∨
       (env.malloc_ok = true ∧ n ≤ env.incoming.length ∧
          crc32_calc (env.incoming.take n) = crc ∧
          (∃ m, env.load_result = Except.ok m) ∧
          (∃ k, env.instantiate_result = Except.ok k) ∧ env.exec_env_result = none ∧
          (load_payload st env i n crc crc_str vid w).2 =
            [load_ready_line (load_arm st i n) i crc_str,
             snprintf 200
               "LOAD_ERR code=NO_EXEC_ENV msg=\"create_exec_env failed\"\n".toList]))) := by
  have hsame : st.g_mods.set i (slot_cleanup s0) = st.g_mods := by
    rw [slot_cleanup_of_clean hc, set_get_self hs]
  cases hm : env.malloc_ok with
  | false =>
    right
    rw [load_payload_no_mem st env i n crc crc_str vid w s0 hs hm]
    refine ⟨?_, Or.inl ⟨rfl, rfl⟩⟩
    simp only
    rw [no_buf_of_clean hc, set_get_self hs]
  | true =>
    rcases Nat.lt_or_ge env.incoming.length n with hlen | hlen
    · right
      obtain ⟨t1, _, _, t4⟩ := load_payload_timeout st env i n crc crc_str vid w s0 hs hn hm hlen
      exact ⟨t1.trans hsame, Or.inr (Or.inl ⟨rfl, hlen, t4⟩)⟩
    · obtain ⟨r1, r2⟩ := load_payload_received st env i n crc crc_str vid w s0 hs hn hm hlen
      by_cases hcrc : crc32_calc (env.incoming.take n) = crc
      · obtain ⟨q1, q2, q3, q4⟩ := r2 hcrc
        cases hl : env.load_result with
        | error e =>
          right
          obtain ⟨a1, a2⟩ := q1 e hl
          exact ⟨a1.trans hsame, Or.inr (Or.inr (Or.inr (Or.inl ⟨e, rfl, hlen, hcrc, rfl, a2⟩)))⟩
        | ok m =>
          cases hk : env.instantiate_result with
          | error e =>
            right
            obtain ⟨a1, a2⟩ := q2 m e hl hk
            exact ⟨a1.trans hsame,
              Or.inr (Or.inr (Or.inr (Or.inr (Or.inl ⟨e, rfl, hlen, hcrc, ⟨m, rfl⟩, rfl, a2⟩))))⟩
          | ok k =>
            cases he : env.exec_env_result with
            | none =>
              right
              obtain ⟨a1, a2⟩ := q3 m k hl hk he
              exact ⟨a1.trans hsame,
                Or.inr (Or.inr (Or.inr (Or.inr (Or.inr
                  ⟨rfl, hlen, hcrc, ⟨m, rfl⟩, ⟨k, rfl⟩, rfl, a2⟩))))⟩
            | some e =>
              left
              obtain ⟨a1, a2⟩ := q4 m k e hl hk he
              exact ⟨rfl, hlen, hcrc, m, k, e, rfl, rfl, rfl, a1, a2⟩
      · right
        obtain ⟨a1, a2⟩ := r1 hcrc
        exact ⟨a1.trans hsame, Or.inr (Or.inr (Or.inl ⟨rfl, hlen, hcrc, a2⟩))⟩

/-! ## `LOAD`: rollback on failure, conditions of `LOAD_OK` -/

theorem slot_fresh_clean (id : CStr) : slot_is_clean (slot_fresh id) := by
  simp [slot_is_clean, slot_fresh, slot_ensure_worker, slot_zero]

/-- The target slot is clean and used when slot resolution ends. -/
theorem load_resolve_clean {g : List module_slot_t} {id vid : CStr} {rep hv : Bool}
    {g1 : List module_slot_t} {i : Nat} {w : Bool}
    (h : load_resolve g id vid rep hv = Except.ok (g1, i, w)) :
    ∃ s0, g1[i]? = some s0 ∧ slot_is_clean s0 ∧ s0.used = true := by
  obtain ⟨sold, s0, hs, hg, hcase⟩ := load_resolve_ok h
  refine ⟨s0, by rw [hg]; exact get_set_same hs _, ?_⟩
  rcases hcase with ⟨hf, _, e, _⟩ | ⟨_, _, e, _⟩ | ⟨_, hall, _, _, hf, e, _⟩
  · obtain ⟨s', hs', hu, _⟩ := slot_find_some hf
    rw [hs] at hs'
    cases hs'
    subst e
    refine ⟨slot_cleanup_clean _, ?_⟩
    by_cases hb : sold.busy = true <;>
      simp [hb, slot_cleanup, load_force_stop, slot_ensure_worker, slot_abort_worker, hu]
  · subst e
    exact ⟨slot_fresh_clean id, by simp [slot_fresh, slot_ensure_worker, slot_zero]⟩
  · obtain ⟨s', hs', hu, _⟩ := slot_find_some hf
    rw [hs] at hs'
    cases hs'
    subst e
    refine ⟨by simp [slot_is_clean, slot_cleanup], ?_⟩
    by_cases hb : sold.busy = true <;>
      simp [hb, slot_cleanup, load_force_stop, slot_ensure_worker, slot_abort_worker, hu]

/-- What a `LOAD` that writes `LOAD_OK` went through, and the table it leaves: the
parameters were present, a target slot `i` was resolved (`s0` is that slot as
resolution left it), the buffer was allocated, at least `size` bytes arrived, the CRC
of the stored bytes is the declared one, the three runtime calls succeeded, and the
table differs from the resolved one in slot `i` only. -/
theorem load_ok_inv (st : State) (env : load_env) (line : CStr)
    (h : replied (handle_load_cmd st env line).2 "LOAD_OK" = true) :
    ∃ p g1 i w s0 m k e, load_parse line = some p ∧
      to_u32 (atoi p.size_str) ≠ 0 ∧
      load_resolve st.g_mods p.module_id_buf p.victim_id_buf p.do_replace p.have_victim
        = Except.ok (g1, i, w) ∧
      g1[i]? = some s0 ∧ slot_is_clean s0 ∧ s0.used = true ∧
      env.malloc_ok = true ∧
      to_u32 (atoi p.size_str) ≤ env.incoming.length ∧
      crc32_calc (env.incoming.take (to_u32 (atoi p.size_str))) = strtoul p.crc_str 16 ∧
      env.load_result = Except.ok m ∧ env.instantiate_result = Except.ok k ∧
      env.exec_env_result = some e ∧
      (handle_load_cmd st env line).1.g_mods =
        g1.set i { s0 with wasm_buf := some (env.incoming.take (to_u32 (atoi p.size_str))),
                           wasm_size := to_u32 (atoi p.size_str),
                           module := some m, inst := some k, exec_env := some e,
                           state := mod_state_t.MOD_LOADED } := by
  rcases handle_load_cmd_cases st env line with ⟨_, e⟩ | ⟨p, hp, hrest⟩
  · rw [e] at h
    simp [replied, starts_with, List.isPrefixOf] at h
  · rcases hrest with ⟨_, e⟩ | ⟨hz, hrest⟩
    · rw [e] at h
      simp [replied, starts_with, List.isPrefixOf] at h
    · rcases hrest with ⟨reply, hr, e⟩ | ⟨g1, i, w, hr, e⟩
      · rw [e] at h
        rcases load_resolve_error hr with ⟨e1, _⟩ | ⟨_, _, ⟨e1, _⟩ | ⟨e1, _⟩ | ⟨e1, _⟩⟩ <;>
          · rw [e1] at h
            simp [replied, starts_with, List.isPrefixOf] at h
      · obtain ⟨s0, hs, hc, hu⟩ := load_resolve_clean hr
        rw [e] at h
        rw [e]
        rcases load_payload_outcome { st with g_mods := g1 } env i (to_u32 (atoi p.size_str))
            (strtoul p.crc_str 16) p.crc_str p.victim_id_buf w s0 hs (Nat.pos_of_ne_zero hz) hc
          with ⟨hm, hlen, hcrc, m, k, x, hl, hk, hx, hg, _⟩ | ⟨_, hf⟩
        · exact ⟨p, g1, i, w, s0, m, k, x, hp, hz, hr, hs, hc, hu, hm, hlen, hcrc, hl, hk, hx, hg⟩
        · rcases hf with ⟨_, ho⟩ | ⟨_, _, ho⟩ | ⟨_, _, _, ho⟩ | ⟨_, _, _, _, _, ho⟩ |
            ⟨_, _, _, _, _, _, ho⟩ | ⟨_, _, _, _, _, _, ho⟩ <;>
            · rw [ho] at h
              simp [replied, starts_with, snprintf, load_ready_line, List.isPrefixOf] at h

/-- C4: `handle_load_cmd` replies `LOAD_OK` (and sets the target slot's state to
LOADED) only if all declared `size` bytes were received, `crc32_calc` of the stored
bytecode equals the declared `crc32` parsed as hexadecimal, and runtime load,
instantiate and create_exec_env all succeeded; after `LOAD_OK` the slot holds
bytecode of exactly the declared size whose CRC equals the declared CRC, has all
three handles present and `busy = false`. -/
theorem load_ok_only_when_verified (st : State) (env : load_env) (line : CStr)
    (h : replied (handle_load_cmd st env line).2 "LOAD_OK" = true) :
    ∃ p g1 i w buf m k e, load_parse line = some p ∧
      load_resolve st.g_mods p.module_id_buf p.victim_id_buf p.do_replace p.have_victim
        = Except.ok (g1, i, w) ∧
      to_u32 (atoi p.size_str) ≤ env.incoming.length ∧
      env.load_result = Except.ok m ∧ env.instantiate_result = Except.ok k ∧
      env.exec_env_result = some e ∧
      (slot_at (handle_load_cmd st env line).1.g_mods i).state = mod_state_t.MOD_LOADED ∧
      (slot_at (handle_load_cmd st env line).1.g_mods i).wasm_buf = some buf ∧
      buf = env.incoming.take (to_u32 (atoi p.size_str)) ∧
      buf.length = to_u32 (atoi p.size_str) ∧
      (slot_at (handle_load_cmd st env line).1.g_mods i).wasm_size
        = to_u32 (atoi p.size_str) ∧
      crc32_calc buf = strtoul p.crc_str 16 ∧
      (slot_at (handle_load_cmd st env line).1.g_mods i).module = some m ∧
      (slot_at (handle_load_cmd st env line).1.g_mods i).inst = some k ∧
      (slot_at (handle_load_cmd st env line).1.g_mods i).exec_env = some e ∧
      (slot_at (handle_load_cmd st env line).1.g_mods i).busy = false := by
  obtain ⟨p, g1, i, w, s0, m, k, e, hp, _, hr, hs, hc, _, _, hlen, hcrc, hl, hk, he, hg⟩ :=
    load_ok_inv st env line h
  refine ⟨p, g1, i, w, env.incoming.take (to_u32 (atoi p.size_str)), m, k, e, hp, hr, hlen,
    hl, hk, he, ?_⟩
  rw [hg, slot_at_set_same hs]
  refine ⟨rfl, rfl, rfl, ?_, rfl, hcrc, rfl, rfl, rfl, ?_⟩
  · simp [hlen]
  · exact hc.2.2.2.2.2.2.1

/-- C4 at a concrete input: the nine bytes `123456789` loaded as `m1` with their
CRC declared. -/
theorem load_ok_only_when_verified_witness :
    replied (handle_load_cmd State.init (load_env_ok payload_digits) load_line_m1).2
        "LOAD_OK" = true ∧
    ∃ p g1 i w buf m k e, load_parse load_line_m1 = some p ∧
      load_resolve State.init.g_mods p.module_id_buf p.victim_id_buf p.do_replace
        p.have_victim = Except.ok (g1, i, w) ∧
      to_u32 (atoi p.size_str) ≤ (load_env_ok payload_digits).incoming.length ∧
      (load_env_ok payload_digits).load_result = Except.ok m ∧
      (load_env_ok payload_digits).instantiate_result = Except.ok k ∧
      (load_env_ok payload_digits).exec_env_result = some e ∧
      (slot_at (handle_load_cmd State.init (load_env_ok payload_digits)
        load_line_m1).1.g_mods i).state = mod_state_t.MOD_LOADED ∧
      (slot_at (handle_load_cmd State.init (load_env_ok payload_digits)
        load_line_m1).1.g_mods i).wasm_buf = some buf ∧
      buf = (load_env_ok payload_digits).incoming.take (to_u32 (atoi p.size_str)) ∧
      buf.length = to_u32 (atoi p.size_str) ∧
      (slot_at (handle_load_cmd State.init (load_env_ok payload_digits)
        load_line_m1).1.g_mods i).wasm_size = to_u32 (atoi p.size_str) ∧
      crc32_calc buf = strtoul p.crc_str 16 ∧
      (slot_at (handle_load_cmd State.init (load_env_ok payload_digits)
        load_line_m1).1.g_mods i).module = some m ∧
      (slot_at (handle_load_cmd State.init (load_env_ok payload_digits)
        load_line_m1).1.g_mods i).inst = some k ∧
      (slot_at (handle_load_cmd State.init (load_env_ok payload_digits)
        load_line_m1).1.g_mods i).exec_env = some e ∧
      (slot_at (handle_load_cmd State.init (load_env_ok payload_digits)
        load_line_m1).1.g_mods i).busy = false :=
  ⟨by decide,
   load_ok_only_when_verified State.init (load_env_ok payload_digits) load_line_m1
     (by decide)⟩

/-! ## `STATUS`: the modules list -/

theorem fmt_u_length (n : Nat) : (fmt_u n).length ≤ 10 := by
  unfold fmt_u Nat.toDigits
  apply Nat.toDigitsCore_length 10 (by decide) _ _ 10 _ (by decide)
  rw [u32_val]
  have : n % 4294967296 < 4294967296 := Nat.mod_lt _ (by decide)
  omega

theorem copy_param_loop_length (dst_len : Nat) (s : CStr) (i : Nat) :
    (copy_param_loop dst_len s i).length ≤ dst_len - 1 - i := by
  induction s generalizing i with
  | nil => simp [copy_param_loop]
  | cons c cs ih =>
    simp only [copy_param_loop]
    split
    · simp
    · split
      · have := ih (i + 1)
        simp only [List.length_cons]
        omega
      · have := ih (i + 1)
        omega

/-- `copy_param_value` leaves at most `dst_len - 1` characters. -/
theorem copy_param_value_length (s : CStr) (dst_len : Nat) :
    (copy_param_value s dst_len).length ≤ dst_len - 1 := by
  have := copy_param_loop_length dst_len s 0
  simpa [copy_param_value] using this

theorem load_parse_id_length {line : CStr} {p : load_params}
    (h : load_parse line = some p) : p.module_id_buf.length ≤ 31 := by
  unfold load_parse at h
  split at h
  · simp only [Option.some.injEq] at h
    subst h
    exact copy_param_value_length _ 32
  · cases h

/-- With an id that fits the slot, the descriptor is not truncated. -/
theorem status_one_eq (s : module_slot_t) (f : Nat) (h : s.module_id.length ≤ 31) :
    status_one s f = s.module_id ++ ":".toList
      ++ (if s.state = mod_state_t.MOD_RUNNING then "RUNNING".toList else "LOADED".toList)
      ++ ":wasm=".toList ++ fmt_u s.wasm_size ++ ":stack_free=".toList ++ fmt_u f := by
  unfold status_one snprintf
  apply List.take_of_length_le
  have h1 := fmt_u_length s.wasm_size
  have h2 := fmt_u_length f
  have h3 : (if s.state = mod_state_t.MOD_RUNNING then "RUNNING".toList
      else "LOADED".toList).length ≤ 7 := by
    split <;> decide
  simp only [List.length_append]
  have e1 : ":".toList.length = 1 := by decide
  have e2 : ":wasm=".toList.length = 6 := by decide
  have e3 : ":stack_free=".toList.length = 12 := by decide
  omega

theorem status_one_length (s : module_slot_t) (f : Nat) (h : s.module_id.length ≤ 31) :
    (status_one s f).length ≤ 77 ∧ 0 < (status_one s f).length := by
  rw [status_one_eq s f h]
  have h1 := fmt_u_length s.wasm_size
  have h2 := fmt_u_length f
  have h3 : (if s.state = mod_state_t.MOD_RUNNING then "RUNNING".toList
      else "LOADED".toList).length ≤ 7 := by
    split <;> decide
  simp only [List.length_append]
  have e1 : ":".toList.length = 1 := by decide
  have e2 : ":wasm=".toList.length = 6 := by decide
  have e3 : ":stack_free=".toList.length = 12 := by decide
  omega

theorem strncat_cap_fits (cap : Nat) (dst src : CStr) (h : dst.length + src.length + 1 ≤ cap) :
    strncat_cap cap dst src = dst ++ src := by
  unfold strncat_cap
  rw [List.take_of_length_le]
  omega

theorem join_csv_cons (d : CStr) (ds : List CStr) :
    join_csv (d :: ds) = d ++ (if ds.isEmpty then [] else ",".toList ++ join_csv ds) := by
  cases ds with
  | nil => simp [join_csv]
  | cons e es => simp [join_csv]

/-- The `mods` buffer after the loop: what it held, then the remaining descriptors,
comma-separated. No `strncat` truncates while the buffer has room for 78 characters
per remaining slot. -/
theorem status_loop_mods (env : status_env) (g : List module_slot_t) (i : Nat)
    (mods low : CStr) (hid : ∀ s ∈ g, s.module_id.length ≤ 31)
    (hroom : mods.length + 78 * g.length ≤ 255) :
    (status_loop env g i (mods, low)).1 =
      if mods.isEmpty then join_csv (status_descriptors env g i)
      else if (status_descriptors env g i).isEmpty then mods
      else mods ++ ",".toList ++ join_csv (status_descriptors env g i) := by
  induction g generalizing i mods low with
  | nil =>
    simp only [status_loop, status_descriptors, join_csv, List.isEmpty_nil, if_true]
    split
    · rename_i h
      simpa using h
    · rfl
  | cons s rest ih =>
    have hrest : ∀ t ∈ rest, t.module_id.length ≤ 31 := fun t ht => hid t (List.mem_cons_of_mem _ ht)
    have hs : s.module_id.length ≤ 31 := hid s (List.mem_cons_self _ _)
    simp only [List.length_cons] at hroom
    by_cases hskip : (!s.used || s.inst.isNone) = true
    · simp only [status_loop, status_descriptors, hskip, if_true]
      exact ih (i + 1) mods low hrest (by omega)
    · simp only [status_loop, status_descriptors, hskip, if_false, Bool.false_eq_true]
      obtain ⟨hl1, hl2⟩ := status_one_length s (env.stack_free i) hs
      have hc : ",".toList.length = 1 := by decide
      by_cases hm : mods.isEmpty = true
      · have hm' : mods = [] := by simpa using hm
        subst hm'
        simp only [List.isEmpty_nil, if_true]
        rw [strncat_cap_fits 256 [] _ (by simp; omega)]
        rw [ih (i + 1) _ _ hrest (by simp; omega)]
        have hne : (status_one s (env.stack_free i)).isEmpty = false := by
          cases hq : status_one s (env.stack_free i) with
          | nil => simp [hq] at hl2
          | cons a b => simp
        simp only [List.nil_append, hne, Bool.false_eq_true, if_false]
        rw [join_csv_cons]
        split <;> simp
      · simp only [hm, if_false, Bool.false_eq_true]
        have hlen : 0 < mods.length := by
          cases mods with
          | nil => simp at hm
          | cons a b => simp
        rw [strncat_cap_fits 256 mods _ (by rw [hc]; omega)]
        rw [strncat_cap_fits 256 _ _ (by simp only [List.length_append, hc]; omega)]
        rw [ih (i + 1) _ _ hrest (by simp only [List.length_append, hc]; omega)]
        have hne : (mods ++ ",".toList ++ status_one s (env.stack_free i)).isEmpty = false := by
          cases mods with
          | nil => simp at hm
          | cons a b => simp
        simp only [hne, Bool.false_eq_true, if_false, List.isEmpty_cons]
        rw [join_csv_cons]
        split <;> simp [List.append_assoc]

theorem join_csv_length (env : status_env) (g : List module_slot_t) (i : Nat)
    (hid : ∀ s ∈ g, s.module_id.length ≤ 31) :
    (join_csv (status_descriptors env g i)).length ≤ 78 * g.length := by
  induction g generalizing i with
  | nil => simp [status_descriptors, join_csv]
  | cons s rest ih =>
    have hrest : ∀ t ∈ rest, t.module_id.length ≤ 31 := fun t ht => hid t (List.mem_cons_of_mem _ ht)
    have hs : s.module_id.length ≤ 31 := hid s (List.mem_cons_self _ _)
    have := ih (i + 1) hrest
    simp only [status_descriptors, List.length_cons]
    split
    · omega
    · rw [join_csv_cons]
      obtain ⟨hl1, _⟩ := status_one_length s (env.stack_free i) hs
      have hc : ",".toList.length = 1 := by decide
      split
      · simp only [List.length_append, List.length_nil]
        omega
      · simp only [List.length_append, hc]
        omega

theorem snprintf_keeps_head (n : Nat) (a b : CStr) (h : a.length ≤ n - 1) :
    ∃ tail, snprintf n (a ++ b) = a ++ tail := by
  refine ⟨b.take (n - 1 - a.length), ?_⟩
  unfold snprintf
  rw [List.take_append_eq_append_take, List.take_of_length_le h]

/-- The line written by `STATUS` on a well-formed table: its `modules` value is the
comma-separated list of the descriptors of the used, instantiated slots (or `none`). -/
theorem handle_status_cmd_modules (st : State) (env : status_env) (hwf : table_wf st.g_mods) :
    ∃ tail, handle_status_cmd st env =
      "STATUS_OK modules=\"".toList ++ status_modules env st.g_mods
        ++ "\" low_stack=\"".toList ++ tail := by
  obtain ⟨hlen, hid⟩ := hwf
  have hloop := status_loop_mods env st.g_mods 0 [] [] hid (by rw [hlen]; decide)
  simp only [List.isEmpty_nil, if_true] at hloop
  have hj := join_csv_length env st.g_mods 0 hid
  rw [hlen] at hj
  have hmods : (status_modules env st.g_mods).length ≤ 156 := by
    unfold status_modules
    split
    · decide
    · exact hj
  have hhead : ("STATUS_OK modules=\"".toList ++ status_modules env st.g_mods
      ++ "\" low_stack=\"".toList).length ≤ 512 - 1 := by
    simp only [List.length_append]
    have e1 : "STATUS_OK modules=\"".toList.length = 19 := by decide
    have e2 : "\" low_stack=\"".toList.length = 13 := by decide
    omega
  have key : ∀ r : CStr, ∃ tail, snprintf 512 ("STATUS_OK modules=\"".toList
      ++ (status_modules env st.g_mods ++ ("\" low_stack=\"".toList ++ r)))
      = "STATUS_OK modules=\"".toList ++ (status_modules env st.g_mods
        ++ ("\" low_stack=\"".toList ++ tail)) := by
    intro r
    obtain ⟨tail, ht⟩ := snprintf_keeps_head 512 _ r hhead
    refine ⟨tail, ?_⟩
    simp only [List.append_assoc] at ht
    exact ht
  unfold handle_status_cmd
  simp only [hloop]
  have hm : (if (join_csv (status_descriptors env st.g_mods 0)).isEmpty = true
      then "none".toList else join_csv (status_descriptors env st.g_mods 0))
      = status_modules env st.g_mods := rfl
  rw [hm]
  cases env.mem_info with
  | none =>
    simp only [List.append_assoc]
    exact key _
  | some mi =>
    simp only [List.append_assoc]
    exact key _

theorem status_descriptor_mem (env : status_env) (g : List module_slot_t) (base i : Nat)
    (s : module_slot_t) (hs : g[i]? = some s) (hu : s.used = true)
    (hi : s.inst.isSome = true) :
    status_one s (env.stack_free (base + i)) ∈ status_descriptors env g base := by
  induction g generalizing base i with
  | nil => simp at hs
  | cons a rest ih =>
    cases i with
    | zero =>
      simp at hs
      subst hs
      have hn : a.inst ≠ none := by
        intro hx
        rw [hx] at hi
        cases hi
      simp [status_descriptors, hu, hn]
    | succ j =>
      simp at hs
      have := ih (base + 1) j hs
      have e : base + 1 + j = base + (j + 1) := by omega
      rw [e] at this
      simp only [status_descriptors]
      split
      · exact this
      · exact List.mem_cons_of_mem _ this

theorem mem_of_get {g : List module_slot_t} {i : Nat} {s : module_slot_t}
    (h : g[i]? = some s) : s ∈ g := by
  rw [List.getElem?_eq_some] at h
  obtain ⟨hl, e⟩ := h
  rw [← e]
  exact List.getElem_mem hl

theorem take_eq_of_short {a b : CStr} (n : Nat) (ha : a.length < n) (hb : b.length < n)
    (h : a.take n = b.take n) : a = b := by
  rw [List.take_of_length_le (Nat.le_of_lt ha), List.take_of_length_le (Nat.le_of_lt hb)] at h
  exact h

/-- On a well-formed table the target slot carries exactly the id parsed from the
line, and the table stays well formed. -/
theorem load_resolve_id {g : List module_slot_t} {id vid : CStr} {rep hv : Bool}
    {g1 : List module_slot_t} {i : Nat} {w : Bool}
    (h : load_resolve g id vid rep hv = Except.ok (g1, i, w))
    (hwf : table_wf g) (hid : id.length ≤ 31) :
    ∃ s0, g1[i]? = some s0 ∧ s0.module_id = id ∧ table_wf g1 := by
  obtain ⟨sold, s0, hs, hg, hcase⟩ := load_resolve_ok h
  have hsold : sold.module_id.length ≤ 31 := hwf.2 sold (mem_of_get hs)
  have hid0 : s0.module_id = id := by
    rcases hcase with ⟨hf, _, e, _⟩ | ⟨_, _, e, _⟩ | ⟨_, _, _, _, _, e, _⟩
    · obtain ⟨s', hs', _, hm⟩ := slot_find_some hf
      rw [hs] at hs'
      cases hs'
      have hm' : sold.module_id.take 32 = id.take 32 := by simpa [strncmp_eq] using hm
      have he := take_eq_of_short 32 (by omega) (by omega) hm'
      subst e
      by_cases hb : sold.busy = true <;>
        simp [hb, slot_cleanup, load_force_stop, slot_ensure_worker, slot_abort_worker, he]
    · subst e
      simp [slot_fresh, slot_ensure_worker, slot_zero, List.take_of_length_le hid]
    · subst e
      simp [List.take_of_length_le hid]
  refine ⟨s0, by rw [hg]; exact get_set_same hs _, hid0, ?_, ?_⟩
  · rw [hg, List.length_set]
    exact hwf.1
  · intro s hsm
    rw [hg] at hsm
    rcases List.mem_or_eq_of_mem_set hsm with hin | heq
    · exact hwf.2 s hin
    · rw [heq, hid0]
      exact hid

theorem join_csv_ne_nil (ds : List CStr) (d : CStr) (hd : d ∈ ds) (hne : d ≠ []) :
    (join_csv ds).isEmpty = false := by
  induction ds with
  | nil => simp at hd
  | cons a rest ih =>
    rw [join_csv_cons]
    rcases List.mem_cons.mp hd with e | hin
    · subst e
      cases d with
      | nil => exact absurd rfl hne
      | cons x y => simp
    · have := ih hin
      cases hr : rest with
      | nil => simp [hr] at hin
      | cons b bs =>
        rw [hr] at this
        cases a with
        | nil =>
          simp only [List.isEmpty_cons, Bool.false_eq_true, if_false, List.nil_append]
          simp
        | cons x y => simp

/-- C5: for every `LOAD` that replies `LOAD_OK` for module id `X` (the id as the
handler parsed it) with declared size `n`, a `STATUS` issued next emits a modules
list (the comma-separated descriptors) containing a descriptor that begins
`X:LOADED:wasm=n:` with `n` in decimal. The table is assumed well formed (two
entries, ids that fit their arrays). -/
theorem status_after_load_ok (st : State) (env : load_env) (line : CStr) (senv : status_env)
    (hwf : table_wf st.g_mods)
    (h : replied (handle_load_cmd st env line).2 "LOAD_OK" = true) :
    ∃ p tail d rest, load_parse line = some p ∧
      handle_status_cmd (handle_load_cmd st env line).1 senv =
        "STATUS_OK modules=\"".toList
          ++ join_csv (status_descriptors senv (handle_load_cmd st env line).1.g_mods 0)
          ++ "\" low_stack=\"".toList ++ tail ∧
      d ∈ status_descriptors senv (handle_load_cmd st env line).1.g_mods 0 ∧
      d = p.module_id_buf ++ ":LOADED:wasm=".toList ++ fmt_u (to_u32 (atoi p.size_str))
            ++ ":".toList ++ rest := by
  obtain ⟨p, g1, i, w, s0, m, k, e, hp, _, hr, hs, _, hu, _, _, _, _, _, _, hg⟩ :=
    load_ok_inv st env line h
  obtain ⟨s0', hs', hid0, hwf1⟩ := load_resolve_id hr hwf (load_parse_id_length hp)
  rw [hs] at hs'
  cases hs'
  have hget := get_set_same hs
    { s0 with wasm_buf := some (env.incoming.take (to_u32 (atoi p.size_str))),
              wasm_size := to_u32 (atoi p.size_str),
              module := some m, inst := some k, exec_env := some e,
              state := mod_state_t.MOD_LOADED }
  rw [← hg] at hget
  have hwf2 : table_wf (handle_load_cmd st env line).1.g_mods := by
    refine ⟨?_, ?_⟩
    · rw [hg, List.length_set]
      exact hwf1.1
    · intro s hsm
      rw [hg] at hsm
      rcases List.mem_or_eq_of_mem_set hsm with hin | heq
      · exact hwf1.2 s hin
      · rw [heq]
        exact hwf1.2 s0 (mem_of_get hs)
  have hmem := status_descriptor_mem senv _ 0 i _ hget hu rfl
  have hlen : s0.module_id.length ≤ 31 := hwf1.2 s0 (mem_of_get hs)
  obtain ⟨tail, ht⟩ := handle_status_cmd_modules (handle_load_cmd st env line).1 senv hwf2
  have hone := status_one_eq
    { s0 with wasm_buf := some (env.incoming.take (to_u32 (atoi p.size_str))),
              wasm_size := to_u32 (atoi p.size_str),
              module := some m, inst := some k, exec_env := some e,
              state := mod_state_t.MOD_LOADED } (senv.stack_free (0 + i)) hlen
  have hd_ne : status_one
    { s0 with wasm_buf := some (env.incoming.take (to_u32 (atoi p.size_str))),
              wasm_size := to_u32 (atoi p.size_str),
              module := some m, inst := some k, exec_env := some e,
              state := mod_state_t.MOD_LOADED } (senv.stack_free (0 + i)) ≠ [] := by
    rw [hone]
    simp
  have hjoin := join_csv_ne_nil _ _ hmem hd_ne
  refine ⟨p, tail, _, "stack_free=".toList ++ fmt_u (senv.stack_free (0 + i)), hp, ?_, hmem, ?_⟩
  · rw [ht]
    unfold status_modules
    rw [hjoin]
    simp
  · rw [hone, hid0]
    simp [List.append_assoc]

/-- C5 at a concrete input: `m1` loaded into the empty table. -/
theorem status_after_load_ok_witness :
    table_wf State.init.g_mods ∧
    replied (handle_load_cmd State.init (load_env_ok payload_digits) load_line_m1).2
      "LOAD_OK" = true ∧
    ∃ p tail d rest, load_parse load_line_m1 = some p ∧
      handle_status_cmd (handle_load_cmd State.init (load_env_ok payload_digits)
          load_line_m1).1 status_env_plain =
        "STATUS_OK modules=\"".toList
          ++ join_csv (status_descriptors status_env_plain
               (handle_load_cmd State.init (load_env_ok payload_digits) load_line_m1).1.g_mods 0)
          ++ "\" low_stack=\"".toList ++ tail ∧
      d ∈ status_descriptors status_env_plain
            (handle_load_cmd State.init (load_env_ok payload_digits) load_line_m1).1.g_mods 0 ∧
      d = p.module_id_buf ++ ":LOADED:wasm=".toList ++ fmt_u (to_u32 (atoi p.size_str))
            ++ ":".toList ++ rest :=
  ⟨by decide, by decide,
   status_after_load_ok State.init (load_env_ok payload_digits) load_line_m1 status_env_plain
     (by decide) (by decide)⟩

/-! ## `LOAD`: a payload whose CRC does not match -/

/-- What a `LOAD` that writes `LOAD_ERR code=BAD_CRC` went through: the whole
payload arrived, its CRC differs from the declared one, and the table is left as
slot resolution built it (`s0` is the clean target slot). -/
theorem load_bad_crc_inv (st : State) (env : load_env) (line : CStr)
    (h : replied (handle_load_cmd st env line).2 "LOAD_ERR code=BAD_CRC" = true) :
    ∃ p g1 i w s0, load_parse line = some p ∧
      load_resolve st.g_mods p.module_id_buf p.victim_id_buf p.do_replace p.have_victim
        = Except.ok (g1, i, w) ∧
      g1[i]? = some s0 ∧ slot_is_clean s0 ∧ s0.used = true ∧
      to_u32 (atoi p.size_str) ≤ env.incoming.length ∧
      crc32_calc (env.incoming.take (to_u32 (atoi p.size_str))) ≠ strtoul p.crc_str 16 ∧
      (handle_load_cmd st env line).1.g_mods = g1 := by
  rcases handle_load_cmd_cases st env line with ⟨_, e⟩ | ⟨p, hp, hrest⟩
  · rw [e] at h
    simp [replied, starts_with, List.isPrefixOf] at h
  · rcases hrest with ⟨_, e⟩ | ⟨hz, hrest⟩
    · rw [e] at h
      simp [replied, starts_with, List.isPrefixOf] at h
    · rcases hrest with ⟨reply, hr, e⟩ | ⟨g1, i, w, hr, e⟩
      · rw [e] at h
        rcases load_resolve_error hr with ⟨e1, _⟩ | ⟨_, _, ⟨e1, _⟩ | ⟨e1, _⟩ | ⟨e1, _⟩⟩ <;>
          · rw [e1] at h
            simp [replied, starts_with, List.isPrefixOf] at h
      · obtain ⟨s0, hs, hc, hu⟩ := load_resolve_clean hr
        rw [e] at h
        rw [e]
        rcases load_payload_outcome { st with g_mods := g1 } env i (to_u32 (atoi p.size_str))
            (strtoul p.crc_str 16) p.crc_str p.victim_id_buf w s0 hs (Nat.pos_of_ne_zero hz) hc
          with ⟨_, _, _, m, k, x, _, _, _, _, ho⟩ | ⟨hg, hf⟩
        · rw [ho] at h
          cases w <;>
            simp [replied, starts_with, snprintf, load_ready_line, List.isPrefixOf] at h
        · rcases hf with ⟨_, ho⟩ | ⟨_, _, ho⟩ | ⟨_, hlen, hcrc, _⟩ | ⟨_, _, _, _, _, ho⟩ |
            ⟨_, _, _, _, _, _, ho⟩ | ⟨_, _, _, _, _, _, ho⟩
          · rw [ho] at h
            simp [replied, starts_with, snprintf, load_ready_line, List.isPrefixOf] at h
          · rw [ho] at h
            simp [replied, starts_with, snprintf, load_ready_line, List.isPrefixOf] at h
          · exact ⟨p, g1, i, w, s0, hp, hr, hs, hc, hu, hlen, hcrc, hg⟩
          · rw [ho] at h
            simp [replied, starts_with, snprintf, load_ready_line, List.isPrefixOf] at h
          · rw [ho] at h
            simp [replied, starts_with, snprintf, load_ready_line, List.isPrefixOf] at h
          · rw [ho] at h
            simp [replied, starts_with, snprintf, load_ready_line, List.isPrefixOf] at h

/-- C6 (as stated) fails: a `LOAD` answered `BAD_CRC` does not return the target
slot to its pre-`LOAD` value. For a new id the slot (index 0) was unused before and
is used, named `m1`, afterwards; for an id naming a LOADED module the slot was
LOADED with bytecode and an instance before and is EMPTY without them afterwards. -/
theorem load_bad_crc_does_not_restore_slot :
    (replied (handle_load_cmd State.init (load_env_ok payload_flipped) load_line_m1).2
        "LOAD_ERR code=BAD_CRC" = true ∧
      (slot_at State.init.g_mods 0).used = false ∧
      (slot_at (handle_load_cmd State.init (load_env_ok payload_flipped)
        load_line_m1).1.g_mods 0).used = true ∧
      slot_at (handle_load_cmd State.init (load_env_ok payload_flipped)
        load_line_m1).1.g_mods 0 ≠ slot_at State.init.g_mods 0) ∧
    (replied (handle_load_cmd state_m1_loaded (load_env_ok payload_flipped)
        load_line_m1).2 "LOAD_ERR code=BAD_CRC" = true ∧
      (slot_at state_m1_loaded.g_mods 0).state = mod_state_t.MOD_LOADED ∧
      (slot_at state_m1_loaded.g_mods 0).inst = some 2 ∧
      (slot_at (handle_load_cmd state_m1_loaded (load_env_ok payload_flipped)
        load_line_m1).1.g_mods 0).state
          = mod_state_t.MOD_EMPTY ∧
      slot_at (handle_load_cmd state_m1_loaded (load_env_ok payload_flipped)
        load_line_m1).1.g_mods 0
        ≠ slot_at state_m1_loaded.g_mods 0) := by
  decide

/-- C6 (amended): if a `LOAD` payload's CRC does not match the declared CRC (the
reply is `BAD_CRC`), no module is instantiated and the target slot ends EMPTY:
`used` set, `module_id` the id of the `LOAD`, state EMPTY, bytecode absent, size 0,
all three handles absent; every other slot is unchanged. This holds both when the
module id is new and when it names an already LOADED module. -/
theorem load_bad_crc_leaves_target_empty (st : State) (env : load_env) (line : CStr)
    (hwf : table_wf st.g_mods)
    (h : replied (handle_load_cmd st env line).2 "LOAD_ERR code=BAD_CRC" = true) :
    ∃ p g1 i w, load_parse line = some p ∧
      load_resolve st.g_mods p.module_id_buf p.victim_id_buf p.do_replace p.have_victim
        = Except.ok (g1, i, w) ∧
      crc32_calc (env.incoming.take (to_u32 (atoi p.size_str))) ≠ strtoul p.crc_str 16 ∧
      (slot_at (handle_load_cmd st env line).1.g_mods i).used = true ∧
      (slot_at (handle_load_cmd st env line).1.g_mods i).module_id = p.module_id_buf ∧
      (slot_at (handle_load_cmd st env line).1.g_mods i).state = mod_state_t.MOD_EMPTY ∧
      (slot_at (handle_load_cmd st env line).1.g_mods i).wasm_buf = none ∧
      (slot_at (handle_load_cmd st env line).1.g_mods i).wasm_size = 0 ∧
      (slot_at (handle_load_cmd st env line).1.g_mods i).module = none ∧
      (slot_at (handle_load_cmd st env line).1.g_mods i).inst = none ∧
      (slot_at (handle_load_cmd st env line).1.g_mods i).exec_env = none ∧
      ∀ j, j ≠ i → (handle_load_cmd st env line).1.g_mods[j]? = st.g_mods[j]? := by
  obtain ⟨p, g1, i, w, s0, hp, hr, hs, hc, hu, _, hcrc, hg⟩ := load_bad_crc_inv st env line h
  obtain ⟨s0', hs', hid0, _⟩ := load_resolve_id hr hwf (load_parse_id_length hp)
  rw [hs] at hs'
  cases hs'
  obtain ⟨sold, s0', _, hg1, _⟩ := load_resolve_ok hr
  obtain ⟨c1, c2, c3, c4, c5, c6, _, _⟩ := hc
  refine ⟨p, g1, i, w, hp, hr, hcrc, ?_⟩
  rw [hg, slot_at_of_get hs]
  refine ⟨hu, hid0, c1, c2, c3, c4, c5, c6, ?_⟩
  intro j hj
  rw [hg1]
  exact get_set_other _ (Ne.symm hj) _

/-- C6 (amended) at a concrete input: `m1` re-loaded over a LOADED `m1` with one
payload byte changed. -/
theorem load_bad_crc_leaves_target_empty_witness :
    table_wf state_m1_loaded.g_mods ∧
    replied (handle_load_cmd state_m1_loaded (load_env_ok payload_flipped)
        load_line_m1).2 "LOAD_ERR code=BAD_CRC" = true ∧
    ∃ p g1 i w, load_parse load_line_m1 = some p ∧
      load_resolve state_m1_loaded.g_mods
        p.module_id_buf p.victim_id_buf p.do_replace p.have_victim = Except.ok (g1, i, w) ∧
      crc32_calc ((load_env_ok payload_flipped).incoming.take (to_u32 (atoi p.size_str)))
        ≠ strtoul p.crc_str 16 ∧
      (slot_at (handle_load_cmd state_m1_loaded (load_env_ok payload_flipped)
        load_line_m1).1.g_mods i).used = true ∧
      (slot_at (handle_load_cmd state_m1_loaded (load_env_ok payload_flipped)
        load_line_m1).1.g_mods i).module_id = p.module_id_buf ∧
      (slot_at (handle_load_cmd state_m1_loaded (load_env_ok payload_flipped)
        load_line_m1).1.g_mods i).state
          = mod_state_t.MOD_EMPTY ∧
      (slot_at (handle_load_cmd state_m1_loaded (load_env_ok payload_flipped)
        load_line_m1).1.g_mods i).wasm_buf = none ∧
      (slot_at (handle_load_cmd state_m1_loaded (load_env_ok payload_flipped)
        load_line_m1).1.g_mods i).wasm_size = 0 ∧
      (slot_at (handle_load_cmd state_m1_loaded (load_env_ok payload_flipped)
        load_line_m1).1.g_mods i).module = none ∧
      (slot_at (handle_load_cmd state_m1_loaded (load_env_ok payload_flipped)
        load_line_m1).1.g_mods i).inst = none ∧
      (slot_at (handle_load_cmd state_m1_loaded (load_env_ok payload_flipped)
        load_line_m1).1.g_mods i).exec_env = none ∧
      ∀ j, j ≠ i →
        (handle_load_cmd state_m1_loaded (load_env_ok payload_flipped)
        load_line_m1).1.g_mods[j]?
        = state_m1_loaded.g_mods[j]? :=
  ⟨by decide, by decide,
   load_bad_crc_leaves_target_empty state_m1_loaded (load_env_ok payload_flipped)
     load_line_m1 (by decide) (by decide)⟩

theorem handle_load_cmd_payload (st : State) (env : load_env) (line : CStr) (p : load_params)
    (g1 : List module_slot_t) (i : Nat) (w : Bool)
    (hp : load_parse line = some p) (hz : to_u32 (atoi p.size_str) ≠ 0)
    (hr : load_resolve st.g_mods p.module_id_buf p.victim_id_buf p.do_replace p.have_victim
      = Except.ok (g1, i, w)) :
    handle_load_cmd st env line =
      load_payload { st with g_mods := g1 } env i (to_u32 (atoi p.size_str))
        (strtoul p.crc_str 16) p.crc_str p.victim_id_buf w := by
  simp [handle_load_cmd, hp, hz, hr]

theorem strncmp_eq_of_eq (a b : CStr) (n : Nat) (h : a = b) : strncmp_eq a b n = true := by
  subst h
  simp [strncmp_eq]

theorem eq_of_strncmp_eq {a b : CStr} (ha : a.length ≤ 31) (hb : b.length ≤ 31)
    (h : strncmp_eq a b 32 = true) : a = b := by
  have h' : a.take 32 = b.take 32 := by simpa [strncmp_eq] using h
  exact take_eq_of_short 32 (by omega) (by omega) h'

/-- Slot resolution keeps the ids of used slots distinct. -/
theorem load_resolve_unique {g : List module_slot_t} {id vid : CStr} {rep hv : Bool}
    {g1 : List module_slot_t} {i : Nat} {w : Bool}
    (h : load_resolve g id vid rep hv = Except.ok (g1, i, w))
    (hwf : table_wf g) (hid : id.length ≤ 31) (hu : ids_unique g) : ids_unique g1 := by
  obtain ⟨sold, s0, hs, hg, hcase⟩ := load_resolve_ok h
  obtain ⟨s0', hs0, hid0, _⟩ := load_resolve_id h hwf hid
  have hs0' : g1[i]? = some s0 := by rw [hg]; exact get_set_same hs _
  rw [hs0'] at hs0
  cases hs0
  -- no other used slot of `g` carries `id`
  have hother : ∀ j t, j ≠ i → g[j]? = some t → t.used = true → t.module_id ≠ id := by
    intro j t hj ht htu hte
    rcases hcase with ⟨hf, _, _, _⟩ | ⟨hf, _, _, _⟩ | ⟨hf, _, _, _, _, _, _⟩
    · obtain ⟨s', hs', hsu, hm⟩ := slot_find_some hf
      rw [hs] at hs'
      cases hs'
      have e := eq_of_strncmp_eq (hwf.2 sold (mem_of_get hs)) hid hm
      exact hj (hu j i t sold ht hs htu hsu (hte.trans e.symm))
    · exact slot_find_none.mp hf t (mem_of_get ht) ⟨htu, strncmp_eq_of_eq _ _ _ hte⟩
    · exact slot_find_none.mp hf t (mem_of_get ht) ⟨htu, strncmp_eq_of_eq _ _ _ hte⟩
  intro a b s t ha hb hsu htu hst
  rw [hg] at ha hb
  by_cases hai : a = i
  · by_cases hbi : b = i
    · rw [hai, hbi]
    · subst hai
      rw [get_set_same hs] at ha
      cases ha
      rw [get_set_other _ (Ne.symm hbi)] at hb
      exact absurd (hst.symm.trans hid0) (hother b t hbi hb htu)
  · by_cases hbi : b = i
    · subst hbi
      rw [get_set_same hs] at hb
      cases hb
      rw [get_set_other _ (Ne.symm hai)] at ha
      exact absurd (hst.trans hid0) (hother a s hai ha hsu)
    · rw [get_set_other _ (Ne.symm hai)] at ha
      rw [get_set_other _ (Ne.symm hbi)] at hb
      exact hu a b s t ha hb hsu htu hst

theorem status_descriptors_nil (env : status_env) (g : List module_slot_t) (b : Nat)
    (h : ∀ s ∈ g, s.used = false ∨ s.inst = none) : status_descriptors env g b = [] := by
  induction g generalizing b with
  | nil => rfl
  | cons a rest ih =>
    have ha := h a (List.mem_cons_self _ _)
    have hr := ih (b + 1) (fun s hs => h s (List.mem_cons_of_mem _ hs))
    simp only [status_descriptors]
    rcases ha with hu | hi
    · simp [hu, hr]
    · simp [hi, hr]

/-- C2: two payloads of the same length that differ in exactly one byte have
different `crc32_calc` values; hence a `LOAD` that declares the size and CRC of the
original payload, obtains a target slot and a buffer, and receives the payload with
that one byte changed replies `LOAD_ERR code=BAD_CRC`, and a following `STATUS`
reports no module under that id (no used, instantiated slot carries it), its modules
value being `none` when the table was empty before. -/
theorem one_byte_change_is_rejected :
    (∀ (pre suf : List Byte) (a b : Byte), a ≠ b →
      crc32_calc (pre ++ a :: suf) ≠ crc32_calc (pre ++ b :: suf)) ∧
    (∀ (st : State) (env : load_env) (line : CStr) (senv : status_env) (p : load_params)
      (g1 : List module_slot_t) (i : Nat) (w : Bool) (pre suf : List Byte) (a b : Byte),
      table_wf st.g_mods → ids_unique st.g_mods →
      load_parse line = some p →
      to_u32 (atoi p.size_str) = (pre ++ a :: suf).length →
      strtoul p.crc_str 16 = crc32_calc (pre ++ a :: suf) →
      load_resolve st.g_mods p.module_id_buf p.victim_id_buf p.do_replace p.have_victim
        = Except.ok (g1, i, w) →
      env.malloc_ok = true → env.incoming = pre ++ b :: suf → a ≠ b →
      replied (handle_load_cmd st env line).2 "LOAD_ERR code=BAD_CRC" = true ∧
      (∀ (j : Nat) (s : module_slot_t),
        (handle_load_cmd st env line).1.g_mods[j]? = some s → s.used = true →
        s.inst.isSome = true → s.module_id ≠ p.module_id_buf) ∧
      ((∀ s ∈ st.g_mods, s.used = false) →
        ∃ tail, handle_status_cmd (handle_load_cmd st env line).1 senv =
          "STATUS_OK modules=\"none\" low_stack=\"".toList ++ tail)) := by
  refine ⟨crc32_calc_one_byte, ?_⟩
  intro st env line senv p g1 i w pre suf a b hwf hu hp hsz hcrc hr hm hin hab
  have hz : to_u32 (atoi p.size_str) ≠ 0 := by
    rw [hsz]
    simp
  obtain ⟨s0, hs, hc, hused⟩ := load_resolve_clean hr
  obtain ⟨s0', hs', hid0, hwf1⟩ := load_resolve_id hr hwf (load_parse_id_length hp)
  rw [hs] at hs'
  cases hs'
  have hu1 := load_resolve_unique hr hwf (load_parse_id_length hp) hu
  have hlen : to_u32 (atoi p.size_str) ≤ env.incoming.length := by
    rw [hsz, hin]
    simp
  have htake : env.incoming.take (to_u32 (atoi p.size_str)) = pre ++ b :: suf := by
    rw [hsz, hin]
    apply List.take_of_length_le
    simp
  have hne : crc32_calc (env.incoming.take (to_u32 (atoi p.size_str)))
      ≠ strtoul p.crc_str 16 := by
    rw [htake, hcrc]
    exact fun e => crc32_calc_one_byte pre suf a b hab e.symm
  obtain ⟨r1, _⟩ := load_payload_received { st with g_mods := g1 } env i
    (to_u32 (atoi p.size_str)) (strtoul p.crc_str 16) p.crc_str p.victim_id_buf w s0 hs
    (Nat.pos_of_ne_zero hz) hm hlen
  obtain ⟨hg, ho⟩ := r1 hne
  rw [handle_load_cmd_payload st env line p g1 i w hp hz hr]
  have hg' : (load_payload { st with g_mods := g1 } env i (to_u32 (atoi p.size_str))
      (strtoul p.crc_str 16) p.crc_str p.victim_id_buf w).1.g_mods = g1 := by
    rw [hg]
    simp only
    rw [slot_cleanup_of_clean hc, set_get_self hs]
  refine ⟨?_, ?_, ?_⟩
  · rw [ho]
    simp [replied, starts_with, snprintf, load_ready_line, List.isPrefixOf]
  · intro j s hj hsu hsi hsid
    rw [hg'] at hj
    have hji : j = i := hu1 j i s s0 hj hs hsu hused (hsid.trans hid0.symm)
    subst hji
    rw [hs] at hj
    cases hj
    rw [hc.2.2.2.2.1] at hsi
    cases hsi
  · intro hempty
    have hwf2 : table_wf (load_payload { st with g_mods := g1 } env i
        (to_u32 (atoi p.size_str)) (strtoul p.crc_str 16) p.crc_str p.victim_id_buf
        w).1.g_mods := by
      rw [hg']
      exact hwf1
    obtain ⟨tail, ht⟩ := handle_status_cmd_modules _ senv hwf2
    refine ⟨tail, ?_⟩
    rw [ht]
    have hnil : status_descriptors senv (load_payload { st with g_mods := g1 } env i
        (to_u32 (atoi p.size_str)) (strtoul p.crc_str 16) p.crc_str p.victim_id_buf
        w).1.g_mods 0 = [] := by
      apply status_descriptors_nil
      intro s hsm
      rw [hg'] at hsm
      obtain ⟨sold, s0', _, hg1, _⟩ := load_resolve_ok hr
      rw [hg1] at hsm
      rcases List.mem_or_eq_of_mem_set hsm with hin' | heq
      · exact Or.inl (hempty s hin')
      · right
        rw [heq]
        have : (g1[i]?) = some s0' := by rw [hg1]; exact get_set_same (by assumption) _
        rw [hs] at this
        cases this
        exact hc.2.2.2.2.1
    simp [status_modules, hnil, join_csv]


theorem ids_unique_of_unused (g : List module_slot_t) (h : ∀ s ∈ g, s.used = false) :
    ids_unique g := by
  intro i j s t hs _ hu _ _
  rw [h s (mem_of_get hs)] at hu
  cases hu

/-- C2 at a concrete input: `123456789` declared, `123456780` received, on the
empty table. -/
theorem one_byte_change_is_rejected_witness :
    ((0x39 : Byte) ≠ 0x30 ∧
      crc32_calc ([0x31, 0x32, 0x33, 0x34, 0x35, 0x36, 0x37, 0x38] ++ 0x39 :: [])
        ≠ crc32_calc ([0x31, 0x32, 0x33, 0x34, 0x35, 0x36, 0x37, 0x38] ++ 0x30 :: [])) ∧
    (table_wf State.init.g_mods ∧ ids_unique State.init.g_mods ∧
      load_parse load_line_m1 = some load_params_m1 ∧
      to_u32 (atoi load_params_m1.size_str)
        = ([0x31, 0x32, 0x33, 0x34, 0x35, 0x36, 0x37, 0x38] ++ (0x39 : Byte) :: []).length ∧
      strtoul load_params_m1.crc_str 16
        = crc32_calc ([0x31, 0x32, 0x33, 0x34, 0x35, 0x36, 0x37, 0x38] ++ 0x39 :: []) ∧
      load_resolve State.init.g_mods load_params_m1.module_id_buf
        load_params_m1.victim_id_buf load_params_m1.do_replace load_params_m1.have_victim
        = Except.ok (State.init.g_mods.set 0 (slot_fresh "m1".toList), 0, false) ∧
      (load_env_ok payload_flipped).malloc_ok = true ∧
      (load_env_ok payload_flipped).incoming
        = [0x31, 0x32, 0x33, 0x34, 0x35, 0x36, 0x37, 0x38] ++ 0x30 :: []) ∧
    (replied (handle_load_cmd State.init (load_env_ok payload_flipped) load_line_m1).2
        "LOAD_ERR code=BAD_CRC" = true ∧
      (∀ (j : Nat) (s : module_slot_t),
        (handle_load_cmd State.init (load_env_ok payload_flipped)
          load_line_m1).1.g_mods[j]? = some s → s.used = true →
        s.inst.isSome = true → s.module_id ≠ load_params_m1.module_id_buf) ∧
      (∀ s ∈ State.init.g_mods, s.used = false) ∧
      ∃ tail, handle_status_cmd (handle_load_cmd State.init (load_env_ok payload_flipped)
          load_line_m1).1 status_env_plain =
        "STATUS_OK modules=\"none\" low_stack=\"".toList ++ tail) :=
  ⟨⟨by decide, one_byte_change_is_rejected.1 _ _ _ _ (by decide)⟩,
   ⟨by decide, ids_unique_of_unused _ (by decide), by decide, by decide, by decide, rfl,
    rfl, rfl⟩,
   (fun h => ⟨h.1, h.2.1, by decide, h.2.2 (by decide)⟩)
     (one_byte_change_is_rejected.2 State.init (load_env_ok payload_flipped) load_line_m1
       status_env_plain load_params_m1 (State.init.g_mods.set 0 (slot_fresh "m1".toList)) 0
       false [0x31, 0x32, 0x33, 0x34, 0x35, 0x36, 0x37, 0x38] [] 0x39 0x30
       (by decide) (ids_unique_of_unused _ (by decide)) (by decide) (by decide) (by decide)
       rfl rfl rfl (by decide))⟩

/-! ## `LOAD` keeps the table well formed and the ids distinct -/

theorem table_wf_set {g : List module_slot_t} {i : Nat} {x : module_slot_t}
    (h : table_wf g) (hx : x.module_id.length ≤ 31) : table_wf (g.set i x) := by
  refine ⟨by rw [List.length_set]; exact h.1, ?_⟩
  intro s hs
  rcases List.mem_or_eq_of_mem_set hs with hin | heq
  · exact h.2 s hin
  · rw [heq]
    exact hx

theorem ids_unique_set {g : List module_slot_t} {i : Nat} {s0 x : module_slot_t}
    (h : ids_unique g) (hs : g[i]? = some s0) (hid : x.module_id = s0.module_id)
    (hu : x.used = s0.used) : ids_unique (g.set i x) := by
  intro a b s t ha hb hsu htu hst
  by_cases hai : a = i
  · by_cases hbi : b = i
    · rw [hai, hbi]
    · subst hai
      rw [get_set_same hs] at ha
      cases ha
      rw [get_set_other _ (Ne.symm hbi)] at hb
      exact h a b s0 t hs hb (by rw [← hu]; exact hsu) htu (by rw [← hid]; exact hst)
  · by_cases hbi : b = i
    · subst hbi
      rw [get_set_same hs] at hb
      cases hb
      rw [get_set_other _ (Ne.symm hai)] at ha
      exact h a b s s0 ha hs hsu (by rw [← hu]; exact htu) (by rw [← hid]; exact hst)
    · rw [get_set_other _ (Ne.symm hai)] at ha
      rw [get_set_other _ (Ne.symm hbi)] at hb
      exact h a b s t ha hb hsu htu hst

/-- The table `handle_load_cmd` leaves: untouched, or the resolved table, or the
resolved table with the target slot `s0` replaced by a slot of the same id and
`used` flag. -/
theorem handle_load_cmd_table (st : State) (env : load_env) (line : CStr) :
    (handle_load_cmd st env line).1.g_mods = st.g_mods ∨
    ∃ p g1 i w s0 x, load_parse line = some p ∧
      load_resolve st.g_mods p.module_id_buf p.victim_id_buf p.do_replace p.have_victim
        = Except.ok (g1, i, w) ∧
      g1[i]? = some s0 ∧ x.module_id = s0.module_id ∧ x.used = s0.used ∧
      (handle_load_cmd st env line).1.g_mods = g1.set i x := by
  rcases handle_load_cmd_cases st env line with ⟨_, e⟩ | ⟨p, hp, hrest⟩
  · left
    rw [e]
  · rcases hrest with ⟨_, e⟩ | ⟨hz, hrest⟩
    · left
      rw [e]
    · rcases hrest with ⟨reply, hr, e⟩ | ⟨g1, i, w, hr, e⟩
      · left
        rw [e]
      · right
        obtain ⟨s0, hs, hc, hu⟩ := load_resolve_clean hr
        rw [e]
        rcases load_payload_outcome { st with g_mods := g1 } env i (to_u32 (atoi p.size_str))
            (strtoul p.crc_str 16) p.crc_str p.victim_id_buf w s0 hs (Nat.pos_of_ne_zero hz) hc
          with ⟨_, _, _, m, k, x, _, _, _, hg, _⟩ | ⟨hg, _⟩
        · exact ⟨p, g1, i, w, s0,
            { s0 with wasm_buf := some (env.incoming.take (to_u32 (atoi p.size_str))),
                      wasm_size := to_u32 (atoi p.size_str),
                      module := some m, inst := some k, exec_env := some x,
                      state := mod_state_t.MOD_LOADED },
            hp, hr, hs, rfl, rfl, hg⟩
        · refine ⟨p, g1, i, w, s0, s0, hp, hr, hs, rfl, rfl, ?_⟩
          rw [hg]
          exact (set_get_self hs).symm

/-- `LOAD` preserves the representation invariant of the table. -/
theorem handle_load_cmd_wf (st : State) (env : load_env) (line : CStr)
    (hwf : table_wf st.g_mods) : table_wf (handle_load_cmd st env line).1.g_mods := by
  rcases handle_load_cmd_table st env line with e | ⟨p, g1, i, w, s0, x, hp, hr, hs, hid, _, e⟩
  · rw [e]
    exact hwf
  · obtain ⟨s0', hs', _, hwf1⟩ := load_resolve_id hr hwf (load_parse_id_length hp)
    rw [e]
    apply table_wf_set hwf1
    rw [hid]
    exact hwf1.2 s0 (mem_of_get hs)

/-- `LOAD` never gives two used slots the same id. -/
theorem handle_load_cmd_unique (st : State) (env : load_env) (line : CStr)
    (hwf : table_wf st.g_mods) (hu : ids_unique st.g_mods) :
    ids_unique (handle_load_cmd st env line).1.g_mods := by
  rcases handle_load_cmd_table st env line with e | ⟨p, g1, i, w, s0, x, hp, hr, hs, hid, hx, e⟩
  · rw [e]
    exact hu
  · rw [e]
    exact ids_unique_set (load_resolve_unique hr hwf (load_parse_id_length hp) hu) hs hid hx

/-! ## `LOAD` into a full table -/

/-- C9: a `LOAD` (with its three parameters and a non-zero size) whose module id
names an existing slot that is busy, and whose replace flag is not set, replies
`LOAD_ERR code=BUSY` and leaves the whole state unchanged (that slot with its state,
handles, bytecode, pending request and flags, and the decoder); and whenever a `LOAD`
changes a used, busy slot at all, `replace=1` was given. -/
theorem load_busy_needs_replace :
    (∀ (st : State) (env : load_env) (line : CStr) (p : load_params) (i : Nat),
      load_parse line = some p → to_u32 (atoi p.size_str) ≠ 0 →
      slot_find st.g_mods p.module_id_buf = some i → (slot_at st.g_mods i).busy = true →
      p.do_replace = false →
      handle_load_cmd st env line =
        (st, ["LOAD_ERR code=BUSY msg=\"module running\"\n".toList])) ∧
    (∀ (st : State) (env : load_env) (line : CStr) (j : Nat) (s : module_slot_t),
      st.g_mods[j]? = some s → s.used = true → s.busy = true →
      (handle_load_cmd st env line).1.g_mods[j]? ≠ some s →
      ∃ p, load_parse line = some p ∧ p.do_replace = true) := by
  refine ⟨?_, ?_⟩
  · intro st env line p i hp hz hf hb hr
    simp [handle_load_cmd, hp, hz, load_resolve, hf, hb, hr]
  · intro st env line j s hj hu hb hne
    rcases handle_load_cmd_table st env line with e |
      ⟨p, g1, i, w, s0, x, hp, hr, hs, _, _, e⟩
    · rw [e] at hne
      exact absurd hj hne
    · refine ⟨p, hp, ?_⟩
      obtain ⟨sold, s0', hsold, hg1, hcase⟩ := load_resolve_ok hr
      have hji : j = i := by
        by_contra hji
        apply hne
        rw [e, get_set_other _ (Ne.symm hji), hg1, get_set_other _ (Ne.symm hji)]
        exact hj
      subst hji
      rw [hj] at hsold
      cases hsold
      rcases hcase with ⟨_, hrep, _, _⟩ | ⟨_, hunused, _, _⟩ | ⟨_, _, hrep, _⟩
      · exact hrep hb
      · rw [hu] at hunused
        cases hunused
      · exact hrep

/-- C9 at concrete inputs: `m1` is LOADED and busy; it is re-loaded without and with
`replace=1`. -/
theorem load_busy_needs_replace_witness :
    (load_parse load_line_m1 = some load_params_m1 ∧
      to_u32 (atoi load_params_m1.size_str) ≠ 0 ∧
      slot_find state_m1_busy.g_mods load_params_m1.module_id_buf = some 0 ∧
      (slot_at state_m1_busy.g_mods 0).busy = true ∧ load_params_m1.do_replace = false ∧
      handle_load_cmd state_m1_busy (load_env_ok payload_digits) load_line_m1 =
        (state_m1_busy, ["LOAD_ERR code=BUSY msg=\"module running\"\n".toList])) ∧
    (state_m1_busy.g_mods[0]? = some (slot_at state_m1_busy.g_mods 0) ∧
      (slot_at state_m1_busy.g_mods 0).used = true ∧
      (handle_load_cmd state_m1_busy (load_env_ok payload_digits)
        (load_line_m1 ++ " replace=1".toList)).1.g_mods[0]?
        ≠ some (slot_at state_m1_busy.g_mods 0) ∧
      ∃ p, load_parse (load_line_m1 ++ " replace=1".toList) = some p ∧
        p.do_replace = true) :=
  ⟨⟨by decide, by decide, by decide, by decide, rfl,
    load_busy_needs_replace.1 state_m1_busy (load_env_ok payload_digits) load_line_m1
      load_params_m1 0 (by decide) (by decide) (by decide) (by decide) rfl⟩,
   ⟨by decide, by decide, by decide,
    load_busy_needs_replace.2 state_m1_busy (load_env_ok payload_digits)
      (load_line_m1 ++ " replace=1".toList) 0 (slot_at state_m1_busy.g_mods 0)
      (by decide) (by decide) (by decide) (by decide)⟩⟩

/-! ## `START`: the order of the rejections -/

/-- C10: `handle_start_cmd` (given a `module_id` parameter) rejects in this order
and leaves the whole state, slot table and pending requests included, unchanged on
every rejection: the reply is `RESULT status=NO_MODULE` iff no used slot has the
given id or the slot has no instance; otherwise it is `RESULT status=NO_MEM` iff the
runtime reports free pool bytes strictly below 4096 when the slot has a cached exec
env, or strictly below 16384 when it has none; otherwise it is `RESULT status=BUSY`
iff the slot is busy. -/
theorem start_rejection_order (st : State) (env : start_env) (line p_mod : CStr)
    (hp : find_param line "module_id".toList = some p_mod) :
    ((handle_start_cmd st env line).2 = ["RESULT status=NO_MODULE\n".toList] ↔
      (slot_find st.g_mods (copy_param_value p_mod 32) = none ∨
       ∃ i, slot_find st.g_mods (copy_param_value p_mod 32) = some i ∧
         (slot_at st.g_mods i).inst = none)) ∧
    (∀ i, slot_find st.g_mods (copy_param_value p_mod 32) = some i →
      (slot_at st.g_mods i).inst ≠ none →
      (replied (handle_start_cmd st env line).2 "RESULT status=NO_MEM" = true ↔
        ∃ mi, env.mem_info = some mi ∧
          mi.total_free_size <
            (if (slot_at st.g_mods i).exec_env.isSome then 4096 else 16384)) ∧
      ((¬ ∃ mi, env.mem_info = some mi ∧
          mi.total_free_size <
            (if (slot_at st.g_mods i).exec_env.isSome then 4096 else 16384)) →
        ((handle_start_cmd st env line).2 = ["RESULT status=BUSY\n".toList] ↔
          (slot_at st.g_mods i).busy = true))) ∧
    (replied (handle_start_cmd st env line).2 "START_OK" = false →
      (handle_start_cmd st env line).1 = st) := by
  have hg1 : START_GUARD_BYTES_HAVE_EXEC_ENV = 4096 := by decide
  have hg2 : START_GUARD_BYTES_NEED_EXEC_ENV = 16384 := by decide
  unfold handle_start_cmd
  simp only [hp]
  cases hf : slot_find st.g_mods (copy_param_value p_mod 32) with
  | none => simp [replied, starts_with, List.isPrefixOf]
  | some i =>
    simp only
    cases hi : (slot_at st.g_mods i).inst with
    | none => simp [replied, starts_with, List.isPrefixOf, hi]
    | some k =>
      simp only [Option.isNone_some, Bool.false_eq_true, if_false, hg1, hg2]
      cases hm : env.mem_info with
      | none =>
        simp only
        by_cases hb : (slot_at st.g_mods i).busy = true
        · simp [replied, starts_with, List.isPrefixOf, hb, hi]
        · simp only [hb, Bool.false_eq_true, if_false]
          split
          · split <;> simp [replied, starts_with, List.isPrefixOf, hb, hi]
          · simp [replied, starts_with, List.isPrefixOf, hb, hi]
      | some mi =>
        simp only
        by_cases hlow : mi.total_free_size <
            (if (slot_at st.g_mods i).exec_env.isSome then 4096 else 16384)
        · simp only [hlow, if_true]
          refine ⟨?_, ?_, ?_⟩
          · simp [snprintf, hi]
          · intro j hj _
            simp only [Option.some.injEq] at hj
            subst hj
            refine ⟨?_, fun hc => absurd ⟨mi, rfl, hlow⟩ hc⟩
            simp [replied, starts_with, snprintf, List.isPrefixOf, hlow]
          · intro _
            trivial
        · simp only [hlow, if_false]
          have hle := Nat.not_lt.mp hlow
          by_cases hb : (slot_at st.g_mods i).busy = true
          · simp [replied, starts_with, List.isPrefixOf, hb, hi, hle]
          · simp only [hb, Bool.false_eq_true, if_false]
            split
            · split <;> simp [replied, starts_with, List.isPrefixOf, hb, hi, hle]
            · simp [replied, starts_with, List.isPrefixOf, hb, hi, hle]


/-- C10 at concrete inputs: `START module_id=m1` on the table with `m1` LOADED (exec
env cached) with 4095 and with 4096 free bytes, on the table where `m1` is busy, and
on the empty table. -/
theorem start_rejection_order_witness :
    find_param "module_id=m1".toList "module_id".toList = some "m1".toList ∧
    slot_find state_m1_loaded.g_mods (copy_param_value "m1".toList 32) = some 0 ∧
    (slot_at state_m1_loaded.g_mods 0).inst ≠ none ∧
    ((handle_start_cmd State.init start_env_ok "module_id=m1".toList).2
        = ["RESULT status=NO_MODULE\n".toList] ↔
      (slot_find State.init.g_mods (copy_param_value "m1".toList 32) = none ∨
       ∃ i, slot_find State.init.g_mods (copy_param_value "m1".toList 32) = some i ∧
         (slot_at State.init.g_mods i).inst = none)) ∧
    (replied (handle_start_cmd state_m1_loaded (start_env_free 4095)
        "module_id=m1".toList).2 "RESULT status=NO_MEM" = true ↔
      ∃ mi, (start_env_free 4095).mem_info = some mi ∧
        mi.total_free_size <
          (if (slot_at state_m1_loaded.g_mods 0).exec_env.isSome then 4096 else 16384)) ∧
    (replied (handle_start_cmd state_m1_loaded (start_env_free 4096)
        "module_id=m1".toList).2 "RESULT status=NO_MEM" = true ↔
      ∃ mi, (start_env_free 4096).mem_info = some mi ∧
        mi.total_free_size <
          (if (slot_at state_m1_loaded.g_mods 0).exec_env.isSome then 4096 else 16384)) ∧
    replied (handle_start_cmd state_m1_loaded (start_env_free 4095)
        "module_id=m1".toList).2 "RESULT status=NO_MEM" = true ∧
    replied (handle_start_cmd state_m1_loaded (start_env_free 4096)
        "module_id=m1".toList).2 "RESULT status=NO_MEM" = false ∧
    ((handle_start_cmd state_m1_busy start_env_ok "module_id=m1".toList).2
        = ["RESULT status=BUSY\n".toList] ↔
      (slot_at state_m1_busy.g_mods 0).busy = true) ∧
    (slot_at state_m1_busy.g_mods 0).busy = true ∧
    (handle_start_cmd state_m1_busy start_env_ok "module_id=m1".toList).1 = state_m1_busy :=
  ⟨by decide, by decide, by decide,
   (start_rejection_order State.init start_env_ok "module_id=m1".toList "m1".toList
     (by decide)).1,
   ((start_rejection_order state_m1_loaded (start_env_free 4095) "module_id=m1".toList
     "m1".toList (by decide)).2.1 0 (by decide) (by decide)).1,
   ((start_rejection_order state_m1_loaded (start_env_free 4096) "module_id=m1".toList
     "m1".toList (by decide)).2.1 0 (by decide) (by decide)).1,
   by decide, by decide,
   ((start_rejection_order state_m1_busy start_env_ok "module_id=m1".toList
     "m1".toList (by decide)).2.1 0 (by decide) (by decide)).2
       (by
         intro h
         obtain ⟨mi, hmi, hlt⟩ := h
         have e : mi = { total_size := 200000, total_free_size := 100000,
                         highmark_size := 0 } := by
           simp [start_env_ok] at hmi
           exact hmi.symm
         subst e
         revert hlt
         decide),
   by decide,
   (start_rejection_order state_m1_busy start_env_ok "module_id=m1".toList
     "m1".toList (by decide)).2.2 (by decide)⟩

/-! ## A running job replaced by `LOAD ... replace=1` -/

/-- C3 (the code loses a RESULT): `m1` is loaded and started (`START_OK`), its worker
enters the call (`busy` set, state RUNNING), and `m1` is then re-loaded with
`replace=1`. The handler aborts the worker and clears `busy` without writing any
`RESULT` line: the whole run writes `START_OK` once and no line beginning `RESULT`,
and ends with the slot not busy, although the recreated worker and the stop timer
were given the chance to run. -/
theorem reload_while_running_writes_no_result :
    (slot_at (run State.init (events_reload_while_running.take 6)).1.g_mods 0).busy = true ∧
    (run State.init (events_reload_while_running.take 6)).2 =
      ["LOAD_READY module_id=m1 size=9 crc32=cbf43926\n".toList, "LOAD_OK\n".toList,
       "START_OK\n".toList] ∧
    (run State.init events_reload_while_running).2 =
      ["LOAD_READY module_id=m1 size=9 crc32=cbf43926\n".toList, "LOAD_OK\n".toList,
       "START_OK\n".toList,
       "LOAD_READY module_id=m1 size=9 crc32=cbf43926\n".toList, "LOAD_OK\n".toList] ∧
    replied (run State.init events_reload_while_running).2 "RESULT" = false ∧
    (slot_at (run State.init events_reload_while_running).1.g_mods 0).busy = false := by
  decide

/-! ## The table invariants hold in every reachable state -/

/-- Rewriting one slot without touching `used` and `module_id` keeps the table well
formed and its ids distinct. -/
theorem slot_upd_inv (g : List module_slot_t) (i : Nat) (f : module_slot_t → module_slot_t)
    (hf : ∀ s, (f s).used = s.used ∧ (f s).module_id = s.module_id)
    (h : table_wf g ∧ ids_unique g) :
    table_wf (slot_upd g i f) ∧ ids_unique (slot_upd g i f) := by
  unfold slot_upd
  cases hs : g[i]? with
  | none => exact h
  | some s =>
    simp only
    refine ⟨table_wf_set h.1 ?_, ids_unique_set h.2 hs (hf s).2 (hf s).1⟩
    rw [(hf s).2]
    exact h.1.2 s (mem_of_get hs)

theorem set_inv (g : List module_slot_t) (i : Nat) (s x : module_slot_t)
    (hs : g[i]? = some s) (hu : x.used = s.used) (hid : x.module_id = s.module_id)
    (h : table_wf g ∧ ids_unique g) :
    table_wf (g.set i x) ∧ ids_unique (g.set i x) := by
  refine ⟨table_wf_set h.1 ?_, ids_unique_set h.2 hs hid hu⟩
  rw [hid]
  exact h.1.2 s (mem_of_get hs)

theorem serial_cb_byte_inv (st : State) (c : Byte)
    (h : table_wf st.g_mods ∧ ids_unique st.g_mods) :
    table_wf (serial_cb_byte st c).g_mods ∧ ids_unique (serial_cb_byte st c).g_mods := by
  unfold serial_cb_byte
  cases st.g_rx_state with
  | RX_STATE_LINE =>
    simp only
    split
    · exact h
    · split <;> exact h
  | RX_STATE_BINARY =>
    simp only
    cases st.g_bin_buf with
    | none => exact h
    | some i =>
      simp only
      have hb : table_wf (bin_store st.g_mods i st.g_bin_received c) ∧
          ids_unique (bin_store st.g_mods i st.g_bin_received c) := by
        unfold bin_store
        apply slot_upd_inv _ _ _ _ h
        intro s
        cases s.wasm_buf <;> exact ⟨rfl, rfl⟩
      split
      · split <;> exact hb
      · exact h

theorem serial_cb_inv (bytes : List Byte) (st : State)
    (h : table_wf st.g_mods ∧ ids_unique st.g_mods) :
    table_wf (serial_cb st bytes).g_mods ∧ ids_unique (serial_cb st bytes).g_mods := by
  induction bytes generalizing st with
  | nil => exact h
  | cons c rest ih => exact ih (serial_cb_byte st c) (serial_cb_byte_inv st c h)

theorem handle_start_cmd_inv (st : State) (env : start_env) (line : CStr)
    (h : table_wf st.g_mods ∧ ids_unique st.g_mods) :
    table_wf (handle_start_cmd st env line).1.g_mods ∧
    ids_unique (handle_start_cmd st env line).1.g_mods := by
  unfold handle_start_cmd
  split
  · exact h
  · simp only
    split
    · exact h
    · split
      · exact h
      · split
        · exact h
        · split
          · exact h
          · split
            · split <;> exact h
            · exact slot_upd_inv _ _ _ (fun s => ⟨rfl, rfl⟩) h

theorem handle_stop_cmd_inv (st : State) (line : CStr)
    (h : table_wf st.g_mods ∧ ids_unique st.g_mods) :
    table_wf (handle_stop_cmd st line).1.g_mods ∧
    ids_unique (handle_stop_cmd st line).1.g_mods := by
  unfold handle_stop_cmd
  split
  · exact h
  · simp only
    split
    · exact h
    · split
      · exact h
      · exact slot_upd_inv _ _ _ (fun s => ⟨rfl, rfl⟩) h

theorem handle_command_line_inv (st : State) (env : cmd_env) (line : CStr)
    (h : table_wf st.g_mods ∧ ids_unique st.g_mods) :
    table_wf (handle_command_line st env line).1.g_mods ∧
    ids_unique (handle_command_line st env line).1.g_mods := by
  unfold handle_command_line
  dsimp only
  generalize (if line.getLast? = some '\n' ∨ line.getLast? = some '\r' then line.dropLast
    else line) = line1
  split
  · exact h
  · split
    · exact ⟨handle_load_cmd_wf _ _ _ h.1, handle_load_cmd_unique _ _ _ h.1 h.2⟩
    · split
      · exact handle_start_cmd_inv _ _ _ h
      · split
        · exact handle_stop_cmd_inv _ _ h
        · split <;> exact h

theorem worker_dispatch_keeps_id (s : module_slot_t) (env : worker_env) :
    (worker_dispatch s env).1.used = s.used ∧
    (worker_dispatch s env).1.module_id = s.module_id := by
  unfold worker_dispatch
  cases h1 : s.inst.isNone with
  | true => simp
  | false =>
    cases h2 : env.lookup with
    | none => simp
    | some rc =>
      cases h3 : s.exec_env with
      | none => cases h4 : env.exec_env_result <;> simp
      | some e => simp

theorem module_worker_keeps_id (s : module_slot_t) (env : worker_env) :
    (module_worker s env).1.used = s.used ∧
    (module_worker s env).1.module_id = s.module_id := by
  unfold module_worker
  split
  · exact ⟨rfl, rfl⟩
  · exact ⟨rfl, rfl⟩
  · split <;> exact ⟨rfl, rfl⟩
  · split
    · exact ⟨rfl, rfl⟩
    · exact worker_dispatch_keeps_id _ env
  · exact ⟨rfl, rfl⟩

theorem stop_dwork_handler_keeps_id (s : module_slot_t) (env : stop_env) :
    (stop_dwork_handler s env).1.used = s.used ∧
    (stop_dwork_handler s env).1.module_id = s.module_id := by
  unfold stop_dwork_handler
  split
  · exact ⟨rfl, rfl⟩
  · simp only [slot_ensure_worker, slot_abort_worker]
    cases env.instantiate_result with
    | none => exact ⟨rfl, rfl⟩
    | some k =>
      cases env.exec_env_result with
      | none => exact ⟨rfl, rfl⟩
      | some e => exact ⟨rfl, rfl⟩

theorem step_inv (st : State) (e : Event)
    (h : table_wf st.g_mods ∧ ids_unique st.g_mods) :
    table_wf (step st e).1.g_mods ∧ ids_unique (step st e).1.g_mods := by
  cases e with
  | rx bytes => exact serial_cb_inv bytes st h
  | command env =>
    simp only [step]
    split
    · exact h
    · split
      · exact h
      · exact handle_command_line_inv _ _ _ h
  | worker i env =>
    simp only [step]
    split
    · rename_i s hs
      obtain ⟨hu, hid⟩ := module_worker_keeps_id s env
      exact set_inv _ _ _ _ hs hu hid h
    · exact h
  | timer i env =>
    simp only [step]
    split
    · rename_i s hs
      split
      · obtain ⟨hu, hid⟩ := stop_dwork_handler_keeps_id { s with stop_dwork := false } env
        exact set_inv _ _ _ _ hs hu hid h
      · exact h
    · exact h

/-- Every state reached from boot by any sequence of ISR, command, worker and timer
steps has a well-formed table in which no two used slots hold the same id. -/
theorem reachable_table_inv (events : List Event) (st : State)
    (h : table_wf st.g_mods ∧ ids_unique st.g_mods) :
    table_wf (run st events).1.g_mods ∧ ids_unique (run st events).1.g_mods := by
  induction events generalizing st with
  | nil => exact h
  | cons e es ih => exact ih (step st e).1 (step_inv st e h)

theorem boot_table_inv : table_wf State.init.g_mods ∧ ids_unique State.init.g_mods :=
  ⟨by decide, ids_unique_of_unused _ (by decide)⟩

/-! ## `START`: argument parsing and the default entry point -/

theorem digit_value_digit_char (d : Nat) (h : d < 10) :
    digit_value (digit_char d) = some d := by
  interval_cases d <;> decide

theorem digit_char_plain (d : Nat) (h : d < 10) :
    isspace (digit_char d) = false ∧ digit_char d ≠ '-' ∧ digit_char d ≠ '+' ∧
    digit_char d ≠ ',' ∧ digit_char d ≠ '=' ∧ digit_char d ≠ '"' := by
  interval_cases d <;> decide

theorem accum_digits_numeral (ds : List Nat) (h : ∀ d ∈ ds, d < 10) (acc : Nat) :
    accum_digits 10 (numeral_text ds) acc = ds.foldl (fun a d => a * 10 + d) acc := by
  induction ds generalizing acc with
  | nil => rfl
  | cons d rest ih =>
    have hd := h d (List.mem_cons_self _ _)
    simp only [numeral_text, List.map_cons, accum_digits, digit_value_digit_char d hd, hd,
      if_true, List.foldl_cons]
    exact ih (fun x hx => h x (List.mem_cons_of_mem _ hx)) _

theorem skip_0x_ten (s : CStr) : skip_0x 10 s = s := by
  unfold skip_0x
  split <;> simp

theorem atoi_numeral (ds : List Nat) (hne : ds ≠ []) (h : ∀ d ∈ ds, d < 10)
    (hv : numeral_value ds < 2 ^ 31) : atoi (numeral_text ds) = (numeral_value ds : Int) := by
  cases ds with
  | nil => exact absurd rfl hne
  | cons d rest =>
    have hd := h d (List.mem_cons_self _ _)
    obtain ⟨h1, h2, h3, -, -, -⟩ := digit_char_plain d hd
    have ha := accum_digits_numeral (d :: rest) h 0
    simp only [numeral_text, List.map_cons] at ha
    have hv2 : ¬ numeral_value (d :: rest) ≥ 2 ^ 31 := Nat.not_le.mpr hv
    simp only [atoi, strtol, numeral_text, List.map_cons, List.dropWhile_cons, h1,
      Bool.false_eq_true, if_false, List.head?_cons, skip_0x_ten]
    simp [h2, h3, ha, numeral_value] at hv2 ⊢
    omega

theorem to_u32_nat (v : Nat) (h : v < 2 ^ 32) : to_u32 (v : Int) = v := by
  unfold to_u32
  have : ((v : Int) % (2 ^ 32 : Int)) = (v : Int) := by
    apply Int.emod_eq_of_lt <;> omega
  rw [this]
  simp

theorem after_char_append (c : Char) (name v : CStr) (h : ∀ x ∈ name, x ≠ c) :
    after_char c (name ++ c :: v) = some v := by
  induction name with
  | nil => simp [after_char]
  | cons x rest ih =>
    have hx := h x (List.mem_cons_self _ _)
    simp only [List.cons_append, after_char, hx, if_false]
    exact ih (fun y hy => h y (List.mem_cons_of_mem _ hy))

theorem takeWhile_append_stop (c : Char) (body rest : CStr) (h : ∀ x ∈ body, x ≠ c) :
    (body ++ c :: rest).takeWhile (fun x => x != c) = body := by
  induction body with
  | nil => simp [List.takeWhile]
  | cons x xs ih =>
    have hx := h x (List.mem_cons_self _ _)
    simp only [List.cons_append, List.takeWhile_cons, bne_iff_ne, ne_eq, hx, not_false_eq_true,
      if_true, decide_True]
    rw [ih (fun y hy => h y (List.mem_cons_of_mem _ hy))]

theorem strtok_list_run (delim : Char) (t rest cur : CStr) (h : ∀ x ∈ t, x ≠ delim) :
    strtok_list delim (t ++ rest) cur = strtok_list delim rest (cur ++ t) := by
  induction t generalizing cur with
  | nil => simp
  | cons x xs ih =>
    have hx := h x (List.mem_cons_self _ _)
    simp only [List.cons_append, strtok_list, hx, if_false, List.append_eq]
    rw [ih (cur ++ [x]) (fun y hy => h y (List.mem_cons_of_mem _ hy))]
    simp

theorem strtok_list_join (toks : List CStr)
    (h : ∀ t ∈ toks, t ≠ [] ∧ ∀ x ∈ t, x ≠ ',') :
    strtok_list ',' (join_csv toks) [] = toks := by
  induction toks with
  | nil => rfl
  | cons t rest ih =>
    obtain ⟨hne, hc⟩ := h t (List.mem_cons_self _ _)
    have hrest := ih (fun u hu => h u (List.mem_cons_of_mem _ hu))
    rw [join_csv_cons]
    cases rest with
    | nil =>
      have := strtok_list_run ',' t [] [] hc
      simp only [List.append_nil, List.nil_append] at this
      simp only [List.isEmpty_nil, if_true, List.append_nil, this, strtok_list]
      cases t with
      | nil => exact absurd rfl hne
      | cons a b => simp
    | cons u us =>
      simp only [List.isEmpty_cons, Bool.false_eq_true, if_false]
      rw [strtok_list_run ',' t _ [] hc]
      cases t with
      | nil => exact absurd rfl hne
      | cons a b =>
        simp only [List.nil_append, String.toList, List.singleton_append, List.cons_append,
          strtok_list, if_true, List.isEmpty_cons, Bool.false_eq_true, if_false, List.append_eq]
        exact congrArg _ hrest

theorem numeral_value_lt (p : CStr × List Nat)
    (h : p.2 ≠ [] ∧ (∀ d ∈ p.2, d < 10) ∧ numeral_value p.2 < 2 ^ 31) :
    to_u32 (atoi (numeral_text p.2)) = numeral_value p.2 := by
  rw [atoi_numeral p.2 h.1 h.2.1 h.2.2]
  exact to_u32_nat _ (by have := h.2.2; omega)

theorem parse_args_loop_pairs (ps : List (CStr × List Nat)) (vals : List Nat)
    (hname : ∀ p ∈ ps, ∀ c ∈ p.1, c ≠ ',' ∧ c ≠ '=' ∧ c ≠ '"')
    (hnum : ∀ p ∈ ps, p.2 ≠ [] ∧ (∀ d ∈ p.2, d < 10) ∧ numeral_value p.2 < 2 ^ 31)
    (hv : vals.length ≤ 4) :
    parse_args_loop (ps.map pair_text) vals
      = (vals ++ ps.map (fun p => numeral_value p.2)).take 4 := by
  induction ps generalizing vals with
  | nil => simp [parse_args_loop, List.take_of_length_le hv]
  | cons p rest ih =>
    have hM : MAX_CALL_ARGS = 4 := rfl
    simp only [List.map_cons, parse_args_loop, hM]
    by_cases hl : vals.length < 4
    · have ha : after_char '=' (pair_text p) = some (numeral_text p.2) :=
        after_char_append '=' p.1 _ (fun x hx => (hname p (List.mem_cons_self _ _) x hx).2.1)
      simp only [hl, if_true, ha, numeral_value_lt p (hnum p (List.mem_cons_self _ _))]
      rw [ih (vals ++ [numeral_value p.2])
        (fun q hq => hname q (List.mem_cons_of_mem _ hq))
        (fun q hq => hnum q (List.mem_cons_of_mem _ hq))
        (by simp; omega)]
      simp
    · simp only [hl, if_false]
      have h4 : vals.length = 4 := by omega
      rw [List.take_append_of_le_length (by omega), List.take_of_length_le (by omega)]

theorem pair_text_plain (p : CStr × List Nat)
    (hname : ∀ c ∈ p.1, c ≠ ',' ∧ c ≠ '=' ∧ c ≠ '"') (hnum : ∀ d ∈ p.2, d < 10) :
    pair_text p ≠ [] ∧ ∀ x ∈ pair_text p, x ≠ ',' ∧ x ≠ '"' := by
  refine ⟨by simp [pair_text], ?_⟩
  intro x hx
  simp only [pair_text, List.mem_append, List.mem_cons, numeral_text, List.mem_map] at hx
  rcases hx with h | h | ⟨d, hd, rfl⟩
  · exact ⟨(hname x h).1, (hname x h).2.2⟩
  · subst h
    decide
  · have := digit_char_plain d (hnum d hd)
    exact ⟨this.2.2.2.1, this.2.2.2.2.2⟩

theorem join_csv_no_quote (toks : List CStr) (h : ∀ t ∈ toks, ∀ x ∈ t, x ≠ '"') :
    ∀ x ∈ join_csv toks, x ≠ '"' := by
  induction toks with
  | nil => intro x hx; simp [join_csv] at hx
  | cons t rest ih =>
    intro x hx
    rw [join_csv_cons] at hx
    rcases List.mem_append.mp hx with h1 | h1
    · exact h t (List.mem_cons_self _ _) x h1
    · split at h1
      · simp at h1
      · rcases List.mem_append.mp h1 with h2 | h2
        · simp at h2
          subst h2
          decide
        · exact ih (fun u hu => h u (List.mem_cons_of_mem _ hu)) x h2

/-- The values `handle_start_cmd` stores for a well-formed `args="..."` list that fits
`args_buf`: the first four, in order. -/
theorem parse_args_pairs (line rest : CStr) (ps : List (CStr × List Nat))
    (hname : ∀ p ∈ ps, ∀ c ∈ p.1, c ≠ ',' ∧ c ≠ '=' ∧ c ≠ '"')
    (hnum : ∀ p ∈ ps, p.2 ≠ [] ∧ (∀ d ∈ p.2, d < 10) ∧ numeral_value p.2 < 2 ^ 31)
    (hargs : find_param line "args".toList = some ('"' :: (args_text ps ++ '"' :: rest)))
    (hlen : (args_text ps).length ≤ 63) :
    parse_args line = (ps.map (fun p => numeral_value p.2)).take 4 := by
  have hplain : ∀ t ∈ ps.map pair_text, t ≠ [] ∧ ∀ x ∈ t, x ≠ ',' ∧ x ≠ '"' := by
    intro t ht
    obtain ⟨p, hp, rfl⟩ := List.mem_map.mp ht
    exact pair_text_plain p (hname p hp) (hnum p hp).2.1
  have hq : ∀ x ∈ args_text ps, x ≠ '"' :=
    join_csv_no_quote _ (fun t ht x hx => ((hplain t ht).2 x hx).2)
  unfold parse_args
  simp only [hargs, after_char_append '"' _ rest hq, takeWhile_append_stop '"' _ rest hq,
    List.take_of_length_le hlen]
  unfold args_text
  rw [strtok_list_join _ (fun t ht => ⟨(hplain t ht).1, fun x hx => ((hplain t ht).2 x hx).1⟩)]
  rw [parse_args_loop_pairs ps [] hname hnum (by simp)]
  simp

/-- An accepted `START`: the target slot was found, instantiated and idle, and the
command stored the request built from the line, set `busy` and signalled the worker. -/
theorem handle_start_cmd_accept (st : State) (env : start_env) (line : CStr)
    (hok : replied (handle_start_cmd st env line).2 "START_OK" = true) :
    ∃ (p_mod : CStr) (i : Nat) (s : module_slot_t), find_param line "module_id".toList = some p_mod ∧
      slot_find st.g_mods (copy_param_value p_mod 32) = some i ∧
      st.g_mods[i]? = some s ∧ s.busy = false ∧
      ∃ f : CStr, handle_start_cmd st env line =
        ({ st with g_mods := st.g_mods.set i { s with
             req := { func_name := f, argc := (parse_args line).length,
                      argv := parse_args line ++
                        List.replicate (MAX_CALL_ARGS - (parse_args line).length) 0 },
             stop_requested := false, busy := true, work_sem := k_sem_give s.work_sem } },
         ["START_OK\n".toList]) := by
  revert hok
  unfold handle_start_cmd
  cases hp : find_param line "module_id".toList with
  | none => simp [replied, starts_with, List.isPrefixOf]
  | some p_mod =>
    simp only
    cases hf : slot_find st.g_mods (copy_param_value p_mod 32) with
    | none => simp [replied, starts_with, List.isPrefixOf]
    | some i =>
      obtain ⟨s, hs, -, -⟩ := slot_find_some hf
      simp only [slot_at_of_get hs, slot_upd_of_get hs]
      by_cases hi : s.inst.isNone = true
      · simp [hi, replied, starts_with, List.isPrefixOf]
      · simp only [hi, Bool.false_eq_true, if_false]
        have tail : ∀ r : State × List CStr,
            r = (if s.busy = true then (st, ["RESULT status=BUSY\n".toList])
              else
                if ((match find_param line "func".toList with
                      | some p_func => copy_param_value p_func 64
                      | none => []).isEmpty && !env.has_app_main) = true then
                  if (parse_args line).length > 0 then
                    (st, ["RESULT status=NO_ENTRYPOINT msg=\"args require app_main\"\n".toList])
                  else
                    (st, ["RESULT status=NO_ENTRYPOINT msg=\"expected app_main\"\n".toList])
                else
                  ({ st with g_mods := st.g_mods.set i { s with
                       req := { func_name :=
                                  (if (match find_param line "func".toList with
                                        | some p_func => copy_param_value p_func 64
                                        | none => []).isEmpty then "app_main".toList
                                   else (match find_param line "func".toList with
                                        | some p_func => copy_param_value p_func 64
                                        | none => [])).take 63,
                                argc := (parse_args line).length,
                                argv := parse_args line ++
                                  List.replicate (MAX_CALL_ARGS - (parse_args line).length) 0 },
                       stop_requested := false, busy := true,
                       work_sem := k_sem_give s.work_sem } },
                   ["START_OK\n".toList])) →
            replied r.2 "START_OK" = true →
            ∃ (p_mod1 : CStr) (i1 : Nat) (s1 : module_slot_t), some p_mod = some p_mod1 ∧
              slot_find st.g_mods (copy_param_value p_mod1 32) = some i1 ∧
              st.g_mods[i1]? = some s1 ∧ s1.busy = false ∧
              ∃ f : CStr, r =
                ({ st with g_mods := st.g_mods.set i1 { s1 with
                     req := { func_name := f, argc := (parse_args line).length,
                              argv := parse_args line ++
                                List.replicate (MAX_CALL_ARGS - (parse_args line).length) 0 },
                     stop_requested := false, busy := true,
                     work_sem := k_sem_give s1.work_sem } },
                 ["START_OK\n".toList]) := by
          intro r hr
          by_cases hb : s.busy = true
          · rw [hr]
            simp [hb, replied, starts_with, List.isPrefixOf]
          · rw [if_neg hb] at hr
            split at hr
            · rw [hr]
              split <;> simp [replied, starts_with, List.isPrefixOf]
            · intro _
              exact ⟨p_mod, i, s, rfl, hf, hs, by simpa using hb, _, hr⟩
        cases hm : env.mem_info with
        | none =>
          simp only
          exact tail _ rfl
        | some mi =>
          simp only
          by_cases hlow : mi.total_free_size <
              (if s.exec_env.isSome = true then START_GUARD_BYTES_HAVE_EXEC_ENV
               else START_GUARD_BYTES_NEED_EXEC_ENV)
          · simp [hlow, replied, starts_with, snprintf, List.isPrefixOf]
          · simp only [hlow, if_false]
            exact tail _ rfl

/-- C11, as stated, fails: an accepted `START` whose `args` value is a quoted list of
four pairs `name=value` (values 1, 2, 3, 4) stores `argc = 2`, not `min 4 4`. The list is
72 characters long and `args_buf` keeps its first 63, which end inside the third name. -/
theorem start_long_args_are_cut :
    find_param start_line_long "args".toList
      = some ('"' :: (args_text start_pairs_long ++ ['"'])) ∧
    (handle_start_cmd state_m1_loaded start_env_ok start_line_long).2
      = ["START_OK\n".toList] ∧
    start_pairs_long.length = 4 ∧
    (slot_at (handle_start_cmd state_m1_loaded start_env_ok start_line_long).1.g_mods 0).req.argc
      = 2 ∧
    (slot_at (handle_start_cmd state_m1_loaded start_env_ok start_line_long).1.g_mods 0).req.argv
      = [1, 2, 0, 0] := by
  decide

/-- C11 (amended): for every accepted `START` whose `args` value is a double-quoted,
comma-separated list of `k` pairs `name=value` of at most 63 characters in all, each
value a decimal numeral denoting `v_i < 2 ^ 31`, the pending request of the target slot
has `argc = min k 4` and `argv[i] = v_i` for every `i < argc`, in the order given; the
remaining `argv` entries are 0, so pairs after the fourth are ignored. -/
theorem start_args_in_order (st : State) (env : start_env) (line rest : CStr)
    (ps : List (CStr × List Nat))
    (hname : ∀ p ∈ ps, ∀ c ∈ p.1, c ≠ ',' ∧ c ≠ '=' ∧ c ≠ '"')
    (hnum : ∀ p ∈ ps, p.2 ≠ [] ∧ (∀ d ∈ p.2, d < 10) ∧ numeral_value p.2 < 2 ^ 31)
    (hargs : find_param line "args".toList = some ('"' :: (args_text ps ++ '"' :: rest)))
    (hlen : (args_text ps).length ≤ 63)
    (hok : replied (handle_start_cmd st env line).2 "START_OK" = true) :
    ∃ (p_mod : CStr) (i : Nat), find_param line "module_id".toList = some p_mod ∧
      slot_find st.g_mods (copy_param_value p_mod 32) = some i ∧
      (slot_at (handle_start_cmd st env line).1.g_mods i).busy = true ∧
      (slot_at (handle_start_cmd st env line).1.g_mods i).req.argc = min ps.length 4 ∧
      (∀ j, j < min ps.length 4 →
        (slot_at (handle_start_cmd st env line).1.g_mods i).req.argv[j]?
          = (ps[j]?).map (fun p => numeral_value p.2)) ∧
      (slot_at (handle_start_cmd st env line).1.g_mods i).req.argv
        = (ps.map (fun p => numeral_value p.2)).take 4
            ++ List.replicate (4 - min ps.length 4) 0 := by
  obtain ⟨p_mod, i, s, hp, hf, hs, -, f, he⟩ := handle_start_cmd_accept st env line hok
  have hv := parse_args_pairs line rest ps hname hnum hargs hlen
  have hM : MAX_CALL_ARGS = 4 := rfl
  have hl : ((ps.map (fun p => numeral_value p.2)).take 4).length = min ps.length 4 := by
    simp [Nat.min_comm]
  refine ⟨p_mod, i, hp, hf, ?_⟩
  rw [he]
  simp only [slot_at_set_same hs, hv, hM, hl, true_and, and_true]
  intro j hj
  rw [List.getElem?_append_left (by rw [hl]; exact hj), List.getElem?_take_of_lt (by omega)]
  simp

/-- C11 at a concrete input: `START module_id=m1 func=add
args="a=10,b=2147483647,c=007,d=4,e=5"` on the table with `m1` LOADED is accepted with
`argc = 4` and `argv = [10, 2147483647, 7, 4]`; the fifth pair is ignored. -/
theorem start_args_in_order_witness :
    (slot_at (handle_start_cmd state_m1_loaded start_env_ok start_line_five).1.g_mods 0).req.argc
      = 4 ∧
    (slot_at (handle_start_cmd state_m1_loaded start_env_ok start_line_five).1.g_mods 0).req.argv
      = [10, 2147483647, 7, 4] ∧
    ∃ (p_mod : CStr) (i : Nat), find_param start_line_five "module_id".toList = some p_mod ∧
      slot_find state_m1_loaded.g_mods (copy_param_value p_mod 32) = some i ∧
      (slot_at (handle_start_cmd state_m1_loaded start_env_ok start_line_five).1.g_mods i).busy
        = true ∧
      (slot_at (handle_start_cmd state_m1_loaded start_env_ok start_line_five).1.g_mods i).req.argc
        = min start_pairs_five.length 4 ∧
      (∀ j, j < min start_pairs_five.length 4 →
        (slot_at (handle_start_cmd state_m1_loaded start_env_ok
            start_line_five).1.g_mods i).req.argv[j]?
          = (start_pairs_five[j]?).map (fun p => numeral_value p.2)) ∧
      (slot_at (handle_start_cmd state_m1_loaded start_env_ok start_line_five).1.g_mods i).req.argv
        = (start_pairs_five.map (fun p => numeral_value p.2)).take 4
            ++ List.replicate (4 - min start_pairs_five.length 4) 0 :=
  ⟨by decide, by decide,
   start_args_in_order state_m1_loaded start_env_ok start_line_five [] start_pairs_five
     (by decide) (by decide) (by decide) (by decide) (by decide)⟩

/-- A `START` that finds its slot instantiated, passes the memory check, finds the slot
idle and for which `find_param` finds no `func` is accepted with function name
`app_main` when the instance exports it (the slot becomes busy and the worker is
signalled); otherwise the reply is `RESULT status=NO_ENTRYPOINT`, with message
`args require app_main` when at least one argument was parsed and `expected app_main`
when none was, and the state is unchanged. -/
theorem handle_start_cmd_default (st : State) (env : start_env) (line p_mod : CStr) (i : Nat)
    (hp : find_param line "module_id".toList = some p_mod)
    (hf : slot_find st.g_mods (copy_param_value p_mod 32) = some i)
    (hi : (slot_at st.g_mods i).inst ≠ none)
    (hmem : ∀ mi, env.mem_info = some mi →
      (if (slot_at st.g_mods i).exec_env.isSome then 4096 else 16384) ≤ mi.total_free_size)
    (hb : (slot_at st.g_mods i).busy = false)
    (hfunc : find_param line "func".toList = none) :
    (env.has_app_main = true →
      (handle_start_cmd st env line).2 = ["START_OK\n".toList] ∧
      (slot_at (handle_start_cmd st env line).1.g_mods i).req.func_name = "app_main".toList ∧
      (slot_at (handle_start_cmd st env line).1.g_mods i).busy = true ∧
      (slot_at (handle_start_cmd st env line).1.g_mods i).work_sem
        = k_sem_give (slot_at st.g_mods i).work_sem) ∧
    (env.has_app_main = false →
      (handle_start_cmd st env line).1 = st ∧
      (0 < (parse_args line).length → (handle_start_cmd st env line).2 =
        ["RESULT status=NO_ENTRYPOINT msg=\"args require app_main\"\n".toList]) ∧
      ((parse_args line).length = 0 → (handle_start_cmd st env line).2 =
        ["RESULT status=NO_ENTRYPOINT msg=\"expected app_main\"\n".toList])) := by
  have hg1 : START_GUARD_BYTES_HAVE_EXEC_ENV = 4096 := by decide
  have hg2 : START_GUARD_BYTES_NEED_EXEC_ENV = 16384 := by decide
  obtain ⟨s, hs, -, -⟩ := slot_find_some hf
  rw [slot_at_of_get hs] at hi hmem hb
  have hin : s.inst.isNone = false := by
    cases h : s.inst with
    | none => exact absurd h hi
    | some k => rfl
  unfold handle_start_cmd
  simp only [hp, hf, hfunc, slot_at_of_get hs, slot_upd_of_get hs, hin, hb, Bool.false_eq_true,
    if_false, hg1, hg2, List.isEmpty_nil, Bool.true_and, if_true]
  cases hm : env.mem_info with
  | none =>
    simp only
    constructor
    · intro ha
      simp [ha, slot_at_set_same hs]
    · intro ha
      simp only [ha, Bool.not_false, if_true]
      refine ⟨by split <;> rfl, fun h => by simp [h], fun h => by simp [h]⟩
  | some mi =>
    have hle := hmem mi hm
    have hnl : ¬ mi.total_free_size < (if s.exec_env.isSome = true then 4096 else 16384) :=
      Nat.not_lt.mpr hle
    simp only [hnl, if_false]
    constructor
    · intro ha
      simp [ha, slot_at_set_same hs]
    · intro ha
      simp only [ha, Bool.not_false, if_true]
      refine ⟨by split <;> rfl, fun h => by simp [h], fun h => by simp [h]⟩

/-! ## `STOP` -/

/-- Repeating a `STOP` that is answered `IDLE`: the state never changes. -/
theorem handle_stop_cmd_iterate (st : State) (line : CStr)
    (h : handle_stop_cmd st line = (st, ["STOP_OK status=IDLE\n".toList])) (n : Nat) :
    Nat.iterate (fun s => (handle_stop_cmd s line).1) n st = st := by
  induction n with
  | zero => rfl
  | succ k ih =>
    rw [Function.iterate_succ_apply, h]
    exact ih

/-- C13: `handle_stop_cmd` replies `STOP_OK status=NO_JOB` when `module_id` is absent
and `STOP_OK status=IDLE` when no used slot has the id or the slot found is not busy;
in these cases the state is returned unchanged, so after any number of repetitions the
reply to a `STOP` on an idle slot is again `IDLE`. When the slot is busy the reply is
`STOP_OK status=PENDING` and the only change is that `terminate_requested` is set and
the stop timer armed: `busy`, `state`, the pending request and every other slot stay
as they were. -/
theorem stop_cmd_contract (st : State) (line : CStr) :
    (find_param line "module_id".toList = none →
      handle_stop_cmd st line = (st, ["STOP_OK status=NO_JOB\n".toList])) ∧
    (∀ p_mod, find_param line "module_id".toList = some p_mod →
      ((∀ s ∈ st.g_mods,
          ¬ (s.used = true ∧ strncmp_eq s.module_id (copy_param_value p_mod 32) 32 = true)) →
        ∀ n, handle_stop_cmd (Nat.iterate (fun s => (handle_stop_cmd s line).1) n st) line
          = (st, ["STOP_OK status=IDLE\n".toList])) ∧
      (∀ i s, slot_find st.g_mods (copy_param_value p_mod 32) = some i →
        st.g_mods[i]? = some s →
        (s.busy = false →
          ∀ n, handle_stop_cmd (Nat.iterate (fun s => (handle_stop_cmd s line).1) n st) line
            = (st, ["STOP_OK status=IDLE\n".toList])) ∧
        (s.busy = true →
          handle_stop_cmd st line =
            ({ st with g_mods := st.g_mods.set i { s with
                 terminate_requested := true, stop_dwork := true } },
             ["STOP_OK status=PENDING\n".toList]) ∧
          (slot_at (handle_stop_cmd st line).1.g_mods i).terminate_requested = true ∧
          (slot_at (handle_stop_cmd st line).1.g_mods i).stop_dwork = true ∧
          (slot_at (handle_stop_cmd st line).1.g_mods i).busy = true ∧
          (slot_at (handle_stop_cmd st line).1.g_mods i).state = s.state ∧
          (slot_at (handle_stop_cmd st line).1.g_mods i).req = s.req ∧
          ∀ j, j ≠ i → (handle_stop_cmd st line).1.g_mods[j]? = st.g_mods[j]?))) := by
  refine ⟨?_, ?_⟩
  · intro hp
    unfold handle_stop_cmd
    simp only [hp]
  · intro p_mod hp
    refine ⟨?_, ?_⟩
    · intro hnone n
      have hf := slot_find_none.mpr hnone
      have h1 : handle_stop_cmd st line = (st, ["STOP_OK status=IDLE\n".toList]) := by
        unfold handle_stop_cmd
        simp only [hp, hf]
      rw [handle_stop_cmd_iterate st line h1 n, h1]
    · intro i s hf hs
      refine ⟨?_, ?_⟩
      · intro hb n
        have h1 : handle_stop_cmd st line = (st, ["STOP_OK status=IDLE\n".toList]) := by
          unfold handle_stop_cmd
          simp only [hp, hf, slot_at_of_get hs, hb, Bool.not_false, if_true]
        rw [handle_stop_cmd_iterate st line h1 n, h1]
      · intro hb
        have h1 : handle_stop_cmd st line =
            ({ st with g_mods := st.g_mods.set i { s with
                 terminate_requested := true, stop_dwork := true } },
             ["STOP_OK status=PENDING\n".toList]) := by
          unfold handle_stop_cmd
          simp only [hp, hf, slot_at_of_get hs, hb, Bool.not_true, Bool.false_eq_true, if_false,
            slot_upd_of_get hs]
        rw [h1]
        refine ⟨rfl, ?_⟩
        simp only [slot_at_set_same hs, hb, true_and]
        intro j hj
        exact get_set_other st.g_mods (Ne.symm hj) _

/-- C13 at concrete inputs: `STOP` without a `module_id`; `STOP module_id=m1` on the
empty table and, three times over, on the table with `m1` LOADED and idle; and
`STOP module_id=m1` while `m1` is busy. -/
theorem stop_cmd_contract_witness :
    handle_stop_cmd state_m1_busy "x=1".toList
      = (state_m1_busy, ["STOP_OK status=NO_JOB\n".toList]) ∧
    handle_stop_cmd State.init "module_id=m1".toList
      = (State.init, ["STOP_OK status=IDLE\n".toList]) ∧
    handle_stop_cmd (Nat.iterate (fun s => (handle_stop_cmd s "module_id=m1".toList).1) 3
        state_m1_loaded) "module_id=m1".toList
      = (state_m1_loaded, ["STOP_OK status=IDLE\n".toList]) ∧
    ((handle_stop_cmd state_m1_busy "module_id=m1".toList).2
        = ["STOP_OK status=PENDING\n".toList] ∧
      (slot_at (handle_stop_cmd state_m1_busy "module_id=m1".toList).1.g_mods 0).terminate_requested
        = true ∧
      (slot_at (handle_stop_cmd state_m1_busy "module_id=m1".toList).1.g_mods 0).busy = true) :=
  ⟨(stop_cmd_contract state_m1_busy "x=1".toList).1 (by decide),
   ((stop_cmd_contract State.init "module_id=m1".toList).2 "m1".toList (by decide)).1
     (by decide) 0,
   (((stop_cmd_contract state_m1_loaded "module_id=m1".toList).2 "m1".toList (by decide)).2
     0 (slot_at state_m1_loaded.g_mods 0) (by decide) (by decide)).1 (by decide) 3,
   by
     have h := (((stop_cmd_contract state_m1_busy "module_id=m1".toList).2 "m1".toList
       (by decide)).2 0 (slot_at state_m1_busy.g_mods 0) (by decide) (by decide)).2 (by decide)
     exact ⟨by rw [h.1], h.2.1, h.2.2.2.1⟩⟩

/-! ## Native symbol tables -/

theorem slot_from_current_thread_none (g : List agent_slot_t) (me : Nat) :
    slot_from_current_thread g me = none ↔
      ∀ s ∈ g, ¬ (s.used = true ∧ s.tid = some me) := by
  induction g with
  | nil => simp [slot_from_current_thread]
  | cons a rest ih =>
    unfold slot_from_current_thread
    by_cases h : a.used = true ∧ a.tid = some me
    · simp [h]
    · have h2 : (a.used && a.tid == some me) = false := by
        cases hu : a.used <;> simp_all
      simp only [h2, Bool.false_eq_true, if_false, ih, List.mem_cons, forall_eq_or_imp, h,
        not_false_eq_true, true_and]

theorem slot_from_current_thread_unique (g : List agent_slot_t) (me i : Nat) (s : agent_slot_t)
    (hs : g[i]? = some s) (hu : s.used = true) (ht : s.tid = some me)
    (huniq : ∀ (j : Nat) (t : agent_slot_t), g[j]? = some t → t.used = true →
      t.tid = some me → j = i) :
    slot_from_current_thread g me = some s := by
  induction g generalizing i with
  | nil => simp at hs
  | cons a rest ih =>
    unfold slot_from_current_thread
    cases i with
    | zero =>
      simp only [List.getElem?_cons_zero, Option.some.injEq] at hs
      subst hs
      simp [hu, ht]
    | succ k =>
      simp only [List.getElem?_cons_succ] at hs
      have h2 : (a.used && a.tid == some me) = false := by
        by_contra hne
        have hc : a.used = true ∧ a.tid = some me := by
          cases hu2 : a.used <;> simp_all
        have := huniq 0 a (by simp) hc.1 hc.2
        omega
      simp only [h2, Bool.false_eq_true, if_false]
      exact ih k hs (fun j t hj hju hjt => by
        have := huniq (j + 1) t (by simpa using hj) hju hjt
        omega)

/-- C14, as stated, fails in both firmware variants: the table of `firmware_2` has no
`should_stop` entry, and the table of `firmware/agent` has neither `uart_print` nor
`led_toggle`. -/
theorem native_symbols_lack_should_stop :
    (∀ e ∈ native_symbols, e.symbol ≠ "should_stop".toList) ∧
    (∀ e ∈ agent_native_symbols,
      e.symbol ≠ "uart_print".toList ∧ e.symbol ≠ "led_toggle".toList) := by
  decide

/-- C14 (amended): both variants register their table under the module name `env`. The
table of `firmware_2` holds exactly `gpio_toggle` (`()`), `uart_print` (`(i)`) and
`led_toggle` (`(i)`); the table of `firmware/agent` holds exactly `gpio_toggle` (`()`)
and `should_stop` (`()i`). In `firmware/agent`, `should_stop` returns 0 or 1; it returns
1 iff a used slot whose worker is the calling thread is found and has `stop_requested`
set, and when the calling worker owns exactly one used slot the result is 1 if that
slot has `stop_requested` set and 0 otherwise. -/
theorem native_symbols_by_variant :
    native_module_name = "env".toList ∧
    native_symbols.map (fun e => (e.symbol, e.signature))
      = [("gpio_toggle".toList, "()".toList), ("uart_print".toList, "(i)".toList),
         ("led_toggle".toList, "(i)".toList)] ∧
    agent_native_symbols.map (fun e => (e.symbol, e.signature))
      = [("gpio_toggle".toList, "()".toList), ("should_stop".toList, "()i".toList)] ∧
    (∀ (g : List agent_slot_t) (me : Nat),
      (should_stop_native g me = 0 ∨ should_stop_native g me = 1) ∧
      (should_stop_native g me = 1 ↔
        ∃ s, slot_from_current_thread g me = some s ∧ s.stop_requested = true) ∧
      ((∀ s ∈ g, ¬ (s.used = true ∧ s.tid = some me)) → should_stop_native g me = 0) ∧
      (∀ (i : Nat) (s : agent_slot_t), g[i]? = some s → s.used = true → s.tid = some me →
        (∀ (j : Nat) (t : agent_slot_t), g[j]? = some t → t.used = true →
          t.tid = some me → j = i) →
        should_stop_native g me = (if s.stop_requested then 1 else 0))) := by
  refine ⟨rfl, rfl, rfl, ?_⟩
  intro g me
  refine ⟨?_, ?_, ?_, ?_⟩
  · unfold should_stop_native
    split
    · split <;> simp
    · simp
  · unfold should_stop_native
    cases h : slot_from_current_thread g me with
    | none => simp
    | some s => cases hs : s.stop_requested <;> simp [hs]
  · intro hno
    unfold should_stop_native
    rw [(slot_from_current_thread_none g me).mpr hno]
  · intro i s hs hu ht huniq
    unfold should_stop_native
    rw [slot_from_current_thread_unique g me i s hs hu ht huniq]

/-- C14 at a concrete table of `firmware/agent`: called on worker 7, whose slot has
`stop_requested` set, `should_stop` returns 1; on worker 9 it returns 0; on a thread
that owns no slot it returns 0. -/
theorem native_symbols_by_variant_witness :
    should_stop_native agent_table 7 = 1 ∧ should_stop_native agent_table 9 = 0 ∧
    should_stop_native agent_table 5 = 0 :=
  ⟨(native_symbols_by_variant.2.2.2 agent_table 7).2.2.2 0
      { used := true, tid := some 7, stop_requested := true } (by decide) (by decide)
      (by decide) (by
        intro j t hj hu ht
        rcases j with _ | _ | j <;> simp [agent_table] at hj
        all_goals subst hj
        all_goals simp at ht ⊢),
   (native_symbols_by_variant.2.2.2 agent_table 9).2.2.2 1
      { used := true, tid := some 9, stop_requested := false } (by decide) (by decide)
      (by decide) (by
        intro j t hj hu ht
        rcases j with _ | _ | j <;> simp [agent_table] at hj
        all_goals subst hj
        all_goals simp at ht ⊢),
   (native_symbols_by_variant.2.2.2 agent_table 5).2.2.1 (by decide)⟩

/-! ## Command dispatcher -/

theorem dropWhile_spaces (pad : Nat) (body : CStr) (h : body.head? ≠ some ' ') :
    (List.replicate pad ' ' ++ body).dropWhile (fun c => c == ' ') = body := by
  induction pad with
  | zero =>
    cases body with
    | nil => rfl
    | cons a rest =>
      have ha : a ≠ ' ' := fun e => h (by simp [e])
      simp [List.dropWhile_cons, ha]
  | succ k ih => simpa [List.replicate_succ] using ih

theorem dropWhile_append_stop (c : Char) (body rest : CStr) (h : ∀ x ∈ body, x ≠ c) :
    (body ++ c :: rest).dropWhile (fun x => x != c) = c :: rest := by
  induction body with
  | nil => simp [List.dropWhile]
  | cons x xs ih =>
    have hx := h x (List.mem_cons_self _ _)
    simp only [List.cons_append, List.dropWhile_cons, bne_iff_ne, ne_eq, hx, not_false_eq_true,
      if_true, decide_True]
    exact ih (fun y hy => h y (List.mem_cons_of_mem _ hy))

theorem takeWhile_all (c : Char) (body : CStr) (h : ∀ x ∈ body, x ≠ c) :
    body.takeWhile (fun x => x != c) = body ∧ body.dropWhile (fun x => x != c) = [] := by
  induction body with
  | nil => simp
  | cons x xs ih =>
    have hx := h x (List.mem_cons_self _ _)
    have := ih (fun y hy => h y (List.mem_cons_of_mem _ hy))
    simp [List.takeWhile_cons, List.dropWhile_cons, hx, this]

/-- The dispatcher on a line given by its parts: an optional terminator, leading
spaces, the first space-delimited token and what follows it. -/
theorem handle_command_line_parts (st : State) (env : cmd_env) (line body cmd rest : CStr)
    (pad : Nat)
    (hline : (line = body ∧ body.getLast? ≠ some '\n' ∧ body.getLast? ≠ some '\r') ∨
      line = body ++ ['\n'] ∨ line = body ++ ['\r'])
    (hbody : body = List.replicate pad ' ' ++ cmd ∧ rest = [] ∨
      body = List.replicate pad ' ' ++ cmd ++ ' ' :: rest)
    (hne : cmd ≠ []) (hcmd : ∀ c ∈ cmd, c ≠ ' ') :
    handle_command_line st env line =
      if cmd = "LOAD".toList then handle_load_cmd st env.load rest
      else if cmd = "START".toList then handle_start_cmd st env.start rest
      else if cmd = "STOP".toList then handle_stop_cmd st rest
      else if cmd = "STATUS".toList then (st, [handle_status_cmd st env.status])
      else (st, ["ERROR code=UNKNOWN_COMMAND\n".toList]) := by
  have h1 : (if line.getLast? = some '\n' ∨ line.getLast? = some '\r' then line.dropLast
      else line) = body := by
    rcases hline with ⟨e, h1, h2⟩ | e | e
    · subst e
      simp [h1, h2]
    · subst e
      simp
    · subst e
      simp
  have hhead : ∀ tail : CStr, (cmd ++ tail).head? ≠ some ' ' := by
    intro tail
    cases cmd with
    | nil => exact absurd rfl hne
    | cons a b =>
      have := hcmd a (List.mem_cons_self _ _)
      simp [this]
  have hemp : cmd.isEmpty = false := by
    cases cmd with
    | nil => exact absurd rfl hne
    | cons a b => rfl
  unfold handle_command_line
  simp only [h1]
  rcases hbody with ⟨e, er⟩ | e
  · subst e er
    have hd := dropWhile_spaces pad cmd (by simpa using hhead [])
    simp only [hd, (takeWhile_all ' ' cmd hcmd).1, (takeWhile_all ' ' cmd hcmd).2, hemp,
      List.drop_nil, Bool.false_eq_true, if_false]
  · subst e
    have hd := dropWhile_spaces pad (cmd ++ ' ' :: rest) (hhead _)
    rw [List.append_assoc]
    simp only [hd, takeWhile_append_stop ' ' cmd rest hcmd,
      dropWhile_append_stop ' ' cmd rest hcmd, hemp, List.drop_succ_cons, List.drop_zero,
      Bool.false_eq_true, if_false]

/-- C15, as stated, fails: the first whitespace-delimited token of `STATUS<TAB>now` and
of `<LF>STATUS` is `STATUS`, yet both lines are answered `ERROR code=UNKNOWN_COMMAND`:
`strtok(line, " ")` splits at the space character only. -/
theorem tab_does_not_delimit_command :
    spec_first_token "STATUS\tnow".toList = "STATUS".toList ∧
    handle_command_line state_m1_loaded cmd_env_ok "STATUS\tnow".toList
      = (state_m1_loaded, ["ERROR code=UNKNOWN_COMMAND\n".toList]) ∧
    spec_first_token "\nSTATUS".toList = "STATUS".toList ∧
    handle_command_line state_m1_loaded cmd_env_ok "\nSTATUS".toList
      = (state_m1_loaded, ["ERROR code=UNKNOWN_COMMAND\n".toList]) := by
  decide

/-- C15 (amended): for every input line, once one trailing line feed or carriage return
is removed, the command is the first token delimited by the space character and the
argument string is what follows the one space after it. A line whose first
space-delimited token is exactly `LOAD`, `START`, `STOP` or `STATUS` is handled by that
handler on the argument string; every other line containing a token yields exactly
`ERROR code=UNKNOWN_COMMAND` and leaves the whole state as it was. -/
theorem command_routing (st : State) (env : cmd_env) (line body cmd rest : CStr) (pad : Nat)
    (hline : (line = body ∧ body.getLast? ≠ some '\n' ∧ body.getLast? ≠ some '\r') ∨
      line = body ++ ['\n'] ∨ line = body ++ ['\r'])
    (hbody : body = List.replicate pad ' ' ++ cmd ∧ rest = [] ∨
      body = List.replicate pad ' ' ++ cmd ++ ' ' :: rest)
    (hne : cmd ≠ []) (hcmd : ∀ c ∈ cmd, c ≠ ' ') :
    (cmd = "LOAD".toList →
      handle_command_line st env line = handle_load_cmd st env.load rest) ∧
    (cmd = "START".toList →
      handle_command_line st env line = handle_start_cmd st env.start rest) ∧
    (cmd = "STOP".toList → handle_command_line st env line = handle_stop_cmd st rest) ∧
    (cmd = "STATUS".toList →
      handle_command_line st env line = (st, [handle_status_cmd st env.status])) ∧
    (cmd ≠ "LOAD".toList → cmd ≠ "START".toList → cmd ≠ "STOP".toList →
      cmd ≠ "STATUS".toList →
      handle_command_line st env line = (st, ["ERROR code=UNKNOWN_COMMAND\n".toList])) := by
  have h := handle_command_line_parts st env line body cmd rest pad hline hbody hne hcmd
  refine ⟨?_, ?_, ?_, ?_, ?_⟩
  · intro e
    rw [h, if_pos e]
  · intro e
    rw [h, if_neg (by rw [e]; decide), if_pos e]
  · intro e
    rw [h, if_neg (by rw [e]; decide), if_neg (by rw [e]; decide), if_pos e]
  · intro e
    rw [h, if_neg (by rw [e]; decide), if_neg (by rw [e]; decide), if_neg (by rw [e]; decide),
      if_pos e]
  · intro e1 e2 e3 e4
    rw [h, if_neg e1, if_neg e2, if_neg e3, if_neg e4]

/-- C15 at concrete inputs: `  STOP module_id=m1` followed by a line feed reaches
`handle_stop_cmd` with the argument string `module_id=m1`; `PING` and `stop` are
unknown commands. -/
theorem command_routing_witness :
    handle_command_line state_m1_busy cmd_env_ok "  STOP module_id=m1\n".toList
      = handle_stop_cmd state_m1_busy "module_id=m1".toList ∧
    handle_command_line state_m1_busy cmd_env_ok "PING".toList
      = (state_m1_busy, ["ERROR code=UNKNOWN_COMMAND\n".toList]) ∧
    handle_command_line state_m1_busy cmd_env_ok "stop module_id=m1\r".toList
      = (state_m1_busy, ["ERROR code=UNKNOWN_COMMAND\n".toList]) :=
  ⟨(command_routing state_m1_busy cmd_env_ok "  STOP module_id=m1\n".toList
      "  STOP module_id=m1".toList "STOP".toList "module_id=m1".toList 2
      (by decide) (by decide) (by decide) (by decide)).2.2.1 rfl,
   (command_routing state_m1_busy cmd_env_ok "PING".toList "PING".toList "PING".toList [] 0
      (by decide) (by decide) (by decide) (by decide)).2.2.2.2
      (by decide) (by decide) (by decide) (by decide),
   (command_routing state_m1_busy cmd_env_ok "stop module_id=m1\r".toList
      "stop module_id=m1".toList "stop".toList "module_id=m1".toList 0
      (by decide) (by decide) (by decide) (by decide)).2.2.2.2
      (by decide) (by decide) (by decide) (by decide)⟩

/-! ## Response lines -/

/-- C16 fails on the worker's `RESULT` line: with a module id of 31 characters, a
function name of 63 and an exception text of 127, the line `module_worker` formats is
269 characters long and `snprintf(out, 256, ...)` keeps 255 of them, so what is written
begins `RESULT status=EXCEPTION`, is 255 characters long and contains no line feed. -/
theorem worker_result_line_loses_newline :
    (run State.init events_long_result).2.length = 4 ∧
    ((run State.init events_long_result).2.getLast?).map
        (fun l => (starts_with l "RESULT status=EXCEPTION", l.length, l.contains '\n'))
      = some (true, 255, false) ∧
    long_module_id.length = 31 ∧ long_func_name.length = 63 ∧ long_exception.length = 127 := by
  decide

/-! ## Decoder mode around `LOAD` -/

theorem load_finish_decoder (st : State) (env : load_env) (i crc : Nat)
    (ready vid : CStr) (w : Bool)
    (h : st.bin_sem ≠ 0 → st.g_rx_state = rx_state_t.RX_STATE_LINE) :
    (load_finish st env i crc ready vid w).1.g_rx_state = rx_state_t.RX_STATE_LINE ∧
    (load_finish st env i crc ready vid w).1.g_bin_buf = none := by
  unfold load_finish
  by_cases hz : st.bin_sem = 0
  · simp [hz]
  · have hl := h hz
    simp only [hz, if_false]
    split
    · exact ⟨hl, rfl⟩
    · split
      · exact ⟨hl, rfl⟩
      · split
        · exact ⟨hl, rfl⟩
        · split
          · exact ⟨hl, rfl⟩
          · exact ⟨hl, rfl⟩

theorem load_payload_decoder (st : State) (env : load_env) (i n crc : Nat)
    (crc_str vid : CStr) (w : Bool) (s0 : module_slot_t)
    (hs : st.g_mods[i]? = some s0) (hn : 0 < n)
    (hm : st.g_rx_state = rx_state_t.RX_STATE_LINE) (hb : st.g_bin_buf = none) :
    (load_payload st env i n crc crc_str vid w).1.g_rx_state = rx_state_t.RX_STATE_LINE ∧
    (load_payload st env i n crc crc_str vid w).1.g_bin_buf = none := by
  unfold load_payload
  by_cases hmal : env.malloc_ok = true
  · simp only [hmal, Bool.not_true, Bool.false_eq_true, if_false]
    apply load_finish_decoder
    intro hsem
    obtain ⟨-, h2, h3⟩ := load_window st i n s0 env.incoming hs hn
    rw [h3]
    rw [h2] at hsem
    by_cases hlen : env.incoming.length < n
    · simp [hlen] at hsem
    · simp [hlen]
  · simp only [hmal, Bool.not_false, if_true]
    exact ⟨hm, hb⟩

/-- A `LOAD` entered with the decoder in LINE mode and no binary target leaves it so. -/
theorem handle_load_cmd_decoder (st : State) (env : load_env) (line : CStr)
    (hm : st.g_rx_state = rx_state_t.RX_STATE_LINE) (hb : st.g_bin_buf = none) :
    (handle_load_cmd st env line).1.g_rx_state = rx_state_t.RX_STATE_LINE ∧
    (handle_load_cmd st env line).1.g_bin_buf = none := by
  rcases handle_load_cmd_cases st env line with ⟨-, e⟩ | ⟨p, -, ⟨-, e⟩ | ⟨hz, h⟩⟩
  · rw [e]
    exact ⟨hm, hb⟩
  · rw [e]
    exact ⟨hm, hb⟩
  · rcases h with ⟨reply, -, e⟩ | ⟨g1, i, w, hr, e⟩
    · rw [e]
      exact ⟨hm, hb⟩
    · obtain ⟨s0, hs0, -, -⟩ := load_resolve_clean hr
      rw [e]
      exact load_payload_decoder { st with g_mods := g1 } env i _ _ _ _ w s0 hs0
        (Nat.pos_of_ne_zero hz) hm hb

theorem handle_start_cmd_decoder (st : State) (env : start_env) (line : CStr) :
    (handle_start_cmd st env line).1.g_rx_state = st.g_rx_state ∧
    (handle_start_cmd st env line).1.g_bin_buf = st.g_bin_buf := by
  unfold handle_start_cmd
  split
  · exact ⟨rfl, rfl⟩
  · simp only
    split
    · exact ⟨rfl, rfl⟩
    · split
      · exact ⟨rfl, rfl⟩
      · split
        · exact ⟨rfl, rfl⟩
        · split
          · exact ⟨rfl, rfl⟩
          · split
            · split <;> exact ⟨rfl, rfl⟩
            · exact ⟨rfl, rfl⟩

theorem handle_stop_cmd_decoder (st : State) (line : CStr) :
    (handle_stop_cmd st line).1.g_rx_state = st.g_rx_state ∧
    (handle_stop_cmd st line).1.g_bin_buf = st.g_bin_buf := by
  unfold handle_stop_cmd
  split
  · exact ⟨rfl, rfl⟩
  · simp only
    split
    · exact ⟨rfl, rfl⟩
    · split <;> exact ⟨rfl, rfl⟩

theorem handle_command_line_decoder (st : State) (env : cmd_env) (line : CStr)
    (hm : st.g_rx_state = rx_state_t.RX_STATE_LINE) (hb : st.g_bin_buf = none) :
    (handle_command_line st env line).1.g_rx_state = rx_state_t.RX_STATE_LINE ∧
    (handle_command_line st env line).1.g_bin_buf = none := by
  unfold handle_command_line
  dsimp only
  generalize (if line.getLast? = some '\n' ∨ line.getLast? = some '\r' then line.dropLast
    else line) = line1
  split
  · exact ⟨hm, hb⟩
  · split
    · exact handle_load_cmd_decoder st _ _ hm hb
    · split
      · have := handle_start_cmd_decoder st env.start
          (List.drop 1 (List.dropWhile (fun c => c != ' ')
            (List.dropWhile (fun c => c == ' ') line1)))
        rw [this.1, this.2]
        exact ⟨hm, hb⟩
      · split
        · have := handle_stop_cmd_decoder st
            (List.drop 1 (List.dropWhile (fun c => c != ' ')
              (List.dropWhile (fun c => c == ' ') line1)))
          rw [this.1, this.2]
          exact ⟨hm, hb⟩
        · split <;> exact ⟨hm, hb⟩

theorem step_decoder (st : State) (e : Event)
    (hm : st.g_rx_state = rx_state_t.RX_STATE_LINE) (hb : st.g_bin_buf = none) :
    (step st e).1.g_rx_state = rx_state_t.RX_STATE_LINE ∧ (step st e).1.g_bin_buf = none := by
  cases e with
  | rx bytes =>
    obtain ⟨-, h2, h3, -⟩ := serial_cb_line bytes st hm
    simp only [step]
    exact ⟨h2, by rw [h3, hb]⟩
  | command env =>
    simp only [step]
    split
    · exact ⟨hm, hb⟩
    · split
      · exact ⟨hm, hb⟩
      · exact handle_command_line_decoder _ env _ hm hb
  | worker i env =>
    simp only [step]
    split
    · exact ⟨hm, hb⟩
    · exact ⟨hm, hb⟩
  | timer i env =>
    simp only [step]
    split
    · split
      · exact ⟨hm, hb⟩
      · exact ⟨hm, hb⟩
    · exact ⟨hm, hb⟩

/-- Between steps the decoder is in LINE mode with no binary target: the BINARY window
lies inside the `LOAD` handler. -/
theorem run_decoder (events : List Event) (st : State)
    (hm : st.g_rx_state = rx_state_t.RX_STATE_LINE) (hb : st.g_bin_buf = none) :
    (run st events).1.g_rx_state = rx_state_t.RX_STATE_LINE ∧
    (run st events).1.g_bin_buf = none := by
  induction events generalizing st with
  | nil => exact ⟨hm, hb⟩
  | cons e es ih =>
    have h := step_decoder st e hm hb
    exact ih (step st e).1 h.1 h.2

/-- C17: a `LOAD` entered with the decoder in LINE mode and no binary target (as it is
in every state reached between steps) ends, whatever its outcome, with the decoder in
LINE mode and the binary target null. When the payload phase is reached and fewer than
`size` bytes arrive during the wait, the replies are `LOAD_READY` and then
`LOAD_ERR code=TIMEOUT`, the mode is LINE, the target is null and the slot is cleaned
up. Inside the payload phase the mode is BINARY from the arming of the decoder until
the `size`-th byte has been consumed: after `k` payload bytes it is BINARY iff
`k < size`. -/
theorem load_returns_to_line_mode (st : State) (env : load_env) (line : CStr)
    (hm : st.g_rx_state = rx_state_t.RX_STATE_LINE) (hb : st.g_bin_buf = none) :
    ((handle_load_cmd st env line).1.g_rx_state = rx_state_t.RX_STATE_LINE ∧
      (handle_load_cmd st env line).1.g_bin_buf = none) ∧
    (∀ events, (run st events).1.g_rx_state = rx_state_t.RX_STATE_LINE ∧
      (run st events).1.g_bin_buf = none) ∧
    (∀ p g1 i w, load_parse line = some p → to_u32 (atoi p.size_str) ≠ 0 →
      load_resolve st.g_mods p.module_id_buf p.victim_id_buf p.do_replace p.have_victim
        = Except.ok (g1, i, w) →
      env.malloc_ok = true →
      ((load_arm { st with g_mods := g1 } i (to_u32 (atoi p.size_str))).g_rx_state
          = rx_state_t.RX_STATE_BINARY ∧
        (load_arm { st with g_mods := g1 } i (to_u32 (atoi p.size_str))).g_bin_buf = some i) ∧
      (∀ k, k ≤ env.incoming.length →
        ((serial_cb (load_arm { st with g_mods := g1 } i (to_u32 (atoi p.size_str)))
            (env.incoming.take k)).g_rx_state = rx_state_t.RX_STATE_BINARY ↔
          k < to_u32 (atoi p.size_str))) ∧
      (env.incoming.length < to_u32 (atoi p.size_str) →
        (handle_load_cmd st env line).2 =
          [load_ready_line (load_arm { st with g_mods := g1 } i (to_u32 (atoi p.size_str))) i
             p.crc_str,
           "LOAD_ERR code=TIMEOUT msg=\"binary payload not received\"\n".toList] ∧
        (handle_load_cmd st env line).1.g_rx_state = rx_state_t.RX_STATE_LINE ∧
        (handle_load_cmd st env line).1.g_bin_buf = none ∧
        slot_is_clean (slot_at (handle_load_cmd st env line).1.g_mods i))) := by
  refine ⟨handle_load_cmd_decoder st env line hm hb, fun events => run_decoder events st hm hb,
    ?_⟩
  intro p g1 i w hp hz hr hmal
  obtain ⟨s0, hs0, -, -⟩ := load_resolve_clean hr
  have hn : 0 < to_u32 (atoi p.size_str) := Nat.pos_of_ne_zero hz
  refine ⟨⟨rfl, rfl⟩, ?_, ?_⟩
  · intro k hk
    obtain ⟨-, -, h3⟩ := load_window { st with g_mods := g1 } i (to_u32 (atoi p.size_str)) s0
      (env.incoming.take k) hs0 hn
    rw [h3, List.length_take, Nat.min_eq_left hk]
    by_cases hlt : k < to_u32 (atoi p.size_str)
    · simp [hlt]
    · simp [hlt]
  · intro hlen
    rw [handle_load_cmd_payload st env line p g1 i w hp hz hr]
    obtain ⟨h1, h2, h3, h4⟩ := load_payload_timeout { st with g_mods := g1 } env i
      (to_u32 (atoi p.size_str)) (strtoul p.crc_str 16) p.crc_str p.victim_id_buf w s0 hs0 hn
      hmal hlen
    refine ⟨h4, h2, h3, ?_⟩
    rw [h1, slot_at_set_same hs0]
    exact slot_cleanup_clean s0

/-- C17 at a concrete input: `LOAD module_id=m1 size=9 crc32=cbf43926` on the empty
table, with only eight bytes arriving: `LOAD_ERR code=TIMEOUT`, LINE mode, no binary
target, slot 0 clean; the mode was BINARY after eight bytes. -/
theorem load_returns_to_line_mode_witness :
    replied (handle_load_cmd State.init load_env_short load_line_m1).2
      "LOAD_ERR code=TIMEOUT" = true ∧
    ((handle_load_cmd State.init load_env_short load_line_m1).1.g_rx_state
        = rx_state_t.RX_STATE_LINE ∧
      (handle_load_cmd State.init load_env_short load_line_m1).1.g_bin_buf = none) ∧
    slot_is_clean (slot_at (handle_load_cmd State.init load_env_short load_line_m1).1.g_mods 0) ∧
    (serial_cb (load_arm { State.init with g_mods := table_m1_allocated } 0 9)
        (load_env_short.incoming.take 8)).g_rx_state = rx_state_t.RX_STATE_BINARY :=
  ⟨by decide,
   (load_returns_to_line_mode State.init load_env_short load_line_m1 rfl rfl).1,
   ((load_returns_to_line_mode State.init load_env_short load_line_m1 rfl rfl).2.2
      load_params_m1 table_m1_allocated 0 false
      (by decide) (by decide) rfl (by decide)).2.2 (by decide) |>.2.2.2,
   (((load_returns_to_line_mode State.init load_env_short load_line_m1 rfl rfl).2.2
      load_params_m1 table_m1_allocated 0 false
      (by decide) (by decide) rfl (by decide)).2.1 8 (by decide)).mpr (by decide)⟩

/-! ## Serial output -/

/-- C18 fails: `agent_write_str` takes `uart_tx_mutex` and `uart_print_native` takes
`uart_mutex`, two different mutexes, so neither excludes the other. In the schedule
`tx_schedule` the worker takes `uart_mutex` while COMM holds `uart_tx_mutex` in the
middle of the response `START_OK`, and the wire carries `STAhi`, line feed, `RT_OK`,
line feed. -/
theorem uart_print_interleaves_with_response :
    (∀ buf s : CStr,
      (agent_write_str buf).head? = some (tx_op.k_mutex_lock mutex_t.uart_tx_mutex) ∧
      (uart_print_native s).head? = some (tx_op.k_mutex_lock mutex_t.uart_mutex)) ∧
    mutex_t.uart_tx_mutex ≠ mutex_t.uart_mutex ∧
    (tx_run tx_two_writers (tx_schedule.take 5)).held
      = [(mutex_t.uart_mutex, 1), (mutex_t.uart_tx_mutex, 0)] ∧
    tx_run tx_two_writers tx_schedule
      = { held := [], todo := [[], []], wire := "STAhi\nRT_OK\n".toList } := by
  refine ⟨fun buf s => ⟨rfl, rfl⟩, by decide, by decide, by decide⟩

/-! ## Decoder: LINE and BINARY mode -/

theorem byte_char_eq (c : Byte) :
    (Char.ofNat c.val = '\n' ↔ c.val = 10) ∧ (Char.ofNat c.val = '\r' ↔ c.val = 13) ∧
    (Char.ofNat c.val = '\x00' ↔ c.val = 0) := by
  revert c
  decide

/-- LINE mode, a byte that is neither line feed nor carriage return: it is appended to
the line buffer if fewer than 255 characters are held, and dropped otherwise. -/
theorem serial_cb_line_data (bytes : List Byte) (st : State)
    (hm : st.g_rx_state = rx_state_t.RX_STATE_LINE) (hl : st.rx_buf.length ≤ 255)
    (hb : ∀ b ∈ bytes, b.val ≠ 10 ∧ b.val ≠ 13) :
    serial_cb st bytes =
      { st with rx_buf := (st.rx_buf ++ bytes.map (fun b => Char.ofNat b.val)).take 255 } := by
  induction bytes generalizing st with
  | nil =>
    have e : serial_cb st [] = st := rfl
    rw [e]
    simp [List.take_of_length_le hl]
  | cons c rest ih =>
    have e : serial_cb st (c :: rest) = serial_cb (serial_cb_byte st c) rest := rfl
    have hc := hb c (List.mem_cons_self _ _)
    have h1 : ¬ Char.ofNat c.val = '\n' := fun h => hc.1 ((byte_char_eq c).1.mp h)
    have h2 : ¬ Char.ofNat c.val = '\r' := fun h => hc.2 ((byte_char_eq c).2.1.mp h)
    have hL : LINE_BUF_SIZE - 1 = 255 := rfl
    rw [e]
    by_cases hlt : st.rx_buf.length < 255
    · have hbyte : serial_cb_byte st c = { st with rx_buf := st.rx_buf ++ [Char.ofNat c.val] } := by
        unfold serial_cb_byte
        simp [hm, h1, h2, hL, hlt]
      have h3 := ih { st with rx_buf := st.rx_buf ++ [Char.ofNat c.val] } hm
        (by simp; omega) (fun b hb2 => hb b (List.mem_cons_of_mem _ hb2))
      rw [hbyte, h3]
      simp
    · have hbyte : serial_cb_byte st c = st := by
        unfold serial_cb_byte
        simp [hm, h1, h2, hL, hlt]
      rw [hbyte, ih _ hm hl (fun b hb2 => hb b (List.mem_cons_of_mem _ hb2))]
      have h255 : st.rx_buf.length = 255 := by omega
      rw [List.take_append_of_le_length (by omega), List.take_append_of_le_length (by omega)]

theorem take_min_length {α : Type} (l : List α) (n : Nat) : l.take (min l.length n) = l.take n := by
  by_cases h : l.length ≤ n
  · rw [Nat.min_eq_left h, List.take_of_length_le (Nat.le_refl _), List.take_of_length_le h]
  · rw [Nat.min_eq_right (by omega)]

theorem serial_cb_append (st : State) (a b : List Byte) :
    serial_cb st (a ++ b) = serial_cb (serial_cb st a) b := by
  unfold serial_cb
  rw [List.foldl_append]

/-- C19: in LINE mode, starting with an empty line buffer, a sequence of `L ≥ 1` bytes
none of which is line feed or carriage return, followed by one line feed or carriage
return, makes the decoder offer exactly one message to the line queue, at the
terminator and not before; the message holds the first `min L 255` bytes of the
sequence, the bytes beyond the 255th are dropped, and the line buffer is empty
afterwards. If none of the bytes is NUL, the line COMM reads from the message is those
`min L 255` bytes. -/
theorem line_mode_flushes_one_message (st : State) (bytes : List Byte) (term : Byte)
    (hm : st.g_rx_state = rx_state_t.RX_STATE_LINE) (he : st.rx_buf = [])
    (hne : bytes ≠ []) (hb : ∀ b ∈ bytes, b.val ≠ 10 ∧ b.val ≠ 13)
    (ht : term.val = 10 ∨ term.val = 13) :
    serial_cb st (bytes ++ [term]) =
      { st with uart_msgq := k_msgq_put st.uart_msgq
                  ((bytes.take (min bytes.length 255)).map (fun b => Char.ofNat b.val)),
                rx_buf := [] } ∧
    (∀ k, (serial_cb st (bytes.take k)).uart_msgq = st.uart_msgq ∧
      (serial_cb st (bytes.take k)).rx_buf
        = (bytes.take (min k 255)).map (fun b => Char.ofNat b.val)) ∧
    ((∀ b ∈ bytes, b.val ≠ 0) →
      agent_read_line ((bytes.take (min bytes.length 255)).map (fun b => Char.ofNat b.val))
          LINE_BUF_SIZE
        = (bytes.take (min bytes.length 255)).map (fun b => Char.ofNat b.val)) := by
  have hl0 : st.rx_buf.length ≤ 255 := by simp [he]
  refine ⟨?_, ?_, ?_⟩
  · rw [serial_cb_append, serial_cb_line_data bytes st hm hl0 hb, he]
    have e : ∀ s : State, serial_cb s [term] = serial_cb_byte s term := fun _ => rfl
    have hmsg : (bytes.take (min bytes.length 255)).map (fun b => Char.ofNat b.val)
        = (bytes.map (fun b => Char.ofNat b.val)).take 255 := by
      rw [take_min_length, List.map_take]
    have hpos : 0 < ((bytes.map (fun b => Char.ofNat b.val)).take 255).length := by
      cases bytes with
      | nil => exact absurd rfl hne
      | cons a r => simp
    have htc : Char.ofNat term.val = '\n' ∨ Char.ofNat term.val = '\r' := by
      rcases ht with h | h
      · exact Or.inl ((byte_char_eq term).1.mpr h)
      · exact Or.inr ((byte_char_eq term).2.1.mpr h)
    rw [e, hmsg]
    unfold serial_cb_byte
    simp only [List.nil_append, hm, htc, hpos, gt_iff_lt, and_self, if_true]
  · intro k
    rw [serial_cb_line_data (bytes.take k) st hm hl0
      (fun b hb2 => hb b (List.mem_of_mem_take hb2)), he]
    refine ⟨rfl, ?_⟩
    simp only [List.nil_append]
    rw [← List.map_take, List.take_take, Nat.min_comm]
  · intro hz
    unfold agent_read_line
    have hall : ∀ x ∈ (bytes.take (min bytes.length 255)).map (fun b => Char.ofNat b.val),
        x ≠ '\x00' := by
      intro x hx
      obtain ⟨b, hb2, rfl⟩ := List.mem_map.mp hx
      exact fun h => hz b (List.mem_of_mem_take hb2) ((byte_char_eq b).2.2.mp h)
    rw [(takeWhile_all '\x00' _ hall).1]
    apply List.take_of_length_le
    have hL : LINE_BUF_SIZE - 1 = 255 := rfl
    rw [hL]
    simp

/-- C19 at a concrete input: 300 bytes `A` and a carriage return, received after boot:
one message of 255 characters `A` is queued and the line buffer is empty. -/
theorem line_mode_flushes_one_message_witness :
    serial_cb State.init (List.replicate 300 (65 : Byte) ++ [13])
      = { State.init with uart_msgq := [List.replicate 255 'A'], rx_buf := [] } :=
  (line_mode_flushes_one_message State.init (List.replicate 300 65) 13 rfl rfl (by decide)
    (by decide) (by decide)).1.trans (by decide)

/-- BINARY mode with a registered buffer: bytes that do not exceed the expected count
are stored in order from the write position on; nothing else changes except that the
byte completing the count switches to LINE mode and gives the semaphore. -/
theorem serial_cb_binary_state (bs : List Byte) (st : State) (i : Nat) (s : module_slot_t)
    (b : List Byte)
    (hm : st.g_rx_state = rx_state_t.RX_STATE_BINARY) (hb : st.g_bin_buf = some i)
    (hs : st.g_mods[i]? = some s) (hw : s.wasm_buf = some b) (hne : bs ≠ [])
    (hr : st.g_bin_received + bs.length ≤ st.g_bin_expected) :
    serial_cb st bs =
      { st with g_mods := st.g_mods.set i
                  { s with wasm_buf := some (b.take st.g_bin_received ++ bs) },
                g_bin_received := st.g_bin_received + bs.length,
                g_rx_state := if st.g_bin_received + bs.length = st.g_bin_expected
                              then rx_state_t.RX_STATE_LINE else rx_state_t.RX_STATE_BINARY,
                bin_sem := if st.g_bin_received + bs.length = st.g_bin_expected
                           then k_sem_give st.bin_sem else st.bin_sem } := by
  induction bs generalizing st s b with
  | nil => exact absurd rfl hne
  | cons c rest ih =>
    have e : serial_cb st (c :: rest) = serial_cb (serial_cb_byte st c) rest := rfl
    simp only [List.length_cons] at hr
    have hlt : st.g_bin_received < st.g_bin_expected := by omega
    have hstore : bin_store st.g_mods i st.g_bin_received c
        = st.g_mods.set i { s with wasm_buf := some (b.take st.g_bin_received ++ [c]) } := by
      unfold bin_store
      rw [slot_upd_of_get hs]
      simp [hw]
    rw [e]
    cases rest with
    | nil =>
      have e0 : ∀ x : State, serial_cb x [] = x := fun _ => rfl
      rw [e0]
      unfold serial_cb_byte
      by_cases hlast : st.g_bin_received + 1 = st.g_bin_expected
      · simp [hm, hb, hlt, hlast, hstore]
      · simp [hm, hb, hlt, hlast, hstore]
    | cons d rest2 =>
      simp only [List.length_cons] at hr
      have hlast : ¬ st.g_bin_received + 1 = st.g_bin_expected := by omega
      have hbyte : serial_cb_byte st c =
          { st with g_mods := st.g_mods.set i
                      { s with wasm_buf := some (b.take st.g_bin_received ++ [c]) },
                    g_bin_received := st.g_bin_received + 1 } := by
        unfold serial_cb_byte
        simp [hm, hb, hlt, hlast, hstore]
      rw [hbyte]
      have h3 := ih
        { st with g_mods := st.g_mods.set i
                    { s with wasm_buf := some (b.take st.g_bin_received ++ [c]) },
                  g_bin_received := st.g_bin_received + 1 }
        { s with wasm_buf := some (b.take st.g_bin_received ++ [c]) }
        (b.take st.g_bin_received ++ [c]) hm hb (get_set_same hs _) rfl (by simp)
        (by simp only [List.length_cons]; omega)
      rw [h3]
      have ht : (b.take st.g_bin_received ++ [c]).take (st.g_bin_received + 1)
          = b.take st.g_bin_received ++ [c] := by
        apply List.take_of_length_le
        simp
      have ha : st.g_bin_received + 1 + (d :: rest2).length
          = st.g_bin_received + (c :: d :: rest2).length := by
        simp only [List.length_cons]
        omega
      simp only [set_set_same, ht, ha, List.append_assoc, List.singleton_append]

/-- C20: in BINARY mode with a registered destination buffer, expected count `n > 0`
and received count 0, the decoder fed `n` bytes stores exactly those bytes, in arrival
order, as the `n` bytes of the buffer, is in LINE mode afterwards and has given the
completion semaphore once, while the line buffer, the line queue and everything else
are as before. After any shorter part of the input the mode is still BINARY and the
semaphore has not been given. A further byte is handled by the decoder in LINE mode and
does not touch the slot table. -/
theorem binary_mode_fills_buffer (st : State) (i n : Nat) (s : module_slot_t)
    (b0 bytes : List Byte)
    (hm : st.g_rx_state = rx_state_t.RX_STATE_BINARY) (hb : st.g_bin_buf = some i)
    (hs : st.g_mods[i]? = some s) (hw : s.wasm_buf = some b0)
    (he : st.g_bin_expected = n) (hn : 0 < n) (hr : st.g_bin_received = 0)
    (hl : bytes.length = n) :
    serial_cb st bytes =
      { st with g_mods := st.g_mods.set i { s with wasm_buf := some bytes },
                g_bin_received := n, g_rx_state := rx_state_t.RX_STATE_LINE,
                bin_sem := k_sem_give st.bin_sem } ∧
    (∀ k, k < n →
      (serial_cb st (bytes.take k)).g_rx_state = rx_state_t.RX_STATE_BINARY ∧
      (serial_cb st (bytes.take k)).bin_sem = st.bin_sem ∧
      (serial_cb st (bytes.take k)).rx_buf = st.rx_buf ∧
      (serial_cb st (bytes.take k)).uart_msgq = st.uart_msgq ∧
      (0 < k → (slot_at (serial_cb st (bytes.take k)).g_mods i).wasm_buf
        = some (bytes.take k))) ∧
    (∀ c : Byte,
      serial_cb st (bytes ++ [c]) = serial_cb_byte (serial_cb st bytes) c ∧
      (serial_cb st bytes).g_rx_state = rx_state_t.RX_STATE_LINE ∧
      (serial_cb st (bytes ++ [c])).g_mods = (serial_cb st bytes).g_mods ∧
      (slot_at (serial_cb st (bytes ++ [c])).g_mods i).wasm_buf = some bytes) := by
  have hne : bytes ≠ [] := by
    intro e
    rw [e] at hl
    simp at hl
    omega
  have hraw := serial_cb_binary_state bytes st i s b0 hm hb hs hw hne (by omega)
  have hdone : st.g_bin_received + bytes.length = st.g_bin_expected := by omega
  have hfull : serial_cb st bytes =
      { st with g_mods := st.g_mods.set i { s with wasm_buf := some bytes },
                g_bin_received := n, g_rx_state := rx_state_t.RX_STATE_LINE,
                bin_sem := k_sem_give st.bin_sem } := by
    rw [hraw]
    simp only [hdone, if_true]
    simp [hr, he]
  refine ⟨hfull, ?_, ?_⟩
  · intro k hk
    cases k with
    | zero =>
      have e0 : serial_cb st (bytes.take 0) = st := rfl
      rw [e0]
      exact ⟨hm, rfl, rfl, rfl, fun h => absurd h (Nat.lt_irrefl 0)⟩
    | succ j =>
      have hlen : (bytes.take (j + 1)).length = j + 1 := by
        rw [List.length_take]
        omega
      have hne2 : bytes.take (j + 1) ≠ [] := by
        intro e
        rw [e] at hlen
        simp at hlen
      have hpart := serial_cb_binary_state (bytes.take (j + 1)) st i s b0 hm hb hs hw hne2
        (by omega)
      have hnot : ¬ st.g_bin_received + (bytes.take (j + 1)).length = st.g_bin_expected := by
        omega
      rw [hpart]
      refine ⟨by simp only [hnot, if_false], by simp only [hnot, if_false], rfl, rfl,
        fun _ => ?_⟩
      simp [slot_at_set_same hs, hr]
  · intro c
    have hline : (serial_cb st bytes).g_rx_state = rx_state_t.RX_STATE_LINE := by
      rw [hfull]
    have happ : serial_cb st (bytes ++ [c]) = serial_cb_byte (serial_cb st bytes) c := by
      rw [serial_cb_append]
      rfl
    have hg := (serial_cb_byte_line (serial_cb st bytes) c hline).1
    refine ⟨happ, hline, ?_, ?_⟩
    · rw [happ, hg]
    · rw [happ, hg, hfull]
      simp only [slot_at_set_same hs]

/-- C20 at a concrete input: the decoder armed for nine bytes into slot 0 receives the
bytes `123456789` and then a line feed. -/
theorem binary_mode_fills_buffer_witness :
    (slot_at (serial_cb (load_arm { State.init with g_mods := table_m1_allocated } 0 9)
      payload_digits).g_mods 0).wasm_buf = some payload_digits ∧
    (serial_cb (load_arm { State.init with g_mods := table_m1_allocated } 0 9)
      payload_digits).g_rx_state = rx_state_t.RX_STATE_LINE ∧
    (serial_cb (load_arm { State.init with g_mods := table_m1_allocated } 0 9)
      payload_digits).bin_sem = 1 ∧
    (serial_cb (load_arm { State.init with g_mods := table_m1_allocated } 0 9)
      (payload_digits.take 8)).g_rx_state = rx_state_t.RX_STATE_BINARY ∧
    (slot_at (serial_cb (load_arm { State.init with g_mods := table_m1_allocated } 0 9)
      (payload_digits ++ [10])).g_mods 0).wasm_buf = some payload_digits ∧
    (serial_cb (load_arm { State.init with g_mods := table_m1_allocated } 0 9)
      (payload_digits ++ [10])).rx_buf = ['\n'] := by
  have h := binary_mode_fills_buffer
    (load_arm { State.init with g_mods := table_m1_allocated } 0 9) 0 9
    (slot_at (load_arm { State.init with g_mods := table_m1_allocated } 0 9).g_mods 0) []
    payload_digits (by decide) (by decide) (by decide) (by decide) (by decide) (by decide)
    (by decide) (by decide)
  refine ⟨?_, ?_, ?_, (h.2.1 8 (by decide)).1, (h.2.2 10).2.2.2, by decide⟩
  · rw [h.1]
    decide
  · rw [h.1]
  · rw [h.1]
    decide

/-! ## Slot worker: the `RESULT` line -/

theorem strstr_found_iff (hay needle : CStr) :
    strstr_found hay needle = true ↔ needle <:+: hay := by
  induction hay with
  | nil =>
    cases needle with
    | nil => simp [strstr_found]
    | cons a r => simp [strstr_found]
  | cons c rest ih =>
    rw [strstr_found, Bool.or_eq_true, ih, List.isPrefixOf_iff_prefix, List.infix_cons_iff]

theorem snprintf_fits (n : Nat) (t : CStr) (h : t.length < n) : snprintf n t = t := by
  unfold snprintf
  exact List.take_of_length_le (by omega)

/-- When an invocation returns, the slot worker writes exactly one line, the first 255
characters of a `RESULT` line chosen by the outcome alone: call succeeded with a
result: `status=OK ... ret_i32=` and `argv[0]` in unsigned decimal; call succeeded
without result: `status=OK` without `ret_i32`; call failed and the exception text
contains `terminated`: `status=STOPPED` with the text as `msg`; call failed otherwise:
`status=EXCEPTION` with the text, or `<none>` when there is none. The line is
`status=STOPPED` iff the call failed and the text contains `terminated`; the flags
`stop_requested` and `terminate_requested` and the stop timer have no influence on the
line. A line of at most 255 characters is written whole. -/
theorem worker_result_by_outcome (slot : module_slot_t) (req : run_request_t)
    (result_count : Nat) (env : worker_env)
    (ht : slot.thread = k_thread.T_CALL req result_count) :
    (module_worker slot env).2.length = 1 ∧
    (env.call_ok = true → 1 ≤ result_count → (module_worker slot env).2 =
      [snprintf 256 ("RESULT status=OK module_id=".toList ++ slot.module_id
        ++ " func=".toList ++ req.func_name ++ " ret_i32=".toList
        ++ Nat.toDigits 10 (env.call_ret % 2 ^ 32) ++ "\n".toList)]) ∧
    (env.call_ok = true → result_count = 0 → (module_worker slot env).2 =
      [snprintf 256 ("RESULT status=OK module_id=".toList ++ slot.module_id
        ++ " func=".toList ++ req.func_name ++ "\n".toList)]) ∧
    (∀ e, env.call_ok = false → env.exception = some e → "terminated".toList <:+: e →
      (module_worker slot env).2 =
        [snprintf 256 ("RESULT status=STOPPED module_id=".toList ++ slot.module_id
          ++ " func=".toList ++ req.func_name ++ " msg=\"".toList ++ e ++ "\"\n".toList)]) ∧
    (∀ e, env.call_ok = false → env.exception = some e → ¬ "terminated".toList <:+: e →
      (module_worker slot env).2 =
        [snprintf 256 ("RESULT status=EXCEPTION module_id=".toList ++ slot.module_id
          ++ " func=".toList ++ req.func_name ++ " msg=\"".toList ++ e ++ "\"\n".toList)]) ∧
    (env.call_ok = false → env.exception = none → (module_worker slot env).2 =
      [snprintf 256 ("RESULT status=EXCEPTION module_id=".toList ++ slot.module_id
        ++ " func=".toList ++ req.func_name ++ " msg=\"<none>\"\n".toList)]) ∧
    (replied (module_worker slot env).2 "RESULT status=STOPPED" = true ↔
      env.call_ok = false ∧ ∃ e, env.exception = some e ∧ "terminated".toList <:+: e) ∧
    (∀ sr tr dw : Bool,
      (module_worker { slot with stop_requested := sr, terminate_requested := tr,
                                 stop_dwork := dw } env).2 = (module_worker slot env).2) ∧
    (∀ t : CStr, t.length ≤ 255 → snprintf 256 t = t) := by
  have hcut : ∀ t : CStr, t.length ≤ 255 → snprintf 256 t = t :=
    fun t h => snprintf_fits 256 t (by omega)
  have hmw : ∀ s : module_slot_t, s.thread = k_thread.T_CALL req result_count →
      module_worker s env = worker_finish s req result_count env := by
    intro s hs
    unfold module_worker
    rw [hs]
  rw [hmw slot ht]
  refine ⟨rfl, ?_, ?_, ?_, ?_, ?_, ?_, ?_, hcut⟩
  · intro hok hrc
    have : result_count > 0 := hrc
    simp [worker_finish, hok, this, fmt_u, u32_val]
  · intro hok hrc
    simp [worker_finish, hok, hrc]
  · intro e hok he hin
    have hs : strstr_found e ['t', 'e', 'r', 'm', 'i', 'n', 'a', 't', 'e', 'd'] = true :=
      (strstr_found_iff e "terminated".toList).mpr hin
    unfold worker_finish
    simp [hok, he, hs]
  · intro e hok he hin
    have hs : strstr_found e ['t', 'e', 'r', 'm', 'i', 'n', 'a', 't', 'e', 'd'] = false := by
      cases h : strstr_found e "terminated".toList with
      | false => exact h
      | true => exact absurd ((strstr_found_iff e _).mp h) hin
    unfold worker_finish
    simp [hok, he, hs]
  · intro hok he
    simp [worker_finish, hok, he]
  · cases hok : env.call_ok with
    | true =>
      by_cases hrc : result_count > 0
      · simp [worker_finish, hok, hrc, replied, starts_with, snprintf, List.isPrefixOf]
      · simp [worker_finish, hok, hrc, replied, starts_with, snprintf, List.isPrefixOf]
    | false =>
      cases he : env.exception with
      | none => simp [worker_finish, hok, he, replied, starts_with, snprintf, List.isPrefixOf]
      | some e =>
        cases hs : strstr_found e "terminated".toList with
        | true =>
          have hin : ['t', 'e', 'r', 'm', 'i', 'n', 'a', 't', 'e', 'd'] <:+: e := (strstr_found_iff e _).mp hs
          have hs2 : strstr_found e ['t', 'e', 'r', 'm', 'i', 'n', 'a', 't', 'e', 'd'] = true := hs
          unfold worker_finish
          simp [hok, he, hs2, replied, starts_with, snprintf, List.isPrefixOf, hin]
        | false =>
          have hin : ¬ ['t', 'e', 'r', 'm', 'i', 'n', 'a', 't', 'e', 'd'] <:+: e := fun h => by
            have h2 : strstr_found e "terminated".toList = true :=
              (strstr_found_iff e _).mpr h
            rw [h2] at hs
            exact Bool.noConfusion hs
          have hs2 : strstr_found e ['t', 'e', 'r', 'm', 'i', 'n', 'a', 't', 'e', 'd'] = false := hs
          unfold worker_finish
          simp [hok, he, hs2, replied, starts_with, snprintf, List.isPrefixOf, hin]
  · intro sr tr dw
    rw [hmw { slot with stop_requested := sr, terminate_requested := tr, stop_dwork := dw } ht]
    rfl

/-- The result line at concrete inputs: the worker of `m1` returns from `app_main` with
value 55; with the exception `Exception: terminated by user`; with exception text
`long_exception`. -/
theorem worker_result_by_outcome_witness :
    (module_worker slot_m1_in_call worker_env_ok).2
      = ["RESULT status=OK module_id=m1 func=app_main ret_i32=55\n".toList] ∧
    (module_worker slot_m1_in_call worker_env_terminated).2
      = ["RESULT status=STOPPED module_id=m1 func=app_main msg=\"Exception: terminated by user\"\n".toList] ∧
    replied (module_worker slot_m1_in_call worker_env_trap).2 "RESULT status=STOPPED" = false :=
  ⟨((worker_result_by_outcome slot_m1_in_call slot_m1_in_call.req 1 worker_env_ok
      (by decide)).2.1 (by decide) (by decide)).trans (by decide),
   ((worker_result_by_outcome slot_m1_in_call slot_m1_in_call.req 1 worker_env_terminated
      (by decide)).2.2.2.1 _ (by decide) rfl (by decide)).trans (by decide),
   by
     have h := (worker_result_by_outcome slot_m1_in_call slot_m1_in_call.req 1 worker_env_trap
       (by decide)).2.2.2.2.2.2.1
     cases hr : replied (module_worker slot_m1_in_call worker_env_trap).2
       "RESULT status=STOPPED" with
     | false => rfl
     | true =>
       obtain ⟨-, e, he, hin⟩ := h.mp hr
       have he2 : e = long_exception := by
         have : worker_env_trap.exception = some long_exception := rfl
         rw [this] at he
         exact (Option.some.inj he).symm
       rw [he2] at hin
       exact absurd hin (by decide)⟩

/-! ## Slot consistency in every reachable state -/

theorem slot_inv_idle (s : module_slot_t) (hw : s.work_sem = 0) (hb : s.busy = false)
    (hi : s.inst = none) (ht : in_call s.thread = false)
    (hl : s.req.func_name.length ≤ 63) : slot_inv s := by
  unfold slot_inv
  simp [hw, hb, hi, ht, hl]

theorem slot_inv_cleanup (s : module_slot_t) (h : slot_inv s) (hb : s.busy = false) :
    slot_inv (slot_cleanup s) := by
  obtain ⟨h1, h2, h3, h4, h5, h6, h7⟩ := h
  have hw : s.work_sem = 0 := by
    by_contra hne
    have := h4 (Nat.pos_of_ne_zero hne)
    rw [hb] at this
    exact Bool.noConfusion this
  have ht : in_call s.thread = false := by
    cases hc : in_call s.thread with
    | false => rfl
    | true =>
      have := (h5 hc).1
      rw [hb] at this
      exact Bool.noConfusion this
  exact slot_inv_idle _ hw rfl rfl ht h7

theorem slot_inv_force_stop (s : module_slot_t) (h : slot_inv s) :
    slot_inv (slot_cleanup (load_force_stop s)) := by
  have h7 := h.2.2.2.2.2.2
  apply slot_inv_idle <;> simp [slot_cleanup, load_force_stop, slot_ensure_worker,
    slot_abort_worker, in_call, h7]

theorem slot_inv_fresh (id : CStr) : slot_inv (slot_fresh id) := by
  apply slot_inv_idle <;> simp [slot_fresh, slot_ensure_worker, slot_zero, in_call]

theorem slot_inv_rename (s : module_slot_t) (id : CStr) (h : slot_inv s) :
    slot_inv { s with module_id := id } := h

theorem slot_inv_buf (s : module_slot_t) (b : Option (List Byte)) (h : slot_inv s) :
    slot_inv { s with wasm_buf := b } := h

theorem slot_inv_timer (s : module_slot_t) (d t : Bool) (h : slot_inv s) :
    slot_inv { s with terminate_requested := t, stop_dwork := d } := h

theorem slot_inv_loaded (s0 : module_slot_t) (h : slot_inv s0) (hc : slot_is_clean s0)
    (b : Option (List Byte)) (n : Nat) (m k e : Option Nat) :
    slot_inv { s0 with wasm_buf := b, wasm_size := n, module := m, inst := k, exec_env := e,
                       state := mod_state_t.MOD_LOADED } := by
  obtain ⟨h1, h2, h3, h4, h5, h6, h7⟩ := h
  have hb : s0.busy = false := hc.2.2.2.2.2.2.1
  refine ⟨h1, ?_, fun _ => Or.inl rfl, h4, h5, h6, h7⟩
  intro hbusy
  have : s0.busy = true := hbusy
  rw [hb] at this
  exact Bool.noConfusion this

theorem slot_inv_worker_dispatch (s : module_slot_t) (env : worker_env)
    (h : slot_inv s) (hpos : s.work_sem ≠ 0) :
    slot_inv (worker_dispatch { s with work_sem := s.work_sem - 1 } env).1 := by
  obtain ⟨h1, h2, h3, h4, h5, h6, h7⟩ := h
  have hw : s.work_sem - 1 = 0 := by omega
  have hb : s.busy = true := h4 (Nat.pos_of_ne_zero hpos)
  have hi : s.inst ≠ none := h2 hb
  have hni : s.inst.isNone = false := by
    cases hx : s.inst with
    | none => exact absurd hx hi
    | some k => rfl
  unfold worker_dispatch
  simp only [hni, Bool.false_eq_true, if_false]
  cases env.lookup with
  | none =>
    refine ⟨by simp [hw], by simp, fun _ => Or.inl rfl, by simp [hw], by simp [in_call],
      by simp, h7⟩
  | some rc =>
    simp only
    cases hcr : (if s.exec_env.isSome = true then s.exec_env else env.exec_env_result) with
    | none =>
      simp only
      refine ⟨by simp [hw], by simp, fun _ => Or.inl rfl, by simp [hw], by simp [in_call],
        by simp, h7⟩
    | some e =>
      simp only
      refine ⟨by simp [hw], fun _ => hi, fun _ => Or.inr rfl, by simp [hw],
        fun _ => ⟨hb, hw⟩, fun _ => h6 hb, h7⟩

theorem slot_inv_worker_finish (s : module_slot_t) (req : run_request_t) (rc : Nat)
    (env : worker_env) (h : slot_inv s) (hc : in_call s.thread = true) :
    slot_inv (worker_finish s req rc env).1 := by
  obtain ⟨h1, h2, h3, h4, h5, h6, h7⟩ := h
  obtain ⟨hb, hw⟩ := h5 hc
  have hi := h2 hb
  have his : s.inst.isSome = true := by
    cases hx : s.inst with
    | none => exact absurd hx hi
    | some k => rfl
  unfold worker_finish
  refine ⟨by simp [hw], by simp, fun _ => ?_, by simp [hw], by simp [in_call], by simp, h7⟩
  simp [his]

theorem slot_inv_module_worker (s : module_slot_t) (env : worker_env) (h : slot_inv s) :
    slot_inv (module_worker s env).1 := by
  unfold module_worker
  split
  · exact h
  · exact h
  · obtain ⟨h1, h2, h3, h4, h5, h6, h7⟩ := h
    split
    · refine ⟨h1, h2, h3, h4, by simp [in_call], h6, h7⟩
    · refine ⟨h1, h2, h3, h4, by simp [in_call], h6, h7⟩
  · split
    · exact h
    · rename_i hne
      exact slot_inv_worker_dispatch s env h hne
  · rename_i req rc ht
    exact slot_inv_worker_finish s req rc env h (by simp [ht, in_call])

theorem slot_inv_stop_dwork (s : module_slot_t) (env : stop_env) (h : slot_inv s) :
    slot_inv (stop_dwork_handler s env).1 := by
  unfold stop_dwork_handler
  split
  · exact h
  · have h7 := h.2.2.2.2.2.2
    simp only [slot_abort_worker, slot_ensure_worker]
    cases env.instantiate_result with
    | none =>
      apply slot_inv_idle <;> simp [in_call, h7]
    | some inst =>
      cases env.exec_env_result with
      | none => apply slot_inv_idle <;> simp [in_call, h7]
      | some e =>
        refine ⟨by simp, by simp, fun _ => by simp, by simp, by simp [in_call], by simp,
          by simp [h7]⟩

theorem table_inv_set {g : List module_slot_t} {i : Nat} {x : module_slot_t}
    (h : table_inv g) (hx : slot_inv x) : table_inv (g.set i x) := by
  intro s hs
  rcases List.mem_or_eq_of_mem_set hs with h1 | h1
  · exact h s h1
  · rw [h1]
    exact hx

theorem table_inv_upd {g : List module_slot_t} {i : Nat} {f : module_slot_t → module_slot_t}
    (h : table_inv g) (hf : ∀ s, g[i]? = some s → slot_inv (f s)) :
    table_inv (slot_upd g i f) := by
  unfold slot_upd
  cases hs : g[i]? with
  | none => exact h
  | some s => exact table_inv_set h (hf s hs)

theorem serial_cb_byte_table_inv (st : State) (c : Byte) (h : table_inv st.g_mods) :
    table_inv (serial_cb_byte st c).g_mods := by
  unfold serial_cb_byte
  cases st.g_rx_state with
  | RX_STATE_LINE =>
    simp only
    split
    · exact h
    · split <;> exact h
  | RX_STATE_BINARY =>
    simp only
    cases st.g_bin_buf with
    | none => exact h
    | some i =>
      simp only
      have hb : table_inv (bin_store st.g_mods i st.g_bin_received c) := by
        unfold bin_store
        apply table_inv_upd h
        intro s hs
        cases s.wasm_buf with
        | none => exact h s (mem_of_get hs)
        | some b => exact slot_inv_buf s _ (h s (mem_of_get hs))
      split
      · split <;> exact hb
      · exact h

theorem serial_cb_table_inv (bytes : List Byte) (st : State) (h : table_inv st.g_mods) :
    table_inv (serial_cb st bytes).g_mods := by
  induction bytes generalizing st with
  | nil => exact h
  | cons c rest ih => exact ih (serial_cb_byte st c) (serial_cb_byte_table_inv st c h)

/-- The table a `LOAD` leaves: the one it found, or the resolved table with the (clean,
used) target slot either as resolution left it or LOADED with the received bytes. -/
theorem handle_load_cmd_final (st : State) (env : load_env) (line : CStr) :
    (handle_load_cmd st env line).1.g_mods = st.g_mods ∨
    ∃ p g1 i w s0, load_parse line = some p ∧ to_u32 (atoi p.size_str) ≠ 0 ∧
      load_resolve st.g_mods p.module_id_buf p.victim_id_buf p.do_replace p.have_victim
        = Except.ok (g1, i, w) ∧
      g1[i]? = some s0 ∧ slot_is_clean s0 ∧ s0.used = true ∧
      ((handle_load_cmd st env line).1.g_mods = g1 ∨
       ∃ m k e, (handle_load_cmd st env line).1.g_mods =
         g1.set i { s0 with wasm_buf := some (env.incoming.take (to_u32 (atoi p.size_str))),
                            wasm_size := to_u32 (atoi p.size_str),
                            module := some m, inst := some k, exec_env := some e,
                            state := mod_state_t.MOD_LOADED }) := by
  rcases handle_load_cmd_cases st env line with ⟨-, e⟩ | ⟨p, hp, ⟨-, e⟩ | ⟨hz, h⟩⟩
  · exact Or.inl (by rw [e])
  · exact Or.inl (by rw [e])
  · rcases h with ⟨reply, -, e⟩ | ⟨g1, i, w, hr, e⟩
    · exact Or.inl (by rw [e])
    · obtain ⟨s0, hs0, hc, hu⟩ := load_resolve_clean hr
      refine Or.inr ⟨p, g1, i, w, s0, hp, hz, hr, hs0, hc, hu, ?_⟩
      rw [e]
      rcases load_payload_outcome { st with g_mods := g1 } env i (to_u32 (atoi p.size_str))
        (strtoul p.crc_str 16) p.crc_str p.victim_id_buf w s0 hs0 (Nat.pos_of_ne_zero hz) hc
        with ⟨-, -, -, m, k, x, -, -, -, hg, -⟩ | ⟨hg, -⟩
      · exact Or.inr ⟨m, k, x, hg⟩
      · exact Or.inl hg

theorem load_resolve_table_inv {g : List module_slot_t} {id vid : CStr} {rep hv : Bool}
    {g1 : List module_slot_t} {i : Nat} {w : Bool}
    (h : load_resolve g id vid rep hv = Except.ok (g1, i, w)) (hinv : table_inv g) :
    table_inv g1 := by
  obtain ⟨sold, s0, hs, hg1, hcase⟩ := load_resolve_ok h
  have hsold := hinv sold (mem_of_get hs)
  have hclean : slot_inv (slot_cleanup (if sold.busy then load_force_stop sold else sold)) := by
    cases hb : sold.busy with
    | true =>
      simp only [if_true]
      exact slot_inv_force_stop sold hsold
    | false =>
      simp only [Bool.false_eq_true, if_false]
      exact slot_inv_cleanup sold hsold hb
  rw [hg1]
  apply table_inv_set hinv
  rcases hcase with ⟨-, -, e, -⟩ | ⟨-, -, e, -⟩ | ⟨-, -, -, -, -, e, -⟩
  · rw [e]
    exact hclean
  · rw [e]
    exact slot_inv_fresh id
  · rw [e]
    exact slot_inv_rename _ _ hclean

theorem handle_load_cmd_table_inv (st : State) (env : load_env) (line : CStr)
    (h : table_inv st.g_mods) : table_inv (handle_load_cmd st env line).1.g_mods := by
  rcases handle_load_cmd_final st env line with e | ⟨p, g1, i, w, s0, -, -, hr, hs0, hc, -, e⟩
  · rw [e]
    exact h
  · have hg1 := load_resolve_table_inv hr h
    rcases e with e | ⟨m, k, x, e⟩
    · rw [e]
      exact hg1
    · rw [e]
      exact table_inv_set hg1 (slot_inv_loaded s0 (hg1 s0 (mem_of_get hs0)) hc _ _ _ _ _)

theorem take_ne_nil (f : CStr) (h : f ≠ []) : f.take 63 ≠ [] := by
  cases f with
  | nil => exact absurd rfl h
  | cons a r => simp

theorem handle_start_cmd_table_inv (st : State) (env : start_env) (line : CStr)
    (h : table_inv st.g_mods) : table_inv (handle_start_cmd st env line).1.g_mods := by
  unfold handle_start_cmd
  split
  · exact h
  · simp only
    split
    · exact h
    · rename_i p_mod i hf
      obtain ⟨s, hs, -, -⟩ := slot_find_some hf
      simp only [slot_at_of_get hs]
      split
      · exact h
      · rename_i hinst
        split
        · exact h
        · split
          · exact h
          · rename_i hbusy
            split
            · split <;> exact h
            · apply table_inv_upd h
              intro s2 hs2
              rw [hs] at hs2
              have e2 : s = s2 := Option.some.inj hs2
              subst e2
              obtain ⟨h1, h2, h3, h4, h5, h6, h7⟩ := h s (mem_of_get hs)
              have hb : s.busy = false := by simpa using hbusy
              have hw : s.work_sem = 0 := by
                by_contra hne
                have := h4 (Nat.pos_of_ne_zero hne)
                rw [hb] at this
                exact Bool.noConfusion this
              have hi : s.inst ≠ none := by
                intro e
                rw [e] at hinst
                simp at hinst
              have hc : in_call s.thread = false := by
                cases hcc : in_call s.thread with
                | false => rfl
                | true =>
                  have := (h5 hcc).1
                  rw [hb] at this
                  exact Bool.noConfusion this
              refine ⟨by simp [hw, k_sem_give], fun _ => hi, h3, fun _ => rfl, ?_, ?_, ?_⟩
              · intro hcc
                have hcc2 : in_call s.thread = true := hcc
                rw [hc] at hcc2
                exact Bool.noConfusion hcc2
              · intro _
                apply take_ne_nil
                split
                · decide
                · rename_i hne
                  intro e
                  rw [e] at hne
                  simp at hne
              · simp only [List.length_take]
                omega

theorem handle_stop_cmd_table_inv (st : State) (line : CStr) (h : table_inv st.g_mods) :
    table_inv (handle_stop_cmd st line).1.g_mods := by
  unfold handle_stop_cmd
  split
  · exact h
  · simp only
    split
    · exact h
    · split
      · exact h
      · apply table_inv_upd h
        intro s hs
        exact slot_inv_timer s _ _ (h s (mem_of_get hs))

theorem handle_command_line_table_inv (st : State) (env : cmd_env) (line : CStr)
    (h : table_inv st.g_mods) : table_inv (handle_command_line st env line).1.g_mods := by
  unfold handle_command_line
  dsimp only
  generalize (if line.getLast? = some '\n' ∨ line.getLast? = some '\r' then line.dropLast
    else line) = line1
  split
  · exact h
  · split
    · exact handle_load_cmd_table_inv _ _ _ h
    · split
      · exact handle_start_cmd_table_inv _ _ _ h
      · split
        · exact handle_stop_cmd_table_inv _ _ h
        · split <;> exact h

theorem step_table_inv (st : State) (e : Event) (h : table_inv st.g_mods) :
    table_inv (step st e).1.g_mods := by
  cases e with
  | rx bytes => exact serial_cb_table_inv bytes st h
  | command env =>
    simp only [step]
    split
    · exact h
    · split
      · exact h
      · exact handle_command_line_table_inv _ _ _ h
  | worker i env =>
    simp only [step]
    split
    · rename_i s hs
      exact table_inv_set h (slot_inv_module_worker s env (h s (mem_of_get hs)))
    · exact h
  | timer i env =>
    simp only [step]
    split
    · rename_i s hs
      split
      · exact table_inv_set h (slot_inv_stop_dwork _ env
          (slot_inv_timer s false s.terminate_requested (h s (mem_of_get hs))))
      · exact h
    · exact h

/-- Every slot is consistent in every state reached from a consistent table. -/
theorem run_table_inv (events : List Event) (st : State) (h : table_inv st.g_mods) :
    table_inv (run st events).1.g_mods := by
  induction events generalizing st with
  | nil => exact h
  | cons e es ih => exact ih (step st e).1 (step_table_inv st e h)

theorem boot_table_slot_inv : table_inv State.init.g_mods := by
  intro s hs
  have e : s = slot_zero := by
    simp [State.init, MAX_MODULES] at hs
    exact hs
  rw [e]
  decide

/-! ## After an invocation, and stop escalation -/

/-- The escalation handler when its four preconditions hold: what it leaves in the
slot and the line it writes. -/
theorem stop_dwork_handler_fires (s : module_slot_t) (env : stop_env)
    (hu : s.used = true) (hb : s.busy = true) (hi : s.inst ≠ none)
    (ht : s.terminate_requested = true) :
    (stop_dwork_handler s env).1.module = s.module ∧
    (stop_dwork_handler s env).1.wasm_buf = s.wasm_buf ∧
    (stop_dwork_handler s env).1.wasm_size = s.wasm_size ∧
    (stop_dwork_handler s env).1.busy = false ∧
    (stop_dwork_handler s env).1.stop_requested = false ∧
    (stop_dwork_handler s env).1.terminate_requested = false ∧
    (∀ k e, env.instantiate_result = some k → env.exec_env_result = some e →
      (stop_dwork_handler s env).1.state = mod_state_t.MOD_LOADED ∧
      (stop_dwork_handler s env).1.inst = some k ∧
      (stop_dwork_handler s env).1.exec_env = some e) ∧
    ((env.instantiate_result = none ∨ env.exec_env_result = none) →
      (stop_dwork_handler s env).1.state = mod_state_t.MOD_EMPTY ∧
      (stop_dwork_handler s env).1.inst = none ∧
      (stop_dwork_handler s env).1.exec_env = none) ∧
    (stop_dwork_handler s env).2 =
      [snprintf 256 ("RESULT status=STOPPED forced=1 module_id=".toList ++ s.module_id
        ++ " func=".toList
        ++ (if s.req.func_name.isEmpty then "<unknown>".toList else s.req.func_name)
        ++ "\n".toList)] := by
  have hin : s.inst.isNone = false := by
    cases h : s.inst with
    | none => exact absurd h hi
    | some k => rfl
  unfold stop_dwork_handler
  simp only [hu, hb, hin, ht, Bool.not_true, Bool.or_self, Bool.false_eq_true, if_false,
    slot_abort_worker, slot_ensure_worker]
  cases hir : env.instantiate_result with
  | none => simp
  | some k =>
    cases her : env.exec_env_result with
    | none => simp
    | some e => simp

theorem stop_dwork_handler_idle (s : module_slot_t) (env : stop_env)
    (h : s.used = false ∨ s.busy = false ∨ s.inst = none ∨ s.terminate_requested = false) :
    stop_dwork_handler s env = (s, []) := by
  unfold stop_dwork_handler
  rcases h with h | h | h | h <;> simp [h]

/-- C23: on expiry of the stop timer of a slot, in any state reached from boot,
`stop_dwork_handler` changes nothing and writes nothing unless the slot is used, busy,
has an instance and has `terminate_requested` set. When all four hold it keeps the
module handle, the bytecode and `wasm_size`, replaces instance and exec env by the
results of re-instantiation, ends with `busy`, `stop_requested` and
`terminate_requested` false, with state LOADED if re-instantiation and exec-env
creation both succeeded and otherwise state EMPTY without instance and exec env, and
writes exactly one line,
`RESULT status=STOPPED forced=1 module_id=<id> func=<pending function name>`. -/
theorem stop_escalation_contract (events : List Event) (i : Nat) (s : module_slot_t)
    (env : stop_env) (hs : (run State.init events).1.g_mods[i]? = some s) :
    ((s.used = false ∨ s.busy = false ∨ s.inst = none ∨ s.terminate_requested = false) →
      stop_dwork_handler s env = (s, [])) ∧
    (s.used = true → s.busy = true → s.inst ≠ none → s.terminate_requested = true →
      (stop_dwork_handler s env).1.module = s.module ∧
      (stop_dwork_handler s env).1.wasm_buf = s.wasm_buf ∧
      (stop_dwork_handler s env).1.wasm_size = s.wasm_size ∧
      (stop_dwork_handler s env).1.busy = false ∧
      (stop_dwork_handler s env).1.stop_requested = false ∧
      (stop_dwork_handler s env).1.terminate_requested = false ∧
      (∀ k e, env.instantiate_result = some k → env.exec_env_result = some e →
        (stop_dwork_handler s env).1.state = mod_state_t.MOD_LOADED ∧
        (stop_dwork_handler s env).1.inst = some k ∧
        (stop_dwork_handler s env).1.exec_env = some e) ∧
      ((env.instantiate_result = none ∨ env.exec_env_result = none) →
        (stop_dwork_handler s env).1.state = mod_state_t.MOD_EMPTY ∧
        (stop_dwork_handler s env).1.inst = none ∧
        (stop_dwork_handler s env).1.exec_env = none) ∧
      (stop_dwork_handler s env).2 =
        ["RESULT status=STOPPED forced=1 module_id=".toList ++ s.module_id
          ++ " func=".toList ++ s.req.func_name ++ "\n".toList]) := by
  refine ⟨stop_dwork_handler_idle s env, ?_⟩
  intro hu hb hi ht
  obtain ⟨h1, h2, h3, h4, h5, h6, h7, h8, h9⟩ := stop_dwork_handler_fires s env hu hb hi ht
  refine ⟨h1, h2, h3, h4, h5, h6, h7, h8, ?_⟩
  have hinv := run_table_inv events State.init boot_table_slot_inv s (mem_of_get hs)
  have hwf := (reachable_table_inv events State.init boot_table_inv).1.2 s (mem_of_get hs)
  have hne : s.req.func_name ≠ [] := hinv.2.2.2.2.2.1 hb
  have hlen : s.req.func_name.length ≤ 63 := hinv.2.2.2.2.2.2
  have hemp : s.req.func_name.isEmpty = false := by
    cases hx : s.req.func_name with
    | nil => exact absurd hx hne
    | cons a r => rfl
  rw [h9, hemp]
  simp only [Bool.false_eq_true, if_false]
  rw [snprintf_fits]
  simp only [List.length_append]
  have e1 : "RESULT status=STOPPED forced=1 module_id=".toList.length = 41 := by decide
  have e2 : " func=".toList.length = 6 := by decide
  have e3 : "\n".toList.length = 1 := by decide
  rw [e1, e2, e3]
  omega

/-- C24: in every state reached from boot by any sequence of ISR, command, worker and
timer steps, a slot with `busy` set has state LOADED or RUNNING and an instance; and a
slot whose worker is inside an invocation is busy and has an instance. -/
theorem busy_slot_has_instance (events : List Event) (i : Nat) (s : module_slot_t)
    (hs : (run State.init events).1.g_mods[i]? = some s) :
    (s.busy = true →
      (s.state = mod_state_t.MOD_LOADED ∨ s.state = mod_state_t.MOD_RUNNING) ∧
      s.inst ≠ none) ∧
    (∀ req rc, s.thread = k_thread.T_CALL req rc → s.busy = true ∧ s.inst ≠ none) := by
  obtain ⟨-, h2, h3, -, h5, -, -⟩ :=
    run_table_inv events State.init boot_table_slot_inv s (mem_of_get hs)
  refine ⟨fun hb => ⟨h3 (h2 hb), h2 hb⟩, ?_⟩
  intro req rc ht
  have hb := (h5 (by simp [ht, in_call])).1
  exact ⟨hb, h2 hb⟩

/-- C23 at a concrete input: the stop timer of `m1` expires while the worker is still
inside the call; re-instantiation succeeds. -/
theorem stop_escalation_contract_witness :
    (stop_dwork_handler (slot_at (run State.init events_m1_stop_pending).1.g_mods 0)
      { instantiate_result := some 5, exec_env_result := some 6 }).2
      = ["RESULT status=STOPPED forced=1 module_id=m1 func=app_main\n".toList] ∧
    (stop_dwork_handler (slot_at (run State.init events_m1_stop_pending).1.g_mods 0)
      { instantiate_result := some 5, exec_env_result := some 6 }).1.state
      = mod_state_t.MOD_LOADED ∧
    stop_dwork_handler (slot_at (run State.init events_m1_in_call).1.g_mods 0)
      { instantiate_result := some 5, exec_env_result := some 6 }
      = (slot_at (run State.init events_m1_in_call).1.g_mods 0, []) := by
  have h := (stop_escalation_contract events_m1_stop_pending 0
    (slot_at (run State.init events_m1_stop_pending).1.g_mods 0)
    { instantiate_result := some 5, exec_env_result := some 6 } (by decide)).2
    (by decide) (by decide) (by decide) (by decide)
  exact ⟨h.2.2.2.2.2.2.2.2.trans (by decide), (h.2.2.2.2.2.2.1 5 6 rfl rfl).1,
    (stop_escalation_contract events_m1_in_call 0
      (slot_at (run State.init events_m1_in_call).1.g_mods 0)
      { instantiate_result := some 5, exec_env_result := some 6 } (by decide)).1
      (Or.inr (Or.inr (Or.inr (by decide))))⟩

/-- C24 at a concrete input: while `m1` runs `app_main` its slot is busy, RUNNING and
has its instance. -/
theorem busy_slot_has_instance_witness :
    (slot_at (run State.init events_m1_in_call).1.g_mods 0).busy = true ∧
    ((slot_at (run State.init events_m1_in_call).1.g_mods 0).state = mod_state_t.MOD_LOADED ∨
      (slot_at (run State.init events_m1_in_call).1.g_mods 0).state
        = mod_state_t.MOD_RUNNING) ∧
    (slot_at (run State.init events_m1_in_call).1.g_mods 0).inst ≠ none :=
  ⟨by decide,
   ((busy_slot_has_instance events_m1_in_call 0
      (slot_at (run State.init events_m1_in_call).1.g_mods 0) (by decide)).1 (by decide)).1,
   ((busy_slot_has_instance events_m1_in_call 0
      (slot_at (run State.init events_m1_in_call).1.g_mods 0) (by decide)).1 (by decide)).2⟩

/-! ## Parameter values -/

theorem copy_param_loop_plain (n : Nat) (v tail : CStr) (i : Nat)
    (hv : ∀ c ∈ v, c ≠ '\x00' ∧ c ≠ ' ' ∧ c ≠ '\r' ∧ c ≠ '\n')
    (htail : ∀ c, tail.head? = some c → c = '\x00' ∨ c = ' ' ∨ c = '\r' ∨ c = '\n') :
    copy_param_loop n (v ++ tail) i = v.take (n - 1 - i) := by
  induction v generalizing i with
  | nil =>
    cases tail with
    | nil => simp [copy_param_loop]
    | cons t r =>
      have := htail t rfl
      simp [copy_param_loop, this]
  | cons c cs ih =>
    obtain ⟨h1, h2, h3, h4⟩ := hv c (List.mem_cons_self _ _)
    have hrest := ih (i + 1) (fun x hx => hv x (List.mem_cons_of_mem _ hx))
    simp only [List.cons_append, copy_param_loop, h1, h2, h3, h4, or_self, if_false,
      List.append_eq]
    by_cases hlt : i + 1 < n
    · have e : n - 1 - i = (n - 1 - (i + 1)) + 1 := by omega
      simp only [hlt, if_true]
      rw [hrest, e, List.take_succ_cons]
    · have e1 : n - 1 - (i + 1) = 0 := by omega
      have e2 : n - 1 - i = 0 := by omega
      simp only [hlt, if_false]
      rw [hrest, e1, e2]
      rfl

/-- C25, as stated, fails: the value parsed from `module_id="m1"` is `"m1"` with its
quotes, not `m1`, so `START module_id="m1"` is answered `NO_MODULE` where
`START module_id=m1` is accepted; `func="f"` is parsed as `"f"`; and `size="9"` is read
by `atoi` as 0, so the `LOAD` is answered `BAD_PARAMS`. -/
theorem quoted_value_keeps_quotes :
    (find_param "module_id=\"m1\" func=\"f\"".toList "module_id".toList).map
        (fun p => copy_param_value p 32) = some "\"m1\"".toList ∧
    (find_param "module_id=m1 func=f".toList "module_id".toList).map
        (fun p => copy_param_value p 32) = some "m1".toList ∧
    (find_param "module_id=\"m1\" func=\"f\"".toList "func".toList).map
        (fun p => copy_param_value p 64) = some "\"f\"".toList ∧
    (handle_start_cmd state_m1_loaded start_env_ok "module_id=\"m1\"".toList).2
      = ["RESULT status=NO_MODULE\n".toList] ∧
    (handle_start_cmd state_m1_loaded start_env_ok "module_id=m1".toList).2
      = ["START_OK\n".toList] ∧
    (handle_load_cmd State.init (load_env_ok payload_digits)
        "module_id=m1 size=\"9\" crc32=cbf43926".toList).2
      = ["LOAD_ERR code=BAD_PARAMS msg=\"size=0\"\n".toList] ∧
    replied (handle_load_cmd State.init (load_env_ok payload_digits)
        "module_id=m1 size=9 crc32=\"cbf43926\"".toList).2 "LOAD_ERR code=BAD_CRC" = true ∧
    replied (handle_load_cmd State.init (load_env_ok payload_digits)
        "module_id=m1 size=9 crc32=cbf43926".toList).2 "LOAD_OK" = true := by
  decide

/-- C25 (amended): the value `copy_param_value` parses for a key (as for `module_id`,
`func`, `size` and `crc32`) is the text after `key=` up to the first space, carriage
return, line feed or end of the line, cut to the destination buffer; a double quote is
an ordinary character. For a value `v` without those characters, `key=v` parses to
`v` and `key="v"` parses to `"v"` with both quotes (each cut to `dst_len - 1`
characters), and the two differ whenever `v` fits the buffer. -/
theorem param_value_is_taken_bare (line key v tail : CStr) (dst_len : Nat)
    (hv : ∀ c ∈ v, c ≠ '\x00' ∧ c ≠ ' ' ∧ c ≠ '\r' ∧ c ≠ '\n')
    (htail : ∀ c, tail.head? = some c → c = '\x00' ∨ c = ' ' ∨ c = '\r' ∨ c = '\n') :
    (find_param line key = some (v ++ tail) →
      (find_param line key).map (fun p => copy_param_value p dst_len)
        = some (v.take (dst_len - 1))) ∧
    (find_param line key = some ('"' :: (v ++ '"' :: tail)) →
      (find_param line key).map (fun p => copy_param_value p dst_len)
        = some (('"' :: (v ++ ['"'])).take (dst_len - 1)) ∧
      (v.length + 1 < dst_len →
        (find_param line key).map (fun p => copy_param_value p dst_len) ≠ some v)) := by
  have hq : ∀ c ∈ '"' :: (v ++ ['"']), c ≠ '\x00' ∧ c ≠ ' ' ∧ c ≠ '\r' ∧ c ≠ '\n' := by
    intro c hc
    simp only [List.mem_cons, List.mem_append, List.mem_singleton, List.not_mem_nil,
      or_false] at hc
    rcases hc with h | h | h
    · subst h
      decide
    · exact hv c h
    · subst h
      decide
  have e : '"' :: (v ++ '"' :: tail) = ('"' :: (v ++ ['"'])) ++ tail := by simp
  constructor
  · intro h
    rw [h]
    simp only [Option.map_some', copy_param_value]
    rw [copy_param_loop_plain dst_len v tail 0 hv htail]
    rfl
  · intro h
    have hval : (find_param line key).map (fun p => copy_param_value p dst_len)
        = some (('"' :: (v ++ ['"'])).take (dst_len - 1)) := by
      rw [h, e]
      simp only [Option.map_some', copy_param_value]
      rw [copy_param_loop_plain dst_len _ tail 0 hq htail]
      rfl
    refine ⟨hval, ?_⟩
    intro hfit
    rw [hval]
    intro heq
    have hl := congrArg List.length (Option.some.inj heq)
    simp only [List.length_take, List.length_cons, List.length_append, List.length_nil] at hl
    omega

/-- C25 at a concrete input: `module_id="m1" func="f"`. -/
theorem param_value_is_taken_bare_witness :
    (find_param "module_id=\"m1\" func=\"f\"".toList "module_id".toList).map
        (fun p => copy_param_value p 32) = some "\"m1\"".toList ∧
    (find_param "module_id=\"m1\" func=\"f\"".toList "module_id".toList).map
        (fun p => copy_param_value p 32) ≠ some "m1".toList ∧
    (find_param "module_id=m1 func=f".toList "func".toList).map
        (fun p => copy_param_value p 64) = some "f".toList := by
  have h := (param_value_is_taken_bare "module_id=\"m1\" func=\"f\"".toList
    "module_id".toList "m1".toList " func=\"f\"".toList 32 (by decide) (by decide)).2 rfl
  have h2 := (param_value_is_taken_bare "module_id=m1 func=f".toList "func".toList
    "f".toList [] 64 (by decide) (by decide)).1 rfl
  exact ⟨h.1.trans (by decide), h.2 (by decide), h2.trans (by decide)⟩

/-! ## Distinct ids and used slots -/

/-- C26: in every state reached from boot by any sequence of ISR, command (`LOAD`,
`START`, `STOP`, `STATUS`), worker and timer steps, every `module_id` has at most 31
characters and no two used slots hold the same `module_id`; hence the slot `slot_find`
returns for an id is the only used slot whose id matches it. -/
theorem reachable_ids_unique (events : List Event) :
    (run State.init events).1.g_mods.length = MAX_MODULES ∧
    (∀ s ∈ (run State.init events).1.g_mods, s.module_id.length ≤ 31) ∧
    (∀ (i j : Nat) (s t : module_slot_t),
      (run State.init events).1.g_mods[i]? = some s →
      (run State.init events).1.g_mods[j]? = some t →
      s.used = true → t.used = true → s.module_id = t.module_id → i = j) ∧
    (∀ (id : CStr) (i j : Nat) (t : module_slot_t),
      slot_find (run State.init events).1.g_mods id = some i →
      (run State.init events).1.g_mods[j]? = some t → t.used = true →
      strncmp_eq t.module_id id 32 = true → j = i) := by
  obtain ⟨hwf, hu⟩ := reachable_table_inv events State.init boot_table_inv
  refine ⟨hwf.1, hwf.2, hu, ?_⟩
  intro id i j t hf ht htu hcmp
  obtain ⟨s, hs, hsu, hscmp⟩ := slot_find_some hf
  have hls := hwf.2 s (mem_of_get hs)
  have hlt := hwf.2 t (mem_of_get ht)
  have e : s.module_id = t.module_id := by
    unfold strncmp_eq at hcmp hscmp
    have h1 : s.module_id.take 32 = id.take 32 := by simpa using hscmp
    have h2 : t.module_id.take 32 = id.take 32 := by simpa using hcmp
    apply take_eq_of_short 32 (by omega) (by omega)
    rw [h1, h2]
  exact (hu i j s t hs ht hsu htu e).symm

/-- C26 at a concrete input: after `m1`, `m2` are loaded and `m1` is replaced by `m3`,
the used slots hold `m3` and `m2`, no slot is found for `m1`, and slot 0 is the only
used slot matching `m3`. -/
theorem reachable_ids_unique_witness :
    (slot_at (run State.init events_rename).1.g_mods 0).module_id = "m3".toList ∧
    (slot_at (run State.init events_rename).1.g_mods 1).module_id = "m2".toList ∧
    slot_find (run State.init events_rename).1.g_mods "m1".toList = none ∧
    ∀ (j : Nat) (t : module_slot_t), (run State.init events_rename).1.g_mods[j]? = some t →
      t.used = true → strncmp_eq t.module_id "m3".toList 32 = true → j = 0 :=
  ⟨by decide, by decide, by decide,
   fun j t => (reachable_ids_unique events_rename).2.2.2 "m3".toList 0 j t (by decide)⟩

theorem used_mono_refl (g : List module_slot_t) : used_mono g g :=
  ⟨rfl, fun _ s hs hu => ⟨s, hs, hu⟩⟩

theorem used_mono_trans {a b c : List module_slot_t} (h1 : used_mono a b)
    (h2 : used_mono b c) : used_mono a c := by
  refine ⟨h2.1.trans h1.1, ?_⟩
  intro i s hs hu
  obtain ⟨s1, hs1, hu1⟩ := h1.2 i s hs hu
  exact h2.2 i s1 hs1 hu1

theorem used_mono_set {g : List module_slot_t} {i : Nat} {s x : module_slot_t}
    (hs : g[i]? = some s) (hx : s.used = true → x.used = true) :
    used_mono g (g.set i x) := by
  refine ⟨by simp, ?_⟩
  intro j t ht hu
  by_cases hij : i = j
  · subst hij
    rw [hs] at ht
    have e : s = t := Option.some.inj ht
    subst e
    exact ⟨x, get_set_same hs x, hx hu⟩
  · exact ⟨t, by rw [get_set_other g hij x]; exact ht, hu⟩

theorem used_mono_upd {g : List module_slot_t} {i : Nat} {f : module_slot_t → module_slot_t}
    (hf : ∀ s, (f s).used = s.used) : used_mono g (slot_upd g i f) := by
  unfold slot_upd
  cases hs : g[i]? with
  | none => exact used_mono_refl g
  | some s => exact used_mono_set hs (fun hu => by rw [hf s]; exact hu)

theorem used_count_mono {g g1 : List module_slot_t} (h : used_mono g g1) :
    used_count g ≤ used_count g1 := by
  induction g generalizing g1 with
  | nil => simp [used_count]
  | cons a r ih =>
    cases g1 with
    | nil =>
      have := h.1
      simp at this
    | cons a1 r1 =>
      have htail : used_mono r r1 := by
        refine ⟨by have := h.1; simpa using this, ?_⟩
        intro i s hs hu
        have := h.2 (i + 1) s (by simpa using hs) hu
        simpa using this
      have hrec := ih htail
      have hhead : a.used = true → a1.used = true := by
        intro hu
        obtain ⟨s1, hs1, hu1⟩ := h.2 0 a (by simp) hu
        simp only [List.getElem?_cons_zero, Option.some.injEq] at hs1
        rw [hs1]
        exact hu1
      unfold used_count at hrec ⊢
      rw [List.countP_cons, List.countP_cons]
      cases hau : a.used with
      | false =>
        simp only [Bool.false_eq_true, if_false, Nat.add_zero]
        omega
      | true =>
        simp only [hhead hau, if_true]
        omega

theorem used_count_set {g : List module_slot_t} {i : Nat} {s x : module_slot_t}
    (hs : g[i]? = some s) (hu : s.used = false) (hx : x.used = true) :
    used_count (g.set i x) = used_count g + 1 := by
  induction g generalizing i with
  | nil => simp at hs
  | cons a r ih =>
    cases i with
    | zero =>
      simp only [List.getElem?_cons_zero, Option.some.injEq] at hs
      subst hs
      simp [used_count, List.countP_cons, hu, hx]
    | succ k =>
      simp only [List.getElem?_cons_succ] at hs
      have := ih hs
      unfold used_count at this ⊢
      simp only [List.set_cons_succ, List.countP_cons, this]
      omega

theorem used_count_full (g : List module_slot_t) :
    used_count g = g.length ↔ ∀ s ∈ g, s.used = true := by
  unfold used_count
  rw [List.countP_eq_length]

theorem used_count_le (g : List module_slot_t) : used_count g ≤ g.length :=
  List.countP_le_length _

theorem handle_load_cmd_used_mono (st : State) (env : load_env) (line : CStr) :
    used_mono st.g_mods (handle_load_cmd st env line).1.g_mods := by
  rcases handle_load_cmd_final st env line with e | ⟨p, g1, i, w, s0, -, -, hr, hs0, -, hu, e⟩
  · rw [e]
    exact used_mono_refl _
  · obtain ⟨sold, s1, hs, hg1, -⟩ := load_resolve_ok hr
    have e0 : s1 = s0 := by
      rw [hg1, get_set_same hs] at hs0
      exact Option.some.inj hs0
    subst e0
    have h1 : used_mono st.g_mods g1 := by
      rw [hg1]
      exact used_mono_set hs (fun _ => hu)
    rcases e with e | ⟨m, k, x, e⟩
    · rw [e]
      exact h1
    · rw [e]
      exact used_mono_trans h1 (used_mono_set hs0 (fun h => h))

/-- A `LOAD` of an id no used slot holds, with its parameters and a non-zero size:
whatever happens afterwards, one more slot is used unless all were. -/
theorem handle_load_cmd_new_id_count (st : State) (env : load_env) (line : CStr)
    (p : load_params) (hp : load_parse line = some p) (hz : to_u32 (atoi p.size_str) ≠ 0)
    (hnew : slot_find st.g_mods p.module_id_buf = none) :
    used_count (handle_load_cmd st env line).1.g_mods
      = min (used_count st.g_mods + 1) st.g_mods.length := by
  have hmono := handle_load_cmd_used_mono st env line
  have hle := used_count_le (handle_load_cmd st env line).1.g_mods
  rw [hmono.1] at hle
  have hge := used_count_mono hmono
  have hle0 := used_count_le st.g_mods
  by_cases hfull : ∀ s ∈ st.g_mods, s.used = true
  · have := (used_count_full st.g_mods).mpr hfull
    omega
  · have hlt : used_count st.g_mods < st.g_mods.length := by
      have := mt (used_count_full st.g_mods).mp hfull
      omega
    rcases handle_load_cmd_cases st env line with ⟨hn, -⟩ | ⟨p2, hp2, ⟨hz2, -⟩ | ⟨-, h⟩⟩
    · rw [hp] at hn
      exact Option.noConfusion hn
    · rw [hp] at hp2
      rw [← Option.some.inj hp2] at hz2
      exact absurd hz2 hz
    · rw [hp] at hp2
      have e2 : p = p2 := Option.some.inj hp2
      subst e2
      rcases h with ⟨reply, hr, -⟩ | ⟨g1, i, w, hr, e⟩
      · rcases load_resolve_error hr with ⟨-, -, j, hj, -⟩ | ⟨-, hall, -⟩
        · rw [hnew] at hj
          exact Option.noConfusion hj
        · exact absurd hall hfull
      · obtain ⟨sold, s1, hs, hg1, hcase⟩ := load_resolve_ok hr
        rcases hcase with ⟨hf, -⟩ | ⟨-, hsu, hs1, -⟩ | ⟨-, hall, -⟩
        · rw [hnew] at hf
          exact Option.noConfusion hf
        · obtain ⟨s0, hs0, hc, hu⟩ := load_resolve_clean hr
          have hcount : used_count (handle_load_cmd st env line).1.g_mods
              = used_count st.g_mods + 1 := by
            rw [e]
            rcases load_payload_outcome { st with g_mods := g1 } env i
              (to_u32 (atoi p.size_str)) (strtoul p.crc_str 16) p.crc_str p.victim_id_buf w
              s0 hs0 (Nat.pos_of_ne_zero hz) hc
              with ⟨-, -, -, m, k, x, -, -, -, hg, -⟩ | ⟨hg, -⟩
            · rw [hg]
              simp only [hg1, set_set_same]
              exact used_count_set hs hsu hu
            · rw [hg]
              simp only [hg1]
              rw [hg1, get_set_same hs] at hs0
              have e0 : s1 = s0 := Option.some.inj hs0
              rw [e0]
              exact used_count_set hs hsu hu
          omega
        · exact absurd hall hfull

theorem handle_load_cmd_full (st : State) (env : load_env) (line : CStr) (p : load_params)
    (hp : load_parse line = some p) (hz : to_u32 (atoi p.size_str) ≠ 0)
    (hfull : ∀ s ∈ st.g_mods, s.used = true)
    (hnew : slot_find st.g_mods p.module_id_buf = none) (hrep : p.do_replace = false) :
    handle_load_cmd st env line =
      (st, ["LOAD_ERR code=NO_SLOT msg=\"MAX_MODULES reached\"\n".toList]) := by
  have ha : slot_alloc st.g_mods p.module_id_buf = none := slot_alloc_none.mpr hfull
  unfold handle_load_cmd
  simp only [hp, hz, if_false, load_resolve, hnew, ha, hrep, Bool.false_eq_true]

theorem handle_start_cmd_used_mono (st : State) (env : start_env) (line : CStr) :
    used_mono st.g_mods (handle_start_cmd st env line).1.g_mods := by
  unfold handle_start_cmd
  split
  · exact used_mono_refl _
  · simp only
    split
    · exact used_mono_refl _
    · split
      · exact used_mono_refl _
      · split
        · exact used_mono_refl _
        · split
          · exact used_mono_refl _
          · split
            · split <;> exact used_mono_refl _
            · exact used_mono_upd (fun s => rfl)

theorem handle_stop_cmd_used_mono (st : State) (line : CStr) :
    used_mono st.g_mods (handle_stop_cmd st line).1.g_mods := by
  unfold handle_stop_cmd
  split
  · exact used_mono_refl _
  · simp only
    split
    · exact used_mono_refl _
    · split
      · exact used_mono_refl _
      · exact used_mono_upd (fun s => rfl)

theorem handle_command_line_used_mono (st : State) (env : cmd_env) (line : CStr) :
    used_mono st.g_mods (handle_command_line st env line).1.g_mods := by
  unfold handle_command_line
  dsimp only
  generalize (if line.getLast? = some '\n' ∨ line.getLast? = some '\r' then line.dropLast
    else line) = line1
  split
  · exact used_mono_refl _
  · split
    · exact handle_load_cmd_used_mono _ _ _
    · split
      · exact handle_start_cmd_used_mono _ _ _
      · split
        · exact handle_stop_cmd_used_mono _ _
        · split <;> exact used_mono_refl _

theorem serial_cb_byte_used_mono (st : State) (c : Byte) :
    used_mono st.g_mods (serial_cb_byte st c).g_mods := by
  unfold serial_cb_byte
  cases st.g_rx_state with
  | RX_STATE_LINE =>
    simp only
    split
    · exact used_mono_refl _
    · split <;> exact used_mono_refl _
  | RX_STATE_BINARY =>
    simp only
    cases st.g_bin_buf with
    | none => exact used_mono_refl _
    | some i =>
      simp only
      have hb : used_mono st.g_mods (bin_store st.g_mods i st.g_bin_received c) := by
        unfold bin_store
        apply used_mono_upd
        intro s
        cases s.wasm_buf <;> rfl
      split
      · split <;> exact hb
      · exact used_mono_refl _

theorem serial_cb_used_mono (bytes : List Byte) (st : State) :
    used_mono st.g_mods (serial_cb st bytes).g_mods := by
  induction bytes generalizing st with
  | nil => exact used_mono_refl _
  | cons c rest ih =>
    exact used_mono_trans (serial_cb_byte_used_mono st c) (ih (serial_cb_byte st c))

theorem step_used_mono (st : State) (e : Event) :
    used_mono st.g_mods (step st e).1.g_mods := by
  cases e with
  | rx bytes => exact serial_cb_used_mono bytes st
  | command env =>
    simp only [step]
    split
    · exact used_mono_refl _
    · split
      · exact used_mono_refl _
      · exact handle_command_line_used_mono _ _ _
  | worker i env =>
    simp only [step]
    split
    · rename_i s hs
      exact used_mono_set hs (fun hu => by rw [(module_worker_keeps_id s env).1]; exact hu)
    · exact used_mono_refl _
  | timer i env =>
    simp only [step]
    split
    · rename_i s hs
      split
      · exact used_mono_set hs (fun hu => by
          rw [(stop_dwork_handler_keeps_id { s with stop_dwork := false } env).1]
          exact hu)
      · exact used_mono_refl _
    · exact used_mono_refl _

theorem run_used_mono (events : List Event) (st : State) :
    used_mono st.g_mods (run st events).1.g_mods := by
  induction events generalizing st with
  | nil => exact used_mono_refl _
  | cons e es ih => exact used_mono_trans (step_used_mono st e) (ih (step st e).1)

/-- C27: `slot_cleanup` leaves `used` and `module_id` as they are, and no step and no
`LOAD` ever turns a used slot into an unused one. A `LOAD` of an id that no used slot
holds (with its three parameters and a non-zero size) uses up one more slot whenever a
free one exists, whatever its outcome. So after two such `LOAD`s (`MAX_MODULES` is 2),
with any steps before, between and after them, every slot is used, and every further
`LOAD` of a new id without `replace=1` is answered `LOAD_ERR code=NO_SLOT` with the
state unchanged. -/
theorem used_slots_only_grow (ev0 ev1 ev2 : List Event) (env1 env2 : load_env)
    (line1 line2 : CStr) (p1 p2 : load_params)
    (hp1 : load_parse line1 = some p1) (hz1 : to_u32 (atoi p1.size_str) ≠ 0)
    (hnew1 : slot_find (run State.init ev0).1.g_mods p1.module_id_buf = none)
    (hp2 : load_parse line2 = some p2) (hz2 : to_u32 (atoi p2.size_str) ≠ 0)
    (hnew2 : slot_find (run (handle_load_cmd (run State.init ev0).1 env1 line1).1 ev1).1.g_mods
      p2.module_id_buf = none) :
    (∀ s, (slot_cleanup s).used = s.used ∧ (slot_cleanup s).module_id = s.module_id) ∧
    (∀ (st : State) (e : Event) (i : Nat) (s : module_slot_t), st.g_mods[i]? = some s →
      s.used = true → ∃ s1, (step st e).1.g_mods[i]? = some s1 ∧ s1.used = true) ∧
    (∀ (st : State) (env : load_env) (line : CStr) (i : Nat) (s : module_slot_t),
      st.g_mods[i]? = some s → s.used = true →
      ∃ s1, (handle_load_cmd st env line).1.g_mods[i]? = some s1 ∧ s1.used = true) ∧
    (∀ (st : State) (env : load_env) (line : CStr) (p : load_params),
      load_parse line = some p → to_u32 (atoi p.size_str) ≠ 0 →
      slot_find st.g_mods p.module_id_buf = none →
      used_count (handle_load_cmd st env line).1.g_mods
        = min (used_count st.g_mods + 1) st.g_mods.length) ∧
    (∀ s ∈ (run (handle_load_cmd (run (handle_load_cmd (run State.init ev0).1 env1
        line1).1 ev1).1 env2 line2).1 ev2).1.g_mods, s.used = true) ∧
    (∀ (env3 : load_env) (line3 : CStr) (p3 : load_params),
      load_parse line3 = some p3 → to_u32 (atoi p3.size_str) ≠ 0 →
      slot_find (run (handle_load_cmd (run (handle_load_cmd (run State.init ev0).1 env1
        line1).1 ev1).1 env2 line2).1 ev2).1.g_mods p3.module_id_buf = none →
      p3.do_replace = false →
      handle_load_cmd (run (handle_load_cmd (run (handle_load_cmd (run State.init ev0).1 env1
          line1).1 ev1).1 env2 line2).1 ev2).1 env3 line3
        = ((run (handle_load_cmd (run (handle_load_cmd (run State.init ev0).1 env1
            line1).1 ev1).1 env2 line2).1 ev2).1,
           ["LOAD_ERR code=NO_SLOT msg=\"MAX_MODULES reached\"\n".toList])) := by
  have hfull : ∀ s ∈ (run (handle_load_cmd (run (handle_load_cmd (run State.init ev0).1 env1
      line1).1 ev1).1 env2 line2).1 ev2).1.g_mods, s.used = true := by
    have m0 := run_used_mono ev0 State.init
    have c1 := handle_load_cmd_new_id_count (run State.init ev0).1 env1 line1 p1 hp1 hz1 hnew1
    have m1 := run_used_mono ev1 (handle_load_cmd (run State.init ev0).1 env1 line1).1
    have l1 := (handle_load_cmd_used_mono (run State.init ev0).1 env1 line1).1
    have c2 := handle_load_cmd_new_id_count
      (run (handle_load_cmd (run State.init ev0).1 env1 line1).1 ev1).1 env2 line2 p2 hp2 hz2
      hnew2
    have l2 := (handle_load_cmd_used_mono
      (run (handle_load_cmd (run State.init ev0).1 env1 line1).1 ev1).1 env2 line2).1
    have m2 := run_used_mono ev2
      (handle_load_cmd (run (handle_load_cmd (run State.init ev0).1 env1 line1).1 ev1).1
        env2 line2).1
    have hlen0 : State.init.g_mods.length = 2 := by decide
    have k1 := used_count_mono m1
    have k2 := used_count_mono m2
    have hle := used_count_le (run (handle_load_cmd (run (handle_load_cmd
      (run State.init ev0).1 env1 line1).1 ev1).1 env2 line2).1 ev2).1.g_mods
    apply (used_count_full _).mp
    have e0 := m0.1
    have e1 := m1.1
    have e2 := m2.1
    omega
  refine ⟨fun s => ⟨rfl, rfl⟩, fun st e => (step_used_mono st e).2,
    fun st env line => (handle_load_cmd_used_mono st env line).2,
    handle_load_cmd_new_id_count, hfull, ?_⟩
  intro env3 line3 p3 hp3 hz3 hnew3 hrep
  exact handle_load_cmd_full _ env3 line3 p3 hp3 hz3 hfull hnew3 hrep

/-- C27 at a concrete input: `LOAD m1` and `LOAD m2` both time out after boot; `STATUS`
then reports `modules="none"`, both slots are used, and `LOAD m3` is answered
`LOAD_ERR code=NO_SLOT`. -/
theorem used_slots_only_grow_witness :
    replied (handle_load_cmd State.init load_env_short load_line_m1).2
      "LOAD_ERR code=TIMEOUT" = true ∧
    replied (handle_load_cmd (handle_load_cmd State.init load_env_short load_line_m1).1
      load_env_short load_line_m2).2 "LOAD_ERR code=TIMEOUT" = true ∧
    starts_with (handle_status_cmd state_two_timeouts status_env_plain)
      "STATUS_OK modules=\"none\"" = true ∧
    (∀ s ∈ state_two_timeouts.g_mods, s.used = true) ∧
    handle_load_cmd state_two_timeouts (load_env_ok payload_digits) (load_line_m3 "")
      = (state_two_timeouts,
         ["LOAD_ERR code=NO_SLOT msg=\"MAX_MODULES reached\"\n".toList]) := by
  have h := used_slots_only_grow [] [] [] load_env_short load_env_short load_line_m1
    load_line_m2 load_params_m1
    { module_id_buf := "m2".toList, size_str := "9".toList, crc_str := "cbf43926".toList,
      do_replace := false, victim_id_buf := [], have_victim := false }
    (by decide) (by decide) (by decide) (by decide) (by decide) (by decide)
  exact ⟨by decide, by decide, by decide, h.2.2.2.2.1,
    h.2.2.2.2.2 (load_env_ok payload_digits) (load_line_m3 "") (load_params_m3 false "")
      (by decide) (by decide) (by decide) (by decide)⟩

/-! ## A stop timer outliving its job -/

theorem slot_at_upd_keeps {α : Type} (φ : module_slot_t → α) (g : List module_slot_t)
    (i j : Nat) (f : module_slot_t → module_slot_t) (hf : ∀ s, φ (f s) = φ s) :
    φ (slot_at (slot_upd g i f) j) = φ (slot_at g j) := by
  unfold slot_upd
  cases hs : g[i]? with
  | none => rfl
  | some s =>
    simp only
    by_cases hij : i = j
    · subst hij
      rw [slot_at_set_same hs, slot_at_of_get hs, hf]
    · unfold slot_at
      rw [get_set_other g hij]

theorem handle_start_cmd_keeps_timer (st : State) (env : start_env) (line : CStr) (j : Nat) :
    (slot_at (handle_start_cmd st env line).1.g_mods j).terminate_requested
      = (slot_at st.g_mods j).terminate_requested ∧
    (slot_at (handle_start_cmd st env line).1.g_mods j).stop_dwork
      = (slot_at st.g_mods j).stop_dwork := by
  unfold handle_start_cmd
  split
  · exact ⟨rfl, rfl⟩
  · simp only
    split
    · exact ⟨rfl, rfl⟩
    · split
      · exact ⟨rfl, rfl⟩
      · split
        · exact ⟨rfl, rfl⟩
        · split
          · exact ⟨rfl, rfl⟩
          · split
            · split <;> exact ⟨rfl, rfl⟩
            · exact ⟨slot_at_upd_keeps (fun s => s.terminate_requested) _ _ _ _ (fun _ => rfl),
                slot_at_upd_keeps (fun s => s.stop_dwork) _ _ _ _ (fun _ => rfl)⟩

theorem worker_dispatch_keeps_timer (s : module_slot_t) (env : worker_env) :
    (worker_dispatch s env).1.terminate_requested = s.terminate_requested ∧
    (worker_dispatch s env).1.stop_dwork = s.stop_dwork := by
  unfold worker_dispatch
  split
  · exact ⟨rfl, rfl⟩
  · split
    · exact ⟨rfl, rfl⟩
    · simp only
      split <;> exact ⟨rfl, rfl⟩

/-- C28: `START` leaves `terminate_requested` and the armed stop timer of every slot as
they are, and so does the worker on every path that ends before or at the entry into
the call (no instance, `NO_FUNC`, `NO_EXEC_ENV`). In the run `events_stale_timer` the
replies are `START_OK`, `STOP_OK status=PENDING`, `RESULT status=NO_FUNC`, `START_OK`;
when the timer then expires the slot is used, busy, instantiated and has
`terminate_requested` set although no `STOP` followed the second `START`, and the
handler writes `RESULT status=STOPPED forced=1 module_id=m1 func=app_main`. -/
theorem stale_stop_timer_stops_next_job :
    (∀ (st : State) (env : start_env) (line : CStr) (j : Nat),
      (slot_at (handle_start_cmd st env line).1.g_mods j).terminate_requested
        = (slot_at st.g_mods j).terminate_requested ∧
      (slot_at (handle_start_cmd st env line).1.g_mods j).stop_dwork
        = (slot_at st.g_mods j).stop_dwork) ∧
    (∀ (s : module_slot_t) (env : worker_env),
      (worker_dispatch s env).1.terminate_requested = s.terminate_requested ∧
      (worker_dispatch s env).1.stop_dwork = s.stop_dwork) ∧
    (run State.init events_stale_timer).2 =
      ["LOAD_READY module_id=m1 size=9 crc32=cbf43926\n".toList, "LOAD_OK\n".toList,
       "START_OK\n".toList, "STOP_OK status=PENDING\n".toList,
       "RESULT status=NO_FUNC\n".toList, "START_OK\n".toList,
       "RESULT status=STOPPED forced=1 module_id=m1 func=app_main\n".toList] ∧
    (slot_at (run State.init (events_stale_timer.take 8)).1.g_mods 0).busy = false ∧
    (slot_at (run State.init (events_stale_timer.take 10)).1.g_mods 0).used = true ∧
    (slot_at (run State.init (events_stale_timer.take 10)).1.g_mods 0).busy = true ∧
    (slot_at (run State.init (events_stale_timer.take 10)).1.g_mods 0).inst ≠ none ∧
    (slot_at (run State.init (events_stale_timer.take 10)).1.g_mods 0).terminate_requested
      = true ∧
    (slot_at (run State.init (events_stale_timer.take 10)).1.g_mods 0).stop_dwork = true ∧
    (slot_at (run State.init (events_stale_timer.take 10)).1.g_mods 0).req.func_name
      = "app_main".toList ∧
    (slot_at (run State.init events_stale_timer).1.g_mods 0).busy = false := by
  refine ⟨handle_start_cmd_keeps_timer, worker_dispatch_keeps_timer, by decide, by decide,
    by decide, by decide, by decide, by decide, by decide, by decide, by decide⟩

/-! ## `find_param` -/

/-- The test `find_param` makes at one position: `key` occurs there and `=` follows. -/
theorem key_eq_at_head (l key : CStr) :
    (key.isPrefixOf l = true ∧ (l.drop key.length).head? = some '=') ↔
      ∃ rest, l = key ++ '=' :: rest := by
  constructor
  · rintro ⟨hp, hh⟩
    obtain ⟨t, ht⟩ := List.isPrefixOf_iff_prefix.mp hp
    subst ht
    rw [List.drop_left] at hh
    cases t with
    | nil => simp at hh
    | cons a r =>
      simp only [List.head?_cons, Option.some.injEq] at hh
      subst hh
      exact ⟨r, rfl⟩
  · rintro ⟨rest, rfl⟩
    refine ⟨List.isPrefixOf_iff_prefix.mpr ⟨_, rfl⟩, ?_⟩
    rw [List.drop_left]
    rfl

theorem find_param_cons (c : Char) (t key : CStr) :
    find_param (c :: t) key =
      if key.isPrefixOf (c :: t) = true ∧ ((c :: t).drop key.length).head? = some '=' then
        some ((c :: t).drop (key.length + 1))
      else find_param t key := by
  rw [find_param]
  by_cases h1 : key.isPrefixOf (c :: t) = true
  · by_cases h2 : ((c :: t).drop key.length).head? = some '='
    · simp [h1, h2]
    · simp [h1, h2]
  · simp [h1]

theorem find_param_some_iff (line key rest : CStr) :
    find_param line key = some rest ↔
      ∃ pre, line = pre ++ key ++ '=' :: rest ∧
        ∀ pre2 rest2, line = pre2 ++ key ++ '=' :: rest2 → pre.length ≤ pre2.length := by
  induction line with
  | nil =>
    constructor
    · intro h
      simp [find_param] at h
    · rintro ⟨pre, h, -⟩
      have := congrArg List.length h
      simp at this
      omega
  | cons c t ih =>
    rw [find_param_cons]
    by_cases hm : key.isPrefixOf (c :: t) = true ∧ ((c :: t).drop key.length).head? = some '='
    · obtain ⟨r0, hr0⟩ := (key_eq_at_head (c :: t) key).mp hm
      have hdrop : (c :: t).drop (key.length + 1) = r0 := by
        rw [hr0]
        have : key ++ '=' :: r0 = (key ++ ['=']) ++ r0 := by simp
        rw [this]
        have hl : key.length + 1 = (key ++ ['=']).length := by simp
        rw [hl, List.drop_left]
      simp only [hm, and_self, if_true, hdrop, Option.some.injEq]
      constructor
      · intro e
        subst e
        exact ⟨[], by simpa using hr0, fun _ _ _ => Nat.zero_le _⟩
      · rintro ⟨pre, h, hmin⟩
        have h0 := hmin [] r0 (by simpa using hr0)
        have hp : pre = [] := List.length_eq_zero.mp (Nat.le_zero.mp h0)
        subst hp
        rw [hr0] at h
        simp only [List.nil_append] at h
        have := List.append_cancel_left h
        exact (List.cons.inj this).2
    · simp only [hm, if_false]
      rw [ih]
      have hne : ∀ pre r, c :: t = pre ++ key ++ '=' :: r → ∃ pre1, pre = c :: pre1 ∧
          t = pre1 ++ key ++ '=' :: r := by
        intro pre r h
        cases pre with
        | nil =>
          exfalso
          apply hm
          exact (key_eq_at_head (c :: t) key).mpr ⟨r, by simpa using h⟩
        | cons a pre1 =>
          simp only [List.cons_append, List.cons.injEq] at h
          exact ⟨pre1, by rw [h.1], by simpa using h.2⟩
      constructor
      · rintro ⟨pre, h, hmin⟩
        refine ⟨c :: pre, by simp [h], ?_⟩
        intro pre2 rest2 h2
        obtain ⟨pre1, e1, h1⟩ := hne pre2 rest2 h2
        subst e1
        have := hmin pre1 rest2 h1
        simp only [List.length_cons]
        omega
      · rintro ⟨pre, h, hmin⟩
        obtain ⟨pre1, e1, h1⟩ := hne pre rest h
        subst e1
        refine ⟨pre1, h1, ?_⟩
        intro pre2 rest2 h2
        have := hmin (c :: pre2) rest2 (by simp [h2])
        simp only [List.length_cons] at this
        omega

theorem find_param_none_iff (line key : CStr) :
    find_param line key = none ↔ ¬ (key ++ ['=']) <:+: line := by
  induction line with
  | nil =>
    simp [find_param]
  | cons c t ih =>
    rw [find_param_cons, List.infix_cons_iff]
    have hpre : (key ++ ['=']) <+: c :: t ↔
        (key.isPrefixOf (c :: t) = true ∧ ((c :: t).drop key.length).head? = some '=') := by
      rw [key_eq_at_head]
      constructor
      · rintro ⟨r, hr⟩
        exact ⟨r, by rw [← hr]; simp⟩
      · rintro ⟨r, hr⟩
        exact ⟨r, by rw [hr]; simp⟩
    by_cases hm : key.isPrefixOf (c :: t) = true ∧ ((c :: t).drop key.length).head? = some '='
    · simp only [hm, and_self, if_true]
      simp [hpre.mpr hm]
    · simp only [hm, if_false, ih]
      have : ¬ (key ++ ['=']) <+: c :: t := fun h => hm (hpre.mp h)
      simp [this]

/-- C29: `find_param line key` returns the text that follows the first occurrence of
`key` immediately followed by `=` in the line, wherever it starts, and returns nothing
iff `key=` does not occur in the line. For the argument string
`module_id=m1 args="func=7"` the `func` parameter is found, with value `7"`: on a
module without `app_main` the `START` is accepted with that function name instead of
`NO_ENTRYPOINT`, and the request has `argc = 1`, `argv[0] = 7`. -/
theorem find_param_matches_anywhere :
    (∀ line key rest : CStr,
      find_param line key = some rest ↔
        ∃ pre, line = pre ++ key ++ '=' :: rest ∧
          ∀ pre2 rest2, line = pre2 ++ key ++ '=' :: rest2 → pre.length ≤ pre2.length) ∧
    (∀ line key : CStr, find_param line key = none ↔ ¬ (key ++ ['=']) <:+: line) ∧
    find_param "module_id=m1 args=\"func=7\"".toList "func".toList = some "7\"".toList ∧
    (handle_start_cmd state_m1_loaded start_env_no_main
        "module_id=m1 args=\"func=7\"".toList).2 = ["START_OK\n".toList] ∧
    (slot_at (handle_start_cmd state_m1_loaded start_env_no_main
        "module_id=m1 args=\"func=7\"".toList).1.g_mods 0).req
      = { func_name := "7\"".toList, argc := 1, argv := [7, 0, 0, 0] } ∧
    (handle_start_cmd state_m1_loaded start_env_no_main "module_id=m1 args=\"x=7\"".toList).2
      = ["RESULT status=NO_ENTRYPOINT msg=\"args require app_main\"\n".toList] := by
  refine ⟨find_param_some_iff, find_param_none_iff, by decide, by decide, by decide,
    by decide⟩

/-- C29 at a concrete input: in `module_id=m1 args="func=7"` the text `func=` occurs,
first after the 18 characters `module_id=m1 args="`. -/
theorem find_param_matches_anywhere_witness :
    (∃ pre, "module_id=m1 args=\"func=7\"".toList
        = pre ++ "func".toList ++ '=' :: "7\"".toList ∧
      ∀ pre2 rest2, "module_id=m1 args=\"func=7\"".toList
        = pre2 ++ "func".toList ++ '=' :: rest2 → pre.length ≤ pre2.length) ∧
    ¬ ("size".toList ++ ['=']) <:+: "module_id=m1 args=\"func=7\"".toList :=
  ⟨(find_param_matches_anywhere.1 "module_id=m1 args=\"func=7\"".toList "func".toList
      "7\"".toList).mp (by decide),
   (find_param_matches_anywhere.2.1 "module_id=m1 args=\"func=7\"".toList
      "size".toList).mp (by decide)⟩

/-! ## Terminator on an empty line buffer -/

/-- C30: in LINE mode any byte received while the line buffer is empty, a line feed (10)
or carriage return (13) included, is stored as the first character of the next line,
and nothing is queued. For
the byte stream `STATUS`, CR, LF, `STATUS`, CR, LF received after boot, the queued
lines are `STATUS` and LF followed by `STATUS`, a line feed is left in the line
buffer, and the dispatcher answers the second line `ERROR code=UNKNOWN_COMMAND`. -/
theorem terminator_on_empty_buffer_is_stored (st : State) (c : Byte)
    (hm : st.g_rx_state = rx_state_t.RX_STATE_LINE) (he : st.rx_buf = []) :
    serial_cb_byte st c = { st with rx_buf := [Char.ofNat c.val] } ∧
    (serial_cb_byte st 10).rx_buf = ['\n'] ∧ (serial_cb_byte st 13).rx_buf = ['\r'] ∧
    (serial_cb_byte st 10).uart_msgq = st.uart_msgq ∧
    (serial_cb_byte st 13).uart_msgq = st.uart_msgq ∧
    (serial_cb State.init (uart_bytes "STATUS\r\nSTATUS\r\n")).uart_msgq
      = ["STATUS".toList, "\nSTATUS".toList] ∧
    (serial_cb State.init (uart_bytes "STATUS\r\nSTATUS\r\n")).rx_buf = "\n".toList ∧
    (handle_command_line State.init cmd_env_ok "\nSTATUS".toList).2
      = ["ERROR code=UNKNOWN_COMMAND\n".toList] ∧
    (run State.init events_crlf).2
      = ["STATUS_OK modules=\"none\" low_stack=\"none\" wamr_heap=NA\n".toList,
         "ERROR code=UNKNOWN_COMMAND\n".toList] := by
  have hL : LINE_BUF_SIZE - 1 = 255 := rfl
  have hall : ∀ b : Byte, serial_cb_byte st b = { st with rx_buf := [Char.ofNat b.val] } := by
    intro b
    unfold serial_cb_byte
    simp [hm, he, hL]
  refine ⟨hall c, ?_, ?_, ?_, ?_, by decide, by decide, by decide, by decide⟩
  · rw [hall]
    rfl
  · rw [hall]
    rfl
  · rw [hall]
  · rw [hall]

/-- C30 at a concrete input: a line feed received right after boot. -/
theorem terminator_on_empty_buffer_is_stored_witness :
    serial_cb_byte State.init 10 = { State.init with rx_buf := ['\n'] } :=
  (terminator_on_empty_buffer_is_stored State.init 10 rfl rfl).1.trans
    (by decide)

/-! ## Default entry point of `START` -/

theorem copy_param_value_stop (p : CStr) (n : Nat)
    (h : ∀ c, p.head? = some c → c = '\x00' ∨ c = ' ' ∨ c = '\r' ∨ c = '\n') :
    copy_param_value p n = [] := by
  cases p with
  | nil => simp [copy_param_value, copy_param_loop]
  | cons c cs =>
    have hc := h c rfl
    simp [copy_param_value, copy_param_loop, hc]

theorem handle_start_cmd_no_func_name (st : State) (env : start_env) (line p_mod : CStr)
    (i : Nat)
    (hp : find_param line "module_id".toList = some p_mod)
    (hf : slot_find st.g_mods (copy_param_value p_mod 32) = some i)
    (hi : (slot_at st.g_mods i).inst ≠ none)
    (hmem : ∀ mi, env.mem_info = some mi →
      (if (slot_at st.g_mods i).exec_env.isSome then 4096 else 16384) ≤ mi.total_free_size)
    (hb : (slot_at st.g_mods i).busy = false)
    (hfunc : ∀ p_func, find_param line "func".toList = some p_func →
      copy_param_value p_func 64 = []) :
    (env.has_app_main = true →
      (handle_start_cmd st env line).2 = ["START_OK\n".toList] ∧
      (slot_at (handle_start_cmd st env line).1.g_mods i).req.func_name = "app_main".toList ∧
      (slot_at (handle_start_cmd st env line).1.g_mods i).busy = true ∧
      (slot_at (handle_start_cmd st env line).1.g_mods i).work_sem
        = k_sem_give (slot_at st.g_mods i).work_sem) ∧
    (env.has_app_main = false →
      (handle_start_cmd st env line).1 = st ∧
      (0 < (parse_args line).length → (handle_start_cmd st env line).2 =
        ["RESULT status=NO_ENTRYPOINT msg=\"args require app_main\"\n".toList]) ∧
      ((parse_args line).length = 0 → (handle_start_cmd st env line).2 =
        ["RESULT status=NO_ENTRYPOINT msg=\"expected app_main\"\n".toList])) := by
  cases hfp : find_param line "func".toList with
  | none => exact handle_start_cmd_default st env line p_mod i hp hf hi hmem hb hfp
  | some p_func =>
    have hc := hfunc p_func hfp
    have hg1 : START_GUARD_BYTES_HAVE_EXEC_ENV = 4096 := by decide
    have hg2 : START_GUARD_BYTES_NEED_EXEC_ENV = 16384 := by decide
    obtain ⟨s, hs, -, -⟩ := slot_find_some hf
    rw [slot_at_of_get hs] at hi hmem hb
    have hin : s.inst.isNone = false := by
      cases h : s.inst with
      | none => exact absurd h hi
      | some k => rfl
    unfold handle_start_cmd
    simp only [hp, hf, hfp, hc, slot_at_of_get hs, slot_upd_of_get hs, hin, hb,
      Bool.false_eq_true, if_false, hg1, hg2, List.isEmpty_nil, Bool.true_and, if_true]
    cases hm : env.mem_info with
    | none =>
      simp only
      constructor
      · intro ha
        simp [ha, slot_at_set_same hs]
      · intro ha
        simp only [ha, Bool.not_false, if_true]
        refine ⟨by split <;> rfl, fun h => by simp [h], fun h => by simp [h]⟩
    | some mi =>
      have hle := hmem mi hm
      have hnl : ¬ mi.total_free_size < (if s.exec_env.isSome = true then 4096 else 16384) :=
        Nat.not_lt.mpr hle
      simp only [hnl, if_false]
      constructor
      · intro ha
        simp [ha, slot_at_set_same hs]
      · intro ha
        simp only [ha, Bool.not_false, if_true]
        refine ⟨by split <;> rfl, fun h => by simp [h], fun h => by simp [h]⟩

/-- C12, as stated, fails. `START module_id=m1 args="func=7"` carries no `func`
parameter: the argument string does not begin with `func=`, the text ` func=` occurs
nowhere in it, and its one argument `func=7` is parsed as the value 7. The slot of `m1`
is instantiated and idle and the memory check passes. On an instance without `app_main`
the reply is `START_OK` instead of `RESULT status=NO_ENTRYPOINT`, and the slot becomes
busy with the function name `7"` and a signalled worker; on an instance that exports
`app_main` the accepted function name is `7"` as well, not `app_main`. -/
theorem start_func_read_inside_args :
    ¬ "func=".toList <+: "module_id=m1 args=\"func=7\"".toList ∧
    ¬ " func=".toList <:+: "module_id=m1 args=\"func=7\"".toList ∧
    parse_args "module_id=m1 args=\"func=7\"".toList = [7] ∧
    slot_find state_m1_loaded.g_mods "m1".toList = some 0 ∧
    (slot_at state_m1_loaded.g_mods 0).inst.isSome = true ∧
    (slot_at state_m1_loaded.g_mods 0).busy = false ∧
    (handle_start_cmd state_m1_loaded start_env_no_main
        "module_id=m1 args=\"func=7\"".toList).2 = ["START_OK\n".toList] ∧
    (slot_at (handle_start_cmd state_m1_loaded start_env_no_main
        "module_id=m1 args=\"func=7\"".toList).1.g_mods 0).busy = true ∧
    (slot_at (handle_start_cmd state_m1_loaded start_env_no_main
        "module_id=m1 args=\"func=7\"".toList).1.g_mods 0).work_sem = 1 ∧
    (slot_at (handle_start_cmd state_m1_loaded start_env_no_main
        "module_id=m1 args=\"func=7\"".toList).1.g_mods 0).req.func_name = "7\"".toList ∧
    (handle_start_cmd state_m1_loaded start_env_ok
        "module_id=m1 args=\"func=7\"".toList).2 = ["START_OK\n".toList] ∧
    (slot_at (handle_start_cmd state_m1_loaded start_env_ok
        "module_id=m1 args=\"func=7\"".toList).1.g_mods 0).req.func_name = "7\"".toList ∧
    "7\"".toList ≠ "app_main".toList := by
  decide

/-- C12 (amended): take a `START` that finds its slot instantiated, passes the memory
check and finds the slot idle, and in whose argument string the text `func=` occurs
nowhere (inside the value of another parameter included) or is directly followed, at
its first occurrence, by a space, CR, LF, NUL or the end of the string. It is accepted
with function name `app_main` when the instance exports it (reply `START_OK`, the slot
becomes busy and the worker is signalled); otherwise the reply is
`RESULT status=NO_ENTRYPOINT`, with message `args require app_main` when at least one
argument was parsed and `expected app_main` when none was, and the whole state, the
slot included, is unchanged. -/
theorem start_default_entry_point (st : State) (env : start_env) (line p_mod : CStr) (i : Nat)
    (hp : find_param line "module_id".toList = some p_mod)
    (hf : slot_find st.g_mods (copy_param_value p_mod 32) = some i)
    (hi : (slot_at st.g_mods i).inst ≠ none)
    (hmem : ∀ mi, env.mem_info = some mi →
      (if (slot_at st.g_mods i).exec_env.isSome then 4096 else 16384) ≤ mi.total_free_size)
    (hb : (slot_at st.g_mods i).busy = false)
    (hfunc : ¬ ("func".toList ++ ['=']) <:+: line ∨
      ∃ p_func, find_param line "func".toList = some p_func ∧
        ∀ c, p_func.head? = some c → c = '\x00' ∨ c = ' ' ∨ c = '\r' ∨ c = '\n') :
    (env.has_app_main = true →
      (handle_start_cmd st env line).2 = ["START_OK\n".toList] ∧
      (slot_at (handle_start_cmd st env line).1.g_mods i).req.func_name = "app_main".toList ∧
      (slot_at (handle_start_cmd st env line).1.g_mods i).busy = true ∧
      (slot_at (handle_start_cmd st env line).1.g_mods i).work_sem
        = k_sem_give (slot_at st.g_mods i).work_sem) ∧
    (env.has_app_main = false →
      (handle_start_cmd st env line).1 = st ∧
      (0 < (parse_args line).length → (handle_start_cmd st env line).2 =
        ["RESULT status=NO_ENTRYPOINT msg=\"args require app_main\"\n".toList]) ∧
      ((parse_args line).length = 0 → (handle_start_cmd st env line).2 =
        ["RESULT status=NO_ENTRYPOINT msg=\"expected app_main\"\n".toList])) := by
  apply handle_start_cmd_no_func_name st env line p_mod i hp hf hi hmem hb
  intro p_func hfp
  rcases hfunc with hno | ⟨q, hq, hstop⟩
  · rw [(find_param_none_iff line "func".toList).mpr hno] at hfp
    exact Option.noConfusion hfp
  · rw [hq] at hfp
    rw [← Option.some.inj hfp]
    exact copy_param_value_stop q 64 hstop

/-- C12 (amended) at concrete inputs, on the table with `m1` LOADED:
`START module_id=m1` with `app_main` exported; with `app_main` missing,
`START module_id=m1`, `START module_id=m1 args="a=1"` and
`START module_id=m1 func= args="a=1"`. -/
theorem start_default_entry_point_witness :
    ((handle_start_cmd state_m1_loaded start_env_ok "module_id=m1".toList).2
        = ["START_OK\n".toList] ∧
      (slot_at (handle_start_cmd state_m1_loaded start_env_ok
        "module_id=m1".toList).1.g_mods 0).req.func_name = "app_main".toList ∧
      (slot_at (handle_start_cmd state_m1_loaded start_env_ok
        "module_id=m1".toList).1.g_mods 0).busy = true ∧
      (slot_at (handle_start_cmd state_m1_loaded start_env_ok
        "module_id=m1".toList).1.g_mods 0).work_sem
        = k_sem_give (slot_at state_m1_loaded.g_mods 0).work_sem) ∧
    ((handle_start_cmd state_m1_loaded start_env_no_main "module_id=m1".toList).1
        = state_m1_loaded ∧
      (handle_start_cmd state_m1_loaded start_env_no_main "module_id=m1".toList).2
        = ["RESULT status=NO_ENTRYPOINT msg=\"expected app_main\"\n".toList]) ∧
    (handle_start_cmd state_m1_loaded start_env_no_main "module_id=m1 args=\"a=1\"".toList).2
        = ["RESULT status=NO_ENTRYPOINT msg=\"args require app_main\"\n".toList] ∧
    (handle_start_cmd state_m1_loaded start_env_no_main
        "module_id=m1 func= args=\"a=1\"".toList).2
        = ["RESULT status=NO_ENTRYPOINT msg=\"args require app_main\"\n".toList] :=
  ⟨(start_default_entry_point state_m1_loaded start_env_ok "module_id=m1".toList "m1".toList 0
      (by decide) (by decide) (by decide) (by decide) (by decide)
      (Or.inl (by decide))).1 (by decide),
   ⟨((start_default_entry_point state_m1_loaded start_env_no_main "module_id=m1".toList
      "m1".toList 0 (by decide) (by decide) (by decide) (by decide) (by decide)
      (Or.inl (by decide))).2 (by decide)).1,
    ((start_default_entry_point state_m1_loaded start_env_no_main "module_id=m1".toList
      "m1".toList 0 (by decide) (by decide) (by decide) (by decide) (by decide)
      (Or.inl (by decide))).2 (by decide)).2.2 (by decide)⟩,
   ((start_default_entry_point state_m1_loaded start_env_no_main
      "module_id=m1 args=\"a=1\"".toList "m1 args=\"a=1\"".toList 0 (by decide) (by decide)
      (by decide) (by decide) (by decide) (Or.inl (by decide))).2 (by decide)).2.1 (by decide),
   ((start_default_entry_point state_m1_loaded start_env_no_main
      "module_id=m1 func= args=\"a=1\"".toList "m1 func= args=\"a=1\"".toList 0 (by decide)
      (by decide) (by decide) (by decide) (by decide)
      (Or.inr ⟨" args=\"a=1\"".toList, by decide, by decide⟩)).2 (by decide)).2.1 (by decide)⟩

/-! ## Result line of a failed call -/

/-- C21 fails on a long `RESULT status=STOPPED` line: the module id has 31 characters,
the function name 63 and the call fails with the 127-character exception text
`long_terminated`, which contains `terminated`. The line
`RESULT status=STOPPED module_id=<id> func=<f> msg="<text>"` with that text as `msg` has
267 characters with its line feed. The worker formats it into `char out[256]`: the last
of the four strings written after boot, the worker's, is the first 255 characters of
that line, so the last ten characters of the text, the closing quote and the line feed
are missing. -/
theorem worker_stopped_line_is_cut :
    long_module_id.length = 31 ∧ long_func_name.length = 63 ∧ long_terminated.length = 127 ∧
    "terminated".toList <:+: long_terminated ∧
    ("RESULT status=STOPPED module_id=".toList ++ long_module_id ++ " func=".toList
      ++ long_func_name ++ " msg=\"".toList ++ long_terminated ++ "\"\n".toList).length = 267 ∧
    (run State.init events_long_terminated).2.length = 4 ∧
    (run State.init events_long_terminated).2.getLast?
      = some (("RESULT status=STOPPED module_id=".toList ++ long_module_id ++ " func=".toList
          ++ long_func_name ++ " msg=\"".toList ++ long_terminated).take 255) ∧
    (run State.init events_long_terminated).2.getLast?
      ≠ some ("RESULT status=STOPPED module_id=".toList ++ long_module_id ++ " func=".toList
          ++ long_func_name ++ " msg=\"".toList ++ long_terminated ++ "\"\n".toList) ∧
    ((run State.init events_long_terminated).2.getLast?).map
        (fun l => (starts_with l "RESULT status=STOPPED", l.length, l.contains '\n', l.getLast?))
      = some (true, 255, false, some 'e') := by
  decide

end Agent
